import Mathlib

/-! # gr-m17-bridge: AX.25 / M17 protocol conversion

A shallow embedding of the conversion engine of `gr-m17-bridge`:

* `lib/protocol_converter_impl.cc` (the orchestrator: checksums and the two
  single-frame converters),
* `lib/ax25_to_m17_impl.cc` (the stream block: the AX.25 flag-delimited frame
  extractor and its AX.25 -> M17 conversion).

Conventions.  A `std::vector<uint8_t>` and a `std::string` are a `List Nat`
of byte values; wherever the C++ narrows a wider integer to `uint8_t` or
`uint16_t` the embedding writes the reduction `% 256` or `% 65536`
explicitly.  A byte sequence is well formed when all its elements are below
256; theorems that need it say so.
-/

/-! ## Orchestrator: `protocol_converter_impl` -/

/-- The three conversion modes of the orchestrator. -/
inductive conversion_mode_t where
  | CONVERSION_AUTO
  | CONVERSION_M17_TO_AX25
  | CONVERSION_AX25_TO_M17
  deriving DecidableEq, Repr

/-- The configuration fields of `protocol_converter_impl` (strings are byte lists). -/
structure protocol_converter_impl where
  d_m17_callsign : List Nat
  d_m17_destination : List Nat
  d_ax25_callsign : List Nat
  d_ax25_destination : List Nat
  d_enable_fx25 : Bool
  d_enable_il2p : Bool
  d_conversion_mode : conversion_mode_t
  d_frame_counter : Nat
  d_error_count : Nat
  deriving DecidableEq, Repr

namespace protocol_converter_impl

/-- One pass of the inner loop of `calculate_ax25_fcs`:
`if (fcs & 0x0001) fcs = (fcs >> 1) ^ 0x8408; else fcs >>= 1;` on a `uint16_t`. -/
def ax25_fcs_shift (fcs : Nat) : Nat :=
  if fcs &&& 0x0001 ≠ 0 then ((fcs >>> 1) ^^^ 0x8408) % 65536 else (fcs >>> 1) % 65536

/-- The body of the outer loop of `calculate_ax25_fcs`: `fcs ^= byte;` then the
inner loop `for (int i = 0; i < 8; i++)`. -/
def ax25_fcs_byte (fcs byte : Nat) : Nat :=
  ax25_fcs_shift^[8] ((fcs ^^^ byte) % 65536)

/-- `protocol_converter_impl::calculate_ax25_fcs`. -/
def calculate_ax25_fcs (frame : List Nat) : Nat :=
  ((frame.foldl ax25_fcs_byte 0xFFFF) ^^^ 0xFFFF) % 65536

/-- One pass of the inner loop of `calculate_m17_crc`:
`if (crc & 0x8000) crc = (crc << 1) ^ 0x1021; else crc <<= 1;` on a `uint16_t`. -/
def m17_crc_shift (crc : Nat) : Nat :=
  if crc &&& 0x8000 ≠ 0 then ((crc <<< 1) ^^^ 0x1021) % 65536 else (crc <<< 1) % 65536

/-- The body of the outer loop of `calculate_m17_crc`: `crc ^= (byte << 8);` then
the inner loop `for (int i = 0; i < 8; i++)`. -/
def m17_crc_byte (crc byte : Nat) : Nat :=
  m17_crc_shift^[8] ((crc ^^^ (byte <<< 8)) % 65536)

/-- `protocol_converter_impl::calculate_m17_crc`. -/
def calculate_m17_crc (frame : List Nat) : Nat :=
  frame.foldl m17_crc_byte 0xFFFF

/-- The loop `while (m17_frame.size() < 48) m17_frame.push_back(0x00);`. -/
def pad_to_m17_frame_size (m17_frame : List Nat) : List Nat :=
  m17_frame ++ List.replicate (48 - m17_frame.length) 0x00

/-- `protocol_converter_impl::convert_single_ax25_to_m17`. -/
def convert_single_ax25_to_m17 (ax25_frame : List Nat) : List Nat :=
  if ax25_frame.length < 10 then
    []
  else
    let header_size := 14
    let payload : List Nat :=
      if ax25_frame.length > header_size + 2 then
        (ax25_frame.take (ax25_frame.length - 3)).drop header_size
      else
        []
    let m17_frame := pad_to_m17_frame_size ([0x5D, 0x00] ++ payload)
    let crc := calculate_m17_crc m17_frame
    m17_frame ++ [crc &&& 0xFF, (crc >>> 8) &&& 0xFF]

/-- The call `s.resize(6, ' ')` on a `std::string`: cut to 6 characters or pad with spaces. -/
def resize6 (s : List Nat) : List Nat :=
  s.take 6 ++ List.replicate (6 - s.length) 0x20

/-- The loop `for (size_t i = 0; i < 6; i++) ax25_frame.push_back(s[i] << 1);`
over a string already resized to 6, each value narrowed to `uint8_t`. -/
def push_shifted (s : List Nat) : List Nat :=
  (List.range 6).map (fun i => ((s.getD i 0) <<< 1) % 256)

/-- `protocol_converter_impl::convert_single_m17_to_ax25`. -/
def convert_single_m17_to_ax25 (self : protocol_converter_impl) (m17_frame : List Nat) :
    List Nat :=
  if m17_frame.length < 48 then
    []
  else
    let payload := (m17_frame.take (m17_frame.length - 2)).drop 2
    let ax25_frame := [0x7E]
    let dest := resize6 self.d_ax25_destination
    let ax25_frame := ax25_frame ++ push_shifted dest
    let ax25_frame := ax25_frame ++ [0x00]
    let src := resize6 self.d_ax25_callsign
    let ax25_frame := ax25_frame ++ push_shifted src
    let ax25_frame := ax25_frame ++ [0x60]
    let ax25_frame := ax25_frame ++ [0x03]
    let ax25_frame := ax25_frame ++ [0xF0]
    let ax25_frame := ax25_frame ++ payload
    let fcs := calculate_ax25_fcs ax25_frame
    let ax25_frame := ax25_frame ++ [fcs &&& 0xFF]
    let ax25_frame := ax25_frame ++ [(fcs >>> 8) &&& 0xFF]
    ax25_frame ++ [0x7E]

end protocol_converter_impl

/-! ## Stream block: `ax25_to_m17_impl` -/

/-- The processing state `d_state` of the stream block. -/
inductive ax25_to_m17_impl.state_t where
  | STATE_IDLE
  | STATE_FRAME_START
  deriving DecidableEq, Repr

/-- The member fields of `ax25_to_m17_impl` (the constructor's initialiser list plus
`d_m17_frame` and `d_output_buffer`); the counters are C++ `int`s that only count
up from 0 and are taken as unbounded naturals. -/
structure ax25_to_m17_impl where
  d_callsign : List Nat
  d_destination : List Nat
  d_enable_fec : Bool
  d_frame_buffer : List Nat
  d_frame_length : Nat
  d_state : ax25_to_m17_impl.state_t
  d_frame_counter : Nat
  d_bit_stuffer : Nat
  d_bit_count : Nat
  d_m17_frame : List Nat
  d_output_buffer : List Nat
  deriving DecidableEq, Repr

namespace ax25_to_m17_impl

open state_t

/-- `ax25_to_m17_impl::initialize_m17_frame`: clear, push `0x5D`, push `0x00`. -/
def initialize_m17_frame (self : ax25_to_m17_impl) : ax25_to_m17_impl :=
  { self with d_m17_frame := [0x5D, 0x00] }

/-- The constructor `ax25_to_m17_impl::ax25_to_m17_impl`. -/
def make (callsign destination : List Nat) (enable_fec : Bool) : ax25_to_m17_impl :=
  initialize_m17_frame
    { d_callsign := callsign, d_destination := destination, d_enable_fec := enable_fec,
      d_frame_buffer := [], d_frame_length := 0, d_state := STATE_IDLE,
      d_frame_counter := 0, d_bit_stuffer := 0, d_bit_count := 0,
      d_m17_frame := [], d_output_buffer := [] }

/-- One pass of the inner loop of the stream block's `calculate_m17_crc`. -/
def m17_crc_shift (crc : Nat) : Nat :=
  if crc &&& 0x8000 ≠ 0 then ((crc <<< 1) ^^^ 0x1021) % 65536 else (crc <<< 1) % 65536

/-- The body of the outer loop of the stream block's `calculate_m17_crc`. -/
def m17_crc_byte (crc byte : Nat) : Nat :=
  m17_crc_shift^[8] ((crc ^^^ (byte <<< 8)) % 65536)

/-- `ax25_to_m17_impl::calculate_m17_crc`. -/
def calculate_m17_crc (frame : List Nat) : Nat :=
  frame.foldl m17_crc_byte 0xFFFF

/-- The loop `while (m17_frame.size() < 48) m17_frame.push_back(0x00);`. -/
def pad_to_m17_frame_size (m17_frame : List Nat) : List Nat :=
  m17_frame ++ List.replicate (48 - m17_frame.length) 0x00

/-- The M17 frame built by `ax25_to_m17_impl::convert_ax25_to_m17` before it is queued. -/
def build_m17_frame (self : ax25_to_m17_impl) (ax25_payload : List Nat) : List Nat :=
  let m17_frame := pad_to_m17_frame_size (self.d_m17_frame ++ ax25_payload)
  let crc := calculate_m17_crc m17_frame
  m17_frame ++ [crc &&& 0xFF, (crc >>> 8) &&& 0xFF]

/-- `ax25_to_m17_impl::convert_ax25_to_m17`: build the frame, append it to
`d_output_buffer`, count it. -/
def convert_ax25_to_m17 (self : ax25_to_m17_impl) (ax25_payload : List Nat) :
    ax25_to_m17_impl :=
  { self with
    d_output_buffer := self.d_output_buffer ++ build_m17_frame self ax25_payload,
    d_frame_counter := self.d_frame_counter + 1 }

/-- `ax25_to_m17_impl::process_ax25_frame`. -/
def process_ax25_frame (self : ax25_to_m17_impl) : ax25_to_m17_impl :=
  if self.d_frame_buffer.length < 10 then
    self
  else
    let header_size := 14
    let ax25_payload : List Nat :=
      if self.d_frame_buffer.length > header_size + 2 then
        (self.d_frame_buffer.take (self.d_frame_buffer.length - 2)).drop header_size
      else
        []
    convert_ax25_to_m17 self ax25_payload

/-- The body of the `for` loop of `ax25_to_m17_impl::work` for the input byte `b`. -/
def work_byte (self : ax25_to_m17_impl) (b : Nat) : ax25_to_m17_impl :=
  match self.d_state with
  | STATE_IDLE =>
    if b = 0x7E then
      { self with d_state := STATE_FRAME_START, d_frame_length := 0, d_frame_buffer := [],
                  d_bit_stuffer := 0, d_bit_count := 0 }
    else
      self
  | STATE_FRAME_START =>
    if b = 0x7E ∧ self.d_frame_length > 0 then
      { process_ax25_frame self with d_state := STATE_IDLE }
    else
      { self with d_frame_buffer := self.d_frame_buffer ++ [b],
                  d_frame_length := self.d_frame_length + 1 }

/-- `ax25_to_m17_impl::work` on the input items `input` (a sync block:
`noutput_items` is the number of input items).  Returns the new state and the
bytes copied to the output port. -/
def work (self : ax25_to_m17_impl) (input : List Nat) : ax25_to_m17_impl × List Nat :=
  let noutput_items := input.length
  let self := input.foldl work_byte self
  if self.d_output_buffer ≠ [] then
    let to_copy := min self.d_output_buffer.length noutput_items
    ({ self with d_output_buffer := self.d_output_buffer.drop to_copy },
      self.d_output_buffer.take to_copy)
  else
    (self, [])

end ax25_to_m17_impl

/-! ## Reference checksums, following the wording of the specification -/

/-- Reference CRC-16/X-25: "XOR into the low 8 bits" of the accumulator. -/
def spec_xor_low8 (acc byte : Nat) : Nat :=
  256 * (acc / 256) + ((acc % 256) ^^^ byte)

/-- Reference CRC-16/X-25: "if bit0 set, shift right and XOR with 0x8408, else
shift right". -/
def spec_x25_shift (acc : Nat) : Nat :=
  if acc.testBit 0 then (acc / 2) ^^^ 0x8408 else acc / 2

/-- Reference CRC-16/X-25 from a given accumulator: per byte the XOR and 8 shifts,
"after all bytes, XOR result with 0xFFFF". -/
def spec_ax25_fcs_from (acc : Nat) : List Nat → Nat
  | [] => acc ^^^ 0xFFFF
  | b :: bs => spec_ax25_fcs_from (spec_x25_shift^[8] (spec_xor_low8 acc b)) bs

/-- Reference `ax25_fcs(bytes)`: "Initialize accumulator to 0xFFFF." -/
def spec_ax25_fcs (bytes : List Nat) : Nat :=
  spec_ax25_fcs_from 0xFFFF bytes

/-- Reference CRC-16/CCITT: "XOR into the high 8 bits". -/
def spec_xor_high8 (acc byte : Nat) : Nat :=
  256 * ((acc / 256) ^^^ byte) + acc % 256

/-- Reference CRC-16/CCITT: "if bit15 set, shift left and XOR with 0x1021, else
shift left", kept to 16 bits. -/
def spec_ccitt_shift (acc : Nat) : Nat :=
  if acc.testBit 15 then ((2 * acc) ^^^ 0x1021) % 65536 else (2 * acc) % 65536

/-- Reference CRC-16/CCITT from a given accumulator; "No final XOR." -/
def spec_m17_crc_from (acc : Nat) : List Nat → Nat
  | [] => acc
  | b :: bs => spec_m17_crc_from (spec_ccitt_shift^[8] (spec_xor_high8 acc b)) bs

/-- Reference `m17_crc(bytes)`: "Initialize accumulator to 0xFFFF." -/
def spec_m17_crc (bytes : List Nat) : Nat :=
  spec_m17_crc_from 0xFFFF bytes


/-! ## Concrete inputs used by the evaluations below -/

/-- An orchestrator configured as in the repository's tests:
`make("N0CALL", "APRS", "N0CALL", "APRS", false, false)`. -/
def test_converter : protocol_converter_impl :=
  { d_m17_callsign := [0x4E, 0x30, 0x43, 0x41, 0x4C, 0x4C],
    d_m17_destination := [0x41, 0x50, 0x52, 0x53],
    d_ax25_callsign := [0x4E, 0x30, 0x43, 0x41, 0x4C, 0x4C],
    d_ax25_destination := [0x41, 0x50, 0x52, 0x53],
    d_enable_fx25 := false, d_enable_il2p := false,
    d_conversion_mode := conversion_mode_t.CONVERSION_AUTO,
    d_frame_counter := 0, d_error_count := 0 }

/-- A stream block constructed as in the repository's tests: `make("N0CALL", "APRS", false)`. -/
def test_stream_block : ax25_to_m17_impl :=
  ax25_to_m17_impl.make [0x4E, 0x30, 0x43, 0x41, 0x4C, 0x4C] [0x41, 0x50, 0x52, 0x53] false

/-- The ASCII bytes of "HELLO". -/
def hello_info : List Nat := [0x48, 0x45, 0x4C, 0x4C, 0x4F]

/-- The AX.25 UI frame of the end-to-end scenario: flag, destination "APRS  " with SSID
byte 0x60, source "N0CALL" with SSID byte 0x61, control 0x03, PID 0xF0, "HELLO", the FCS
of the bytes between the flags (0xB636, low byte first), flag. -/
def hello_ax25_frame : List Nat :=
  [0x7E,
   0x82, 0xA0, 0xA4, 0xA6, 0x40, 0x40, 0x60,
   0x9C, 0x60, 0x86, 0x82, 0x98, 0x98, 0x61,
   0x03, 0xF0,
   0x48, 0x45, 0x4C, 0x4C, 0x4F,
   0x36, 0xB6,
   0x7E]

/-- A 48-byte M17 frame: sync 0x5D, type 0x00, "HELLO" zero-padded to 44 bytes, and the
M17 CRC of the first 46 bytes, low byte first. -/
def hello_m17_frame : List Nat :=
  [0x5D, 0x00, 0x48, 0x45, 0x4C, 0x4C, 0x4F] ++ List.replicate 39 0x00 ++ [0xBC, 0x42]

/-- A 12-byte input for the stream block: a flag, ten bytes, a flag. -/
def short_flagged_input : List Nat :=
  [0x7E, 0x01, 0x02, 0x03, 0x04, 0x05, 0x06, 0x07, 0x08, 0x09, 0x0A, 0x7E]

/-! ## Orchestrator: the M17 stream scan -/

namespace protocol_converter_impl

/-- The `for (size_t i = 0; i < m17_data.size(); i++)` loop of
`protocol_converter_impl::convert_m17_to_ax25`, from index `i` with the bytes collected so
far in `result`.  Each pass moves `i` forward by at least one, so `fuel` counts the passes
still allowed; `m17_data.size()` passes always suffice. -/
def convert_m17_to_ax25_loop (self : protocol_converter_impl) (m17_data : List Nat) :
    Nat → Nat → List Nat → List Nat
  | 0, _, result => result
  | fuel + 1, i, result =>
    if i < m17_data.length then
      if m17_data.getD i 0 = 0x5D then
        let frame_start := i
        let frame_end := min (i + 48) m17_data.length
        let m17_frame := (m17_data.take frame_end).drop frame_start
        let ax25_frame := self.convert_single_m17_to_ax25 m17_frame
        convert_m17_to_ax25_loop self m17_data fuel (frame_end - 1 + 1) (result ++ ax25_frame)
      else
        convert_m17_to_ax25_loop self m17_data fuel (i + 1) result
    else
      result

/-- `protocol_converter_impl::convert_m17_to_ax25`. -/
def convert_m17_to_ax25 (self : protocol_converter_impl) (m17_data : List Nat) : List Nat :=
  convert_m17_to_ax25_loop self m17_data m17_data.length 0 []

end protocol_converter_impl

/-! ## `std::map<std::string, std::string>` -/

/-- A `std::map<std::string, std::string>`: its entries as (key, value) pairs, at most one
per key in every map built from the empty map by `assign` and `erase`.  The entries are
kept in insertion order; only `find` and `size` are observed. -/
structure string_map where
  entries : List (List Nat × List Nat)
  deriving DecidableEq, Repr

namespace string_map

/-- The default-constructed, empty map; also the result of `clear()`. -/
def empty : string_map :=
  { entries := [] }

/-- The lookup behind `find` on a list of entries. -/
def find_entries : List (List Nat × List Nat) → List Nat → Option (List Nat)
  | [], _ => none
  | (k, v) :: rest, key => if k = key then some v else find_entries rest key

/-- The call `map.find(key)`: the mapped value, or `none` for `end()`. -/
def find (t : string_map) (key : List Nat) : Option (List Nat) :=
  find_entries t.entries key

/-- The assignment behind `map[key] = value` on a list of entries: overwrite the value of
an existing key, insert a new entry otherwise. -/
def assign_entries :
    List (List Nat × List Nat) → List Nat → List Nat → List (List Nat × List Nat)
  | [], key, value => [(key, value)]
  | (k, v) :: rest, key, value =>
    if k = key then (k, value) :: rest else (k, v) :: assign_entries rest key value

/-- The statement `map[key] = value;`. -/
def assign (t : string_map) (key value : List Nat) : string_map :=
  { entries := assign_entries t.entries key value }

/-- The call `map.erase(key)` (also `map.erase(it)` for the iterator of `key`). -/
def erase (t : string_map) (key : List Nat) : string_map :=
  { entries := t.entries.filter (fun e => decide (e.1 ≠ key)) }

/-- The call `map.size()`. -/
def size (t : string_map) : Nat :=
  t.entries.length

end string_map

/-! ## Callsign table: `callsign_mapper_impl` -/

/-- The member fields of `callsign_mapper_impl`, as its constructor initialises them. -/
structure callsign_mapper_impl where
  d_mapping_table : string_map
  d_reverse_mapping_table : string_map
  d_auto_mapping_enabled : Bool
  d_mapping_counter : Nat
  deriving DecidableEq, Repr

namespace callsign_mapper_impl

/-- `callsign_mapper_impl::add_mapping`. -/
def add_mapping (self : callsign_mapper_impl) (m17_callsign ax25_callsign : List Nat) :
    callsign_mapper_impl :=
  { self with
    d_mapping_table := self.d_mapping_table.assign m17_callsign ax25_callsign,
    d_reverse_mapping_table := self.d_reverse_mapping_table.assign ax25_callsign m17_callsign }

/-- `callsign_mapper_impl::remove_mapping`. -/
def remove_mapping (self : callsign_mapper_impl) (m17_callsign : List Nat) :
    callsign_mapper_impl :=
  match self.d_mapping_table.find m17_callsign with
  | some ax25_callsign =>
    { self with
      d_mapping_table := self.d_mapping_table.erase m17_callsign,
      d_reverse_mapping_table := self.d_reverse_mapping_table.erase ax25_callsign }
  | none => self

/-- `callsign_mapper_impl::get_ax25_callsign`: the new state and the returned string. -/
def get_ax25_callsign (self : callsign_mapper_impl) (m17_callsign : List Nat) :
    callsign_mapper_impl × List Nat :=
  match self.d_mapping_table.find m17_callsign with
  | some ax25_callsign => (self, ax25_callsign)
  | none =>
    if self.d_auto_mapping_enabled then
      let ax25_callsign := m17_callsign
      (add_mapping self m17_callsign ax25_callsign, ax25_callsign)
    else
      (self, m17_callsign)

/-- `callsign_mapper_impl::get_m17_callsign`: the new state and the returned string. -/
def get_m17_callsign (self : callsign_mapper_impl) (ax25_callsign : List Nat) :
    callsign_mapper_impl × List Nat :=
  match self.d_reverse_mapping_table.find ax25_callsign with
  | some m17_callsign => (self, m17_callsign)
  | none =>
    if self.d_auto_mapping_enabled then
      let m17_callsign := ax25_callsign
      (add_mapping self m17_callsign ax25_callsign, m17_callsign)
    else
      (self, ax25_callsign)

/-- `callsign_mapper_impl::set_auto_mapping_enabled`. -/
def set_auto_mapping_enabled (self : callsign_mapper_impl) (enabled : Bool) :
    callsign_mapper_impl :=
  { self with d_auto_mapping_enabled := enabled }

/-- `callsign_mapper_impl::is_auto_mapping_enabled`. -/
def is_auto_mapping_enabled (self : callsign_mapper_impl) : Bool :=
  self.d_auto_mapping_enabled

/-- `callsign_mapper_impl::get_mapping_table`. -/
def get_mapping_table (self : callsign_mapper_impl) : string_map :=
  self.d_mapping_table

/-- `callsign_mapper_impl::clear_mappings`. -/
def clear_mappings (self : callsign_mapper_impl) : callsign_mapper_impl :=
  { self with d_mapping_table := string_map.empty,
              d_reverse_mapping_table := string_map.empty }

/-- The ASCII bytes of "N0CALL". -/
def N0CALL : List Nat := [0x4E, 0x30, 0x43, 0x41, 0x4C, 0x4C]

/-- The ASCII bytes of "W1AW". -/
def W1AW : List Nat := [0x57, 0x31, 0x41, 0x57]

/-- The ASCII bytes of "VE3KCL". -/
def VE3KCL : List Nat := [0x56, 0x45, 0x33, 0x4B, 0x43, 0x4C]

/-- The ASCII bytes of "G0ABC". -/
def G0ABC : List Nat := [0x47, 0x30, 0x41, 0x42, 0x43]

/-- The ASCII bytes of "JA1ABC". -/
def JA1ABC : List Nat := [0x4A, 0x41, 0x31, 0x41, 0x42, 0x43]

/-- `callsign_mapper_impl::initialize_default_mappings`. -/
def initialize_default_mappings (self : callsign_mapper_impl) : callsign_mapper_impl :=
  let self := add_mapping self N0CALL N0CALL
  let self := add_mapping self W1AW W1AW
  let self := add_mapping self VE3KCL VE3KCL
  let self := add_mapping self G0ABC G0ABC
  add_mapping self JA1ABC JA1ABC

/-- The constructor `callsign_mapper_impl::callsign_mapper_impl` (behind
`callsign_mapper::make()`). -/
def make : callsign_mapper_impl :=
  initialize_default_mappings
    { d_mapping_table := string_map.empty, d_reverse_mapping_table := string_map.empty,
      d_auto_mapping_enabled := true, d_mapping_counter := 0 }

end callsign_mapper_impl

/-! ## Orchestrator: the AX.25 stream scan, `work` and the setters -/

namespace protocol_converter_impl

/-- The inner loop of `protocol_converter_impl::convert_ax25_to_m17`,
`for (size_t j = i + 1; j < ax25_data.size(); j++) if (ax25_data[j] == 0x7E)
{ frame_end = j + 1; break; }`, over the bytes from index `j` on: the final `frame_end`. -/
def ax25_frame_end_from : List Nat → Nat → Nat → Nat
  | [], _, frame_end => frame_end
  | b :: rest, j, frame_end =>
    if b = 0x7E then j + 1 else ax25_frame_end_from rest (j + 1) frame_end

/-- The `for (size_t i = 0; i < ax25_data.size(); i++)` loop of
`protocol_converter_impl::convert_ax25_to_m17`, from index `i` with the bytes collected so
far in `result`; `fuel` counts the passes still allowed. -/
def convert_ax25_to_m17_loop (ax25_data : List Nat) : Nat → Nat → List Nat → List Nat
  | 0, _, result => result
  | fuel + 1, i, result =>
    if i < ax25_data.length then
      if ax25_data.getD i 0 = 0x7E then
        let frame_start := i
        let frame_end := ax25_frame_end_from (ax25_data.drop (i + 1)) (i + 1) (i + 1)
        let ax25_frame := (ax25_data.take frame_end).drop frame_start
        let m17_frame := convert_single_ax25_to_m17 ax25_frame
        convert_ax25_to_m17_loop ax25_data fuel (frame_end - 1 + 1) (result ++ m17_frame)
      else
        convert_ax25_to_m17_loop ax25_data fuel (i + 1) result
    else
      result

/-- `protocol_converter_impl::convert_ax25_to_m17`. -/
def convert_ax25_to_m17 (ax25_data : List Nat) : List Nat :=
  convert_ax25_to_m17_loop ax25_data ax25_data.length 0 []

/-- The loop of `convert_m17_to_ax25` with its passes counted: `none` when the pass budget
`fuel` is used up before the loop condition `i < m17_data.size()` fails. -/
def convert_m17_to_ax25_passes (self : protocol_converter_impl) (m17_data : List Nat) :
    Nat → Nat → List Nat → Option (List Nat)
  | 0, i, result => if i < m17_data.length then none else some result
  | fuel + 1, i, result =>
    if i < m17_data.length then
      if m17_data.getD i 0 = 0x5D then
        let frame_start := i
        let frame_end := min (i + 48) m17_data.length
        let m17_frame := (m17_data.take frame_end).drop frame_start
        let ax25_frame := self.convert_single_m17_to_ax25 m17_frame
        convert_m17_to_ax25_passes self m17_data fuel (frame_end - 1 + 1) (result ++ ax25_frame)
      else
        convert_m17_to_ax25_passes self m17_data fuel (i + 1) result
    else
      some result

/-- The loop of `convert_ax25_to_m17` with its passes counted: `none` when the pass budget
`fuel` is used up before the loop condition `i < ax25_data.size()` fails. -/
def convert_ax25_to_m17_passes (ax25_data : List Nat) :
    Nat → Nat → List Nat → Option (List Nat)
  | 0, i, result => if i < ax25_data.length then none else some result
  | fuel + 1, i, result =>
    if i < ax25_data.length then
      if ax25_data.getD i 0 = 0x7E then
        let frame_start := i
        let frame_end := ax25_frame_end_from (ax25_data.drop (i + 1)) (i + 1) (i + 1)
        let ax25_frame := (ax25_data.take frame_end).drop frame_start
        let m17_frame := convert_single_ax25_to_m17 ax25_frame
        convert_ax25_to_m17_passes ax25_data fuel (frame_end - 1 + 1) (result ++ m17_frame)
      else
        convert_ax25_to_m17_passes ax25_data fuel (i + 1) result
    else
      some result

/-- What one call of `protocol_converter_impl::work` leaves behind: the bytes written to
output port 0 (`m17_out`), the bytes written to output port 1 (`ax25_out`) and the return
value. -/
structure work_result where
  m17_out : List Nat
  ax25_out : List Nat
  returned : Nat
  deriving DecidableEq, Repr

/-- `protocol_converter_impl::work` for `noutput_items` items on the two input ports
(`m17_in` is input port 0, `ax25_in` input port 1).  No member field is written. -/
def work (self : protocol_converter_impl) (noutput_items : Nat) (m17_in ax25_in : List Nat) :
    work_result :=
  let produced_m17 := 0
  let produced_ax25 := 0
  let ax25_written : List Nat × Nat :=
    if self.d_conversion_mode = conversion_mode_t.CONVERSION_AUTO
        ∨ self.d_conversion_mode = conversion_mode_t.CONVERSION_M17_TO_AX25 then
      let m17_buffer := m17_in.take noutput_items
      let ax25_result := self.convert_m17_to_ax25 m17_buffer
      let to_copy := min ax25_result.length (noutput_items - produced_ax25)
      (ax25_result.take to_copy, produced_ax25 + to_copy)
    else
      ([], produced_ax25)
  let m17_written : List Nat × Nat :=
    if self.d_conversion_mode = conversion_mode_t.CONVERSION_AUTO
        ∨ self.d_conversion_mode = conversion_mode_t.CONVERSION_AX25_TO_M17 then
      let ax25_buffer := ax25_in.take noutput_items
      let m17_result := convert_ax25_to_m17 ax25_buffer
      let to_copy := min m17_result.length (noutput_items - produced_m17)
      (m17_result.take to_copy, produced_m17 + to_copy)
    else
      ([], produced_m17)
  { m17_out := m17_written.1, ax25_out := ax25_written.1,
    returned := max m17_written.2 ax25_written.2 }

/-- `protocol_converter_impl::set_conversion_mode`. -/
def set_conversion_mode (self : protocol_converter_impl) (mode : conversion_mode_t) :
    protocol_converter_impl :=
  { self with d_conversion_mode := mode }

/-- `protocol_converter_impl::set_fx25_enabled`. -/
def set_fx25_enabled (self : protocol_converter_impl) (enabled : Bool) :
    protocol_converter_impl :=
  { self with d_enable_fx25 := enabled }

/-- `protocol_converter_impl::set_il2p_enabled`. -/
def set_il2p_enabled (self : protocol_converter_impl) (enabled : Bool) :
    protocol_converter_impl :=
  { self with d_enable_il2p := enabled }

end protocol_converter_impl

/-! ## Stream block: the FEC setter and sequences of `work` calls -/

namespace ax25_to_m17_impl

/-- `ax25_to_m17_impl::set_fec_enabled`. -/
def set_fec_enabled (self : ax25_to_m17_impl) (enabled : Bool) : ax25_to_m17_impl :=
  { self with d_enable_fec := enabled }

/-- A sequence of `work` calls, one per chunk of input: the final state and the bytes
returned by all the calls, in order. -/
def work_calls (self : ax25_to_m17_impl) : List (List Nat) → ax25_to_m17_impl × List Nat
  | [] => (self, [])
  | input :: rest =>
    let first := work self input
    let others := work_calls first.1 rest
    (others.1, first.2 ++ others.2)

end ax25_to_m17_impl

/-! ## Protocol detector: `detect_protocol` -/

/-- Modelled from the spec: the enumeration `protocol_type_t` of `m17_ax25_bridge.h`, which
is not among the sources; the labels are those `detect_protocol` returns, the spec's
{AX.25, M17, FX.25, IL2P, APRS, unknown}. -/
inductive protocol_type_t where
  | PROTOCOL_UNKNOWN
  | PROTOCOL_AX25
  | PROTOCOL_M17
  | PROTOCOL_FX25
  | PROTOCOL_IL2P
  | PROTOCOL_APRS
  deriving DecidableEq, Repr

/-- The `size_t` subtraction `a - b`, failing (`none`) when it would underflow. -/
def size_sub (a b : Nat) : Option Nat :=
  if b ≤ a then some (a - b) else none

/-- The loop `for (size_t i = 16; i < size - 2; i++) if (data[i] == 0xF0) return
PROTOCOL_APRS;` of `detect_protocol`, from index `i` with `bound = size - 2`: `some true`
when it returns from inside, `some false` when it runs to its end, `none` when a read
`data[i]` is outside the buffer or the pass budget `fuel` is used up. -/
def aprs_scan (data : List Nat) (bound : Nat) : Nat → Nat → Option Bool
  | 0, i => if i < bound then none else some false
  | fuel + 1, i =>
    if i < bound then
      match data[i]? with
      | none => none
      | some b => if b = 0xF0 then some true else aprs_scan data bound fuel (i + 1)
    else
      some false

/-- `detect_protocol` of `m17_bridge_protocol_fuzz.cpp`, with every read `data[i]` checked:
`none` stands for a read outside the buffer or an underflow of `size - 2`. -/
def detect_protocol (data : List Nat) : Option protocol_type_t :=
  let size := data.length
  if size < 2 then
    some protocol_type_t.PROTOCOL_UNKNOWN
  else
    data[0]?.bind fun d0 =>
    if d0 = 0x7E then
      some protocol_type_t.PROTOCOL_AX25
    else
      (if size ≥ 2 then
        data[0]?.bind fun d0 =>
        if d0 = 0x5D then data[1]?.bind fun d1 => some (decide (d1 = 0x5F)) else some false
       else some false).bind fun is_m17 =>
      if is_m17 then
        some protocol_type_t.PROTOCOL_M17
      else
        (if size ≥ 8 then
          data[0]?.bind fun d0 =>
          if d0 = 0xB7 then data[1]?.bind fun d1 => some (decide (d1 = 0x4D)) else some false
         else some false).bind fun is_fx25 =>
        if is_fx25 then
          some protocol_type_t.PROTOCOL_FX25
        else
          (if size ≥ 14 then
            data[0]?.bind fun d0 =>
            let header_type := (d0 >>> 6) % 256
            some (decide (header_type ≤ 3))
           else some false).bind fun is_il2p =>
          if is_il2p then
            some protocol_type_t.PROTOCOL_IL2P
          else
            (if size ≥ 18 then
              data[0]?.bind fun d0 =>
              if d0 = 0x7E then
                (size_sub size 2).bind fun bound => aprs_scan data bound size 16
              else some false
             else some false).bind fun is_aprs =>
            if is_aprs then
              some protocol_type_t.PROTOCOL_APRS
            else
              some protocol_type_t.PROTOCOL_UNKNOWN

/-! ## Concrete inputs for the stream block -/

/-- The stream block after it has consumed the "HELLO" AX.25 frame up to, but not
including, the closing flag. -/
def hello_open_state : ax25_to_m17_impl :=
  hello_ax25_frame.dropLast.foldl ax25_to_m17_impl.work_byte test_stream_block

/-- An idle flag followed by the "HELLO" AX.25 frame: two flags, the frame body, a flag. -/
def flag_then_hello_frame : List Nat :=
  0x7E :: hello_ax25_frame

/-! ## The converters with every range and index checked -/

/-- The iterator range `[v.begin() + first, v.end() - back)` handed to `assign`: `none`
when `v.end() - back` would lie before `v.begin()` or before the start of the range. -/
def checked_range (v : List Nat) (first back : Nat) : Option (List Nat) :=
  if back ≤ v.length ∧ first ≤ v.length - back then
    some ((v.take (v.length - back)).drop first)
  else
    none

/-- The loop `for (size_t i = 0; i < 6; i++) ax25_frame.push_back(s[i] << 1);` with the
reads `s[i]` checked: `none` when an index is outside the string. -/
def push_shifted_checked (s : List Nat) : Option (List Nat) :=
  (List.range 6).mapM (fun i => (s[i]?).map (fun c => (c <<< 1) % 256))

namespace protocol_converter_impl

/-- `convert_single_ax25_to_m17` with its payload range checked. -/
def convert_single_ax25_to_m17_checked (ax25_frame : List Nat) : Option (List Nat) :=
  if ax25_frame.length < 10 then
    some []
  else
    let header_size := 14
    (if ax25_frame.length > header_size + 2 then
      checked_range ax25_frame header_size 3
     else
      some []).bind fun payload =>
    let m17_frame := pad_to_m17_frame_size ([0x5D, 0x00] ++ payload)
    let crc := calculate_m17_crc m17_frame
    some (m17_frame ++ [crc &&& 0xFF, (crc >>> 8) &&& 0xFF])

/-- `convert_single_m17_to_ax25` with its payload range and its callsign reads checked. -/
def convert_single_m17_to_ax25_checked (self : protocol_converter_impl)
    (m17_frame : List Nat) : Option (List Nat) :=
  if m17_frame.length < 48 then
    some []
  else
    (checked_range m17_frame 2 2).bind fun payload =>
    (push_shifted_checked (resize6 self.d_ax25_destination)).bind fun dest_bytes =>
    (push_shifted_checked (resize6 self.d_ax25_callsign)).bind fun src_bytes =>
    let ax25_frame := [0x7E] ++ dest_bytes ++ [0x00] ++ src_bytes ++ [0x60] ++ [0x03] ++ [0xF0]
      ++ payload
    let fcs := calculate_ax25_fcs ax25_frame
    some (ax25_frame ++ [fcs &&& 0xFF] ++ [(fcs >>> 8) &&& 0xFF] ++ [0x7E])

end protocol_converter_impl

namespace ax25_to_m17_impl

/-- `process_ax25_frame` with its payload range checked. -/
def process_ax25_frame_checked (self : ax25_to_m17_impl) : Option ax25_to_m17_impl :=
  if self.d_frame_buffer.length < 10 then
    some self
  else
    let header_size := 14
    (if self.d_frame_buffer.length > header_size + 2 then
      checked_range self.d_frame_buffer header_size 2
     else
      some []).bind fun ax25_payload =>
    some (convert_ax25_to_m17 self ax25_payload)

end ax25_to_m17_impl

/-- The iterator range `[v.begin() + frame_start, v.begin() + frame_end)` from which the
scans build a frame: `none` unless `frame_start <= frame_end <= v.size()`. -/
def checked_slice (v : List Nat) (frame_start frame_end : Nat) : Option (List Nat) :=
  if frame_start ≤ frame_end ∧ frame_end ≤ v.length then
    some ((v.take frame_end).drop frame_start)
  else
    none

namespace protocol_converter_impl

/-- The loop of `convert_m17_to_ax25` with the read `m17_data[i]`, the frame range and the
single-frame converter checked. -/
def convert_m17_to_ax25_loop_checked (self : protocol_converter_impl) (m17_data : List Nat) :
    Nat → Nat → List Nat → Option (List Nat)
  | 0, _, result => some result
  | fuel + 1, i, result =>
    if i < m17_data.length then
      m17_data[i]?.bind fun b =>
      if b = 0x5D then
        let frame_start := i
        let frame_end := min (i + 48) m17_data.length
        (checked_slice m17_data frame_start frame_end).bind fun m17_frame =>
        (self.convert_single_m17_to_ax25_checked m17_frame).bind fun ax25_frame =>
        convert_m17_to_ax25_loop_checked self m17_data fuel (frame_end - 1 + 1)
          (result ++ ax25_frame)
      else
        convert_m17_to_ax25_loop_checked self m17_data fuel (i + 1) result
    else
      some result

/-- The loop of `convert_ax25_to_m17` with the read `ax25_data[i]`, the frame range and the
single-frame converter checked. -/
def convert_ax25_to_m17_loop_checked (ax25_data : List Nat) :
    Nat → Nat → List Nat → Option (List Nat)
  | 0, _, result => some result
  | fuel + 1, i, result =>
    if i < ax25_data.length then
      ax25_data[i]?.bind fun b =>
      if b = 0x7E then
        let frame_start := i
        let frame_end := ax25_frame_end_from (ax25_data.drop (i + 1)) (i + 1) (i + 1)
        (checked_slice ax25_data frame_start frame_end).bind fun ax25_frame =>
        (convert_single_ax25_to_m17_checked ax25_frame).bind fun m17_frame =>
        convert_ax25_to_m17_loop_checked ax25_data fuel (frame_end - 1 + 1)
          (result ++ m17_frame)
      else
        convert_ax25_to_m17_loop_checked ax25_data fuel (i + 1) result
    else
      some result

end protocol_converter_impl

/-! ## Concrete inputs for the round trips -/

/-- A 48-byte M17 frame whose payload starts with the byte 0x7E ("~"): sync 0x5D, type
0x00, 0x7E, zero padding, and the M17 CRC of the first 46 bytes, low byte first. -/
def tilde_m17_frame : List Nat :=
  [0x5D, 0x00, 0x7E] ++ List.replicate 43 0x00 ++ [0x88, 0x85]

/-- The flag-stripped body of the "HELLO" AX.25 frame: addresses, control, PID, "HELLO"
and the FCS. -/
def hello_ax25_body : List Nat :=
  (hello_ax25_frame.drop 1).dropLast

/-! # Theorems -/

/-! ## The concrete frames carry valid checksums -/

/-- The trailing bytes of `hello_ax25_frame` are the AX.25 FCS of the bytes between its
flags, and those of `hello_m17_frame` the M17 CRC of its first 46 bytes, low byte first;
all bytes of both frames are below 256. -/
theorem hello_frames_well_formed :
    protocol_converter_impl.calculate_ax25_fcs ((hello_ax25_frame.drop 1).take 21) = 0xB636
    ∧ hello_ax25_frame.drop 22 = [0x36, 0xB6, 0x7E]
    ∧ protocol_converter_impl.calculate_m17_crc (hello_m17_frame.take 46) = 0x42BC
    ∧ hello_m17_frame.drop 46 = [0xBC, 0x42]
    ∧ hello_ax25_frame.length = 25 ∧ hello_m17_frame.length = 48
    ∧ (∀ b ∈ hello_ax25_frame, b < 256) ∧ (∀ b ∈ hello_m17_frame, b < 256) := by
  decide!

/-! ## The checksums against their reference definitions -/

namespace protocol_converter_impl

theorem ax25_fcs_shift_lt (fcs : Nat) : ax25_fcs_shift fcs < 65536 := by
  unfold ax25_fcs_shift
  split <;> exact Nat.mod_lt _ (by norm_num)

theorem ax25_fcs_shift_eq_spec (fcs : Nat) (h : fcs < 65536) :
    ax25_fcs_shift fcs = spec_x25_shift fcs := by
  unfold ax25_fcs_shift spec_x25_shift
  have h2 : fcs / 2 < 2 ^ 16 := by omega
  have hx : (fcs / 2) ^^^ 0x8408 < 2 ^ 16 := Nat.xor_lt_two_pow h2 (by norm_num)
  rw [Nat.and_one_is_mod, Nat.shiftRight_eq_div_pow, Nat.testBit_zero]
  simp only [pow_one]
  by_cases hb : fcs % 2 = 1
  · have : fcs % 2 ≠ 0 := by omega
    simp only [hb, this, ne_eq, not_false_eq_true, ite_true, decide_True]
    exact Nat.mod_eq_of_lt hx
  · have : fcs % 2 = 0 := by omega
    simp only [this, ne_eq, not_true_eq_false, ite_false, hb, decide_False]
    simp
    omega

theorem ax25_fcs_iterate_lt (n : Nat) (fcs : Nat) (h : fcs < 65536) :
    ax25_fcs_shift^[n] fcs < 65536 := by
  induction n generalizing fcs with
  | zero => simpa using h
  | succ k ih =>
    rw [Function.iterate_succ_apply]
    exact ih _ (ax25_fcs_shift_lt fcs)

theorem ax25_fcs_iterate_eq_spec (n : Nat) (fcs : Nat) (h : fcs < 65536) :
    ax25_fcs_shift^[n] fcs = spec_x25_shift^[n] fcs := by
  induction n generalizing fcs with
  | zero => rfl
  | succ k ih =>
    rw [Function.iterate_succ_apply, Function.iterate_succ_apply,
      ← ax25_fcs_shift_eq_spec fcs h]
    exact ih _ (ax25_fcs_shift_lt fcs)

theorem xor_low8_eq_spec (fcs byte : Nat) (h : fcs < 65536) (hb : byte < 256) :
    (fcs ^^^ byte) % 65536 = spec_xor_low8 fcs byte := by
  have hb16 : byte < 2 ^ 16 := by omega
  have hx : fcs ^^^ byte < 65536 := @Nat.xor_lt_two_pow fcs byte 16 h hb16
  rw [Nat.mod_eq_of_lt hx]
  unfold spec_xor_low8
  have hr : (fcs % 256) ^^^ byte < 2 ^ 8 :=
    Nat.xor_lt_two_pow (Nat.mod_lt _ (by norm_num)) hb
  apply Nat.eq_of_testBit_eq
  intro j
  have key := Nat.testBit_mul_pow_two_add (fcs / 256) hr j
  rw [show (2:Nat) ^ 8 = 256 from rfl] at key
  rw [key]
  by_cases hj : j < 8
  · simp only [hj, ite_true, Nat.testBit_xor]
    rw [show (256:Nat) = 2 ^ 8 from rfl, Nat.testBit_mod_two_pow]
    simp [hj]
  · simp only [hj, ite_false, Nat.testBit_xor]
    have hbj : byte.testBit j = false :=
      Nat.testBit_lt_two_pow (lt_of_lt_of_le hb (by
        rw [show (256:Nat) = 2 ^ 8 from rfl]
        exact Nat.pow_le_pow_right (by norm_num) (by omega)))
    rw [hbj, show (256:Nat) = 2 ^ 8 from rfl, ← Nat.shiftRight_eq_div_pow,
      Nat.testBit_shiftRight]
    simp
    congr 1
    omega

theorem ax25_fcs_byte_lt (fcs byte : Nat) : ax25_fcs_byte fcs byte < 65536 :=
  ax25_fcs_iterate_lt 8 _ (Nat.mod_lt _ (by norm_num))

theorem ax25_fcs_byte_eq_spec (fcs byte : Nat) (h : fcs < 65536) (hb : byte < 256) :
    ax25_fcs_byte fcs byte = spec_x25_shift^[8] (spec_xor_low8 fcs byte) := by
  unfold ax25_fcs_byte
  rw [ax25_fcs_iterate_eq_spec 8 _ (Nat.mod_lt _ (by norm_num)), xor_low8_eq_spec fcs byte h hb]

theorem ax25_fcs_foldl_eq_spec (frame : List Nat) (hf : ∀ b ∈ frame, b < 256)
    (fcs : Nat) (h : fcs < 65536) :
    ((frame.foldl ax25_fcs_byte fcs) ^^^ 0xFFFF) % 65536 = spec_ax25_fcs_from fcs frame := by
  induction frame generalizing fcs with
  | nil =>
    simp only [List.foldl_nil, spec_ax25_fcs_from]
    exact Nat.mod_eq_of_lt (@Nat.xor_lt_two_pow fcs 0xFFFF 16 h (by norm_num))
  | cons b bs ih =>
    simp only [List.foldl_cons, spec_ax25_fcs_from]
    rw [← ax25_fcs_byte_eq_spec fcs b h (hf b (List.mem_cons_self _ _))]
    exact ih (fun x hx => hf x (List.mem_cons_of_mem _ hx)) _ (ax25_fcs_byte_lt fcs b)

end protocol_converter_impl
namespace protocol_converter_impl

theorem m17_crc_shift_lt (crc : Nat) : m17_crc_shift crc < 65536 := by
  unfold m17_crc_shift
  split <;> exact Nat.mod_lt _ (by norm_num)

theorem m17_crc_shift_eq_spec (crc : Nat) : m17_crc_shift crc = spec_ccitt_shift crc := by
  unfold m17_crc_shift spec_ccitt_shift
  rw [show (0x8000 : Nat) = 2 ^ 15 from rfl, Nat.and_two_pow, Nat.shiftLeft_eq, pow_one,
    Nat.mul_comm crc 2]
  cases hbit : crc.testBit 15 <;> simp

theorem m17_crc_iterate_lt (n : Nat) (crc : Nat) (h : crc < 65536) :
    m17_crc_shift^[n] crc < 65536 := by
  induction n generalizing crc with
  | zero => simpa using h
  | succ k ih =>
    rw [Function.iterate_succ_apply]
    exact ih _ (m17_crc_shift_lt crc)

theorem m17_crc_iterate_eq_spec (n : Nat) (crc : Nat) :
    m17_crc_shift^[n] crc = spec_ccitt_shift^[n] crc := by
  induction n generalizing crc with
  | zero => rfl
  | succ k ih =>
    rw [Function.iterate_succ_apply, Function.iterate_succ_apply, ← m17_crc_shift_eq_spec crc]
    exact ih _

theorem xor_high8_eq_spec (crc byte : Nat) (h : crc < 65536) (hb : byte < 256) :
    (crc ^^^ (byte <<< 8)) % 65536 = spec_xor_high8 crc byte := by
  have hs : byte <<< 8 < 2 ^ 16 := by
    rw [Nat.shiftLeft_eq]
    norm_num
    omega
  have hx : crc ^^^ (byte <<< 8) < 65536 := @Nat.xor_lt_two_pow crc (byte <<< 8) 16 h hs
  rw [Nat.mod_eq_of_lt hx]
  unfold spec_xor_high8
  have hr : crc % 256 < 2 ^ 8 := Nat.mod_lt _ (by norm_num)
  apply Nat.eq_of_testBit_eq
  intro j
  have key := Nat.testBit_mul_pow_two_add ((crc / 256) ^^^ byte) hr j
  rw [show (2:Nat) ^ 8 = 256 from rfl] at key
  rw [key, Nat.testBit_xor, Nat.testBit_shiftLeft]
  by_cases hj : j < 8
  · have hge : ¬ j ≥ 8 := by omega
    simp only [hj, ite_true, hge, decide_False, Bool.false_and, Bool.xor_false]
    rw [show (256:Nat) = 2 ^ 8 from rfl, Nat.testBit_mod_two_pow]
    simp [hj]
  · have hge : j ≥ 8 := by omega
    simp only [hj, ite_false, hge, decide_True, Bool.true_and, Nat.testBit_xor]
    rw [show (256:Nat) = 2 ^ 8 from rfl, ← Nat.shiftRight_eq_div_pow, Nat.testBit_shiftRight]
    congr 2
    omega

theorem m17_crc_byte_lt (crc byte : Nat) : m17_crc_byte crc byte < 65536 :=
  m17_crc_iterate_lt 8 _ (Nat.mod_lt _ (by norm_num))

theorem m17_crc_byte_eq_spec (crc byte : Nat) (h : crc < 65536) (hb : byte < 256) :
    m17_crc_byte crc byte = spec_ccitt_shift^[8] (spec_xor_high8 crc byte) := by
  unfold m17_crc_byte
  rw [m17_crc_iterate_eq_spec 8 _, xor_high8_eq_spec crc byte h hb]

theorem m17_crc_foldl_lt (frame : List Nat) (crc : Nat) (h : crc < 65536) :
    frame.foldl m17_crc_byte crc < 65536 := by
  induction frame generalizing crc with
  | nil => simpa using h
  | cons b bs ih =>
    simp only [List.foldl_cons]
    exact ih _ (m17_crc_byte_lt crc b)

theorem calculate_m17_crc_lt (frame : List Nat) : calculate_m17_crc frame < 65536 :=
  m17_crc_foldl_lt frame 0xFFFF (by norm_num)

theorem m17_crc_foldl_eq_spec (frame : List Nat) (hf : ∀ b ∈ frame, b < 256)
    (crc : Nat) (h : crc < 65536) :
    frame.foldl m17_crc_byte crc = spec_m17_crc_from crc frame := by
  induction frame generalizing crc with
  | nil => rfl
  | cons b bs ih =>
    simp only [List.foldl_cons, spec_m17_crc_from]
    rw [← m17_crc_byte_eq_spec crc b h (hf b (List.mem_cons_self _ _))]
    exact ih (fun x hx => hf x (List.mem_cons_of_mem _ hx)) _ (m17_crc_byte_lt crc b)

end protocol_converter_impl

/-- The stream block's copy of `calculate_m17_crc` computes what the orchestrator's does. -/
theorem m17_crc_copies_agree (frame : List Nat) :
    ax25_to_m17_impl.calculate_m17_crc frame = protocol_converter_impl.calculate_m17_crc frame :=
  rfl


/-! ## C7: the AX.25 frame check sequence -/

/-- C7: on every byte sequence `calculate_ax25_fcs` returns its CRC-16/X-25 as the
specification words it (accumulator 0xFFFF, each byte XORed into the low 8 bits, 8
right-shift steps with polynomial 0x8408, final XOR 0xFFFF), a 16-bit value; it returns
0x0000 on the empty sequence and 0x906E on the nine ASCII bytes "123456789". -/
theorem C7_calculate_ax25_fcs_is_crc16_x25 (frame : List Nat)
    (hframe : ∀ b ∈ frame, b < 256) :
    protocol_converter_impl.calculate_ax25_fcs frame = spec_ax25_fcs frame
    ∧ protocol_converter_impl.calculate_ax25_fcs frame < 65536
    ∧ protocol_converter_impl.calculate_ax25_fcs [] = 0x0000
    ∧ protocol_converter_impl.calculate_ax25_fcs
        [0x31, 0x32, 0x33, 0x34, 0x35, 0x36, 0x37, 0x38, 0x39] = 0x906E := by
  refine ⟨?_, ?_, by decide!, by decide!⟩
  · exact protocol_converter_impl.ax25_fcs_foldl_eq_spec frame hframe 0xFFFF (by norm_num)
  · exact Nat.mod_lt _ (by norm_num)

/-- C7 at the "HELLO" AX.25 frame. -/
theorem C7_calculate_ax25_fcs_is_crc16_x25_witness :
    (∀ b ∈ hello_ax25_frame, b < 256)
    ∧ (protocol_converter_impl.calculate_ax25_fcs hello_ax25_frame
        = spec_ax25_fcs hello_ax25_frame
      ∧ protocol_converter_impl.calculate_ax25_fcs hello_ax25_frame < 65536
      ∧ protocol_converter_impl.calculate_ax25_fcs [] = 0x0000
      ∧ protocol_converter_impl.calculate_ax25_fcs
          [0x31, 0x32, 0x33, 0x34, 0x35, 0x36, 0x37, 0x38, 0x39] = 0x906E) :=
  ⟨by decide, C7_calculate_ax25_fcs_is_crc16_x25 hello_ax25_frame (by decide)⟩

/-! ## The M17 trailer written by the AX.25 -> M17 converter -/

/-- A 16-bit value is recovered from the two bytes `crc & 0xFF`, `(crc >> 8) & 0xFF`. -/
theorem crc_bytes_recombine (crc : Nat) (h : crc < 65536) :
    (crc &&& 0xFF) + 256 * ((crc >>> 8) &&& 0xFF) = crc
    ∧ crc &&& 0xFF < 256 ∧ (crc >>> 8) &&& 0xFF < 256 := by
  have e1 : crc &&& 0xFF = crc % 2 ^ 8 := Nat.and_pow_two_sub_one_eq_mod crc 8
  have e2 : (crc >>> 8) &&& 0xFF = (crc >>> 8) % 2 ^ 8 :=
    Nat.and_pow_two_sub_one_eq_mod (crc >>> 8) 8
  rw [e1, e2, Nat.shiftRight_eq_div_pow]
  norm_num
  omega

/-- Reading back a frame `body ++ [lo, hi]`: the body is the frame without its last two
bytes and `lo`, `hi` sit at the last two offsets. -/
theorem trailer_readback (body : List Nat) (lo hi : Nat) :
    2 ≤ (body ++ [lo, hi]).length
    ∧ (body ++ [lo, hi]).take ((body ++ [lo, hi]).length - 2) = body
    ∧ (body ++ [lo, hi])[(body ++ [lo, hi]).length - 2]? = some lo
    ∧ (body ++ [lo, hi])[(body ++ [lo, hi]).length - 1]? = some hi := by
  have hlen : (body ++ [lo, hi]).length = body.length + 2 := by simp
  refine ⟨by omega, ?_, ?_, ?_⟩
  · rw [hlen, Nat.add_sub_cancel]
    exact List.take_left' rfl
  · rw [hlen, Nat.add_sub_cancel, List.getElem?_append_right (le_refl _)]
    simp
  · rw [hlen, show body.length + 2 - 1 = body.length + 1 from rfl,
      List.getElem?_append_right (by omega)]
    simp

/-- The shape of every non-empty result of `convert_single_ax25_to_m17`. -/
theorem convert_single_ax25_to_m17_shape (f : List Nat) (h : 10 ≤ f.length) :
    ∃ body : List Nat,
      48 ≤ body.length ∧
      protocol_converter_impl.convert_single_ax25_to_m17 f =
        body ++ [protocol_converter_impl.calculate_m17_crc body &&& 0xFF,
                 (protocol_converter_impl.calculate_m17_crc body >>> 8) &&& 0xFF] := by
  have hn : ¬ f.length < 10 := by omega
  unfold protocol_converter_impl.convert_single_ax25_to_m17
  simp only [hn, ite_false]
  refine ⟨_, ?_, rfl⟩
  unfold protocol_converter_impl.pad_to_m17_frame_size
  rw [List.length_append, List.length_replicate]
  omega

/-- C3: for every AX.25 input of at least 16 bytes the frame returned by
`convert_single_ax25_to_m17` has at least 2 bytes, and `calculate_m17_crc` recomputed over
the frame without its last two bytes equals the value `lo + 256 * hi` of the two trailing
bytes the converter appended (low byte first). -/
theorem C3_converted_frame_revalidates (f : List Nat) (hf : 16 ≤ f.length) :
    ∃ lo hi : Nat,
      2 ≤ (protocol_converter_impl.convert_single_ax25_to_m17 f).length
      ∧ (protocol_converter_impl.convert_single_ax25_to_m17 f)[
          (protocol_converter_impl.convert_single_ax25_to_m17 f).length - 2]? = some lo
      ∧ (protocol_converter_impl.convert_single_ax25_to_m17 f)[
          (protocol_converter_impl.convert_single_ax25_to_m17 f).length - 1]? = some hi
      ∧ lo < 256 ∧ hi < 256
      ∧ protocol_converter_impl.calculate_m17_crc
          ((protocol_converter_impl.convert_single_ax25_to_m17 f).take
            ((protocol_converter_impl.convert_single_ax25_to_m17 f).length - 2))
        = lo + 256 * hi := by
  obtain ⟨body, _, hout⟩ := convert_single_ax25_to_m17_shape f (by omega)
  obtain ⟨hsum, hlo, hhi⟩ :=
    crc_bytes_recombine _ (protocol_converter_impl.calculate_m17_crc_lt body)
  obtain ⟨h2, htake, hget2, hget1⟩ :=
    trailer_readback body (protocol_converter_impl.calculate_m17_crc body &&& 0xFF)
      ((protocol_converter_impl.calculate_m17_crc body >>> 8) &&& 0xFF)
  rw [hout]
  exact ⟨_, _, h2, hget2, hget1, hlo, hhi, by rw [htake, hsum]⟩

/-- C3 at the "HELLO" frame (25 bytes). -/
theorem C3_converted_frame_revalidates_witness :
    16 ≤ hello_ax25_frame.length
    ∧ ∃ lo hi : Nat,
      2 ≤ (protocol_converter_impl.convert_single_ax25_to_m17 hello_ax25_frame).length
      ∧ (protocol_converter_impl.convert_single_ax25_to_m17 hello_ax25_frame)[
          (protocol_converter_impl.convert_single_ax25_to_m17 hello_ax25_frame).length - 2]?
          = some lo
      ∧ (protocol_converter_impl.convert_single_ax25_to_m17 hello_ax25_frame)[
          (protocol_converter_impl.convert_single_ax25_to_m17 hello_ax25_frame).length - 1]?
          = some hi
      ∧ lo < 256 ∧ hi < 256
      ∧ protocol_converter_impl.calculate_m17_crc
          ((protocol_converter_impl.convert_single_ax25_to_m17 hello_ax25_frame).take
            ((protocol_converter_impl.convert_single_ax25_to_m17 hello_ax25_frame).length - 2))
        = lo + 256 * hi :=
  ⟨by decide, C3_converted_frame_revalidates hello_ax25_frame (by decide)⟩

/-! ## C1, C2: where the information field lands and how long the frame is -/

/-- C1 (evaluation at the "HELLO" frame): the orchestrator's `convert_single_ax25_to_m17`
puts the source SSID byte, the control byte and the PID byte at offsets 2..4 and "HELLO"
only at offsets 5..9; the stream block's `work` queues a frame with control and PID at
offsets 2..3 and "HELLO" at offsets 4..8.  In neither frame are the 5 bytes after
`0x5D 0x00` the information field, and the bytes after them are not all zero. -/
theorem C1_hello_info_not_at_offset_2 :
    protocol_converter_impl.convert_single_ax25_to_m17 hello_ax25_frame
      = [0x5D, 0x00, 0x61, 0x03, 0xF0] ++ hello_info ++ List.replicate 38 0x00 ++ [0x80, 0x7F]
    ∧ ((protocol_converter_impl.convert_single_ax25_to_m17 hello_ax25_frame).drop 2).take 5
      ≠ hello_info
    ∧ (ax25_to_m17_impl.work test_stream_block hello_ax25_frame).2
        ++ (ax25_to_m17_impl.work test_stream_block hello_ax25_frame).1.d_output_buffer
      = [0x5D, 0x00, 0x03, 0xF0] ++ hello_info ++ List.replicate 39 0x00 ++ [0x86, 0xF5]
    ∧ (((ax25_to_m17_impl.work test_stream_block hello_ax25_frame).2
        ++ (ax25_to_m17_impl.work test_stream_block hello_ax25_frame).1.d_output_buffer).drop 2).take 5
      ≠ hello_info := by
  decide!

/-- C2 (evaluation at the "HELLO" frame): both AX.25 -> M17 paths emit a 50-byte frame,
a 48-byte zero-padded body followed by the 2 CRC bytes; not a 48-byte frame. -/
theorem C2_hello_frame_is_50_bytes :
    (protocol_converter_impl.convert_single_ax25_to_m17 hello_ax25_frame).length = 50
    ∧ ((ax25_to_m17_impl.work test_stream_block hello_ax25_frame).2
        ++ (ax25_to_m17_impl.work test_stream_block hello_ax25_frame).1.d_output_buffer).length
      = 50
    ∧ (ax25_to_m17_impl.work test_stream_block hello_ax25_frame).1.d_frame_counter = 1 := by
  decide!

/-- Every non-empty result of `convert_single_ax25_to_m17` has at least 50 bytes. -/
theorem convert_single_ax25_to_m17_length_ge (f : List Nat) :
    protocol_converter_impl.convert_single_ax25_to_m17 f = []
    ∨ 50 ≤ (protocol_converter_impl.convert_single_ax25_to_m17 f).length := by
  by_cases h : f.length < 10
  · left
    unfold protocol_converter_impl.convert_single_ax25_to_m17
    simp [h]
  · right
    obtain ⟨body, hb, hout⟩ := convert_single_ax25_to_m17_shape f (by omega)
    rw [hout, List.length_append]
    simp
    omega

/-! ## C4: the layout of the AX.25 frame built from an M17 frame -/

/-- Character `i < 6` of a string resized to 6 is character `i` of the string, or a space. -/
theorem resize6_getD (s : List Nat) (i : Nat) (hi : i < 6) :
    (protocol_converter_impl.resize6 s).getD i 0 = s.getD i 0x20 := by
  unfold protocol_converter_impl.resize6
  rw [List.getD_eq_getElem?_getD, List.getD_eq_getElem?_getD]
  by_cases h : i < s.length
  · have h1 : i < (s.take 6).length := by
      rw [List.length_take]
      omega
    rw [List.getElem?_append_left h1, List.getElem?_take_of_lt hi, List.getElem?_eq_getElem h]
    rfl
  · have h1 : (s.take 6).length = s.length := by
      rw [List.length_take]
      omega
    have h2 : (s.take 6).length ≤ i := by omega
    rw [List.getElem?_append_right h2, h1, List.getElem?_eq_none (by omega : s.length ≤ i)]
    have h3 : i - s.length < 6 - s.length := by omega
    simp [List.getElem?_replicate, h3]

/-- The six address bytes pushed for a configured callsign `s`. -/
theorem push_shifted_resize6 (s : List Nat) :
    protocol_converter_impl.push_shifted (protocol_converter_impl.resize6 s)
      = (List.range 6).map (fun i => ((s.getD i 0x20) <<< 1) % 256) := by
  unfold protocol_converter_impl.push_shifted
  apply List.map_congr_left
  intro i hi
  rw [resize6_getD s i (List.mem_range.mp hi)]

/-- A string resized to 6 depends on its first 6 characters only. -/
theorem resize6_take (s : List Nat) :
    protocol_converter_impl.resize6 (s.take 6) = protocol_converter_impl.resize6 s := by
  unfold protocol_converter_impl.resize6
  rw [List.take_take, List.length_take]
  congr 2
  omega

/-- The bytes of the frame built by `convert_single_m17_to_ax25` that precede the FCS. -/
theorem convert_single_m17_to_ax25_eq (self : protocol_converter_impl) (f : List Nat)
    (h : 48 ≤ f.length) :
    ∃ pre : List Nat,
      pre = [0x7E] ++ protocol_converter_impl.push_shifted
                  (protocol_converter_impl.resize6 self.d_ax25_destination)
        ++ [0x00]
        ++ protocol_converter_impl.push_shifted
                  (protocol_converter_impl.resize6 self.d_ax25_callsign)
        ++ [0x60, 0x03, 0xF0]
        ++ (f.take (f.length - 2)).drop 2
      ∧ self.convert_single_m17_to_ax25 f =
        pre ++ [protocol_converter_impl.calculate_ax25_fcs pre &&& 0xFF,
                (protocol_converter_impl.calculate_ax25_fcs pre >>> 8) &&& 0xFF] ++ [0x7E] := by
  have hn : ¬ f.length < 48 := by omega
  refine ⟨_, rfl, ?_⟩
  unfold protocol_converter_impl.convert_single_m17_to_ax25
  simp only [hn, ite_false]
  simp only [List.append_assoc, List.cons_append, List.nil_append]

/-- The payload slice `[begin + 2, end - 2)` written as drop-then-take. -/
theorem payload_slice (f : List Nat) :
    (f.take (f.length - 2)).drop 2 = (f.drop 2).take (f.length - 4) := by
  rw [List.drop_take]
  congr 1

/-- C4: for an M17 frame `f` of at least 48 bytes, `convert_single_m17_to_ax25` returns
0x7E, the 6 bytes `(c << 1) mod 256` of the destination cut or space-padded to 6, 0x00,
the same encoding of the source callsign, 0x60, 0x03, 0xF0, the payload `f[2 .. |f|-2)`,
two FCS bytes, 0x7E; its length is `|f| + 16`; and it depends on the two configured
callsigns only through their first 6 characters. -/
theorem C4_m17_to_ax25_frame_layout (self : protocol_converter_impl) (f : List Nat)
    (hf : 48 ≤ f.length) :
    (∃ fcs_lo fcs_hi : Nat, fcs_lo < 256 ∧ fcs_hi < 256 ∧
      self.convert_single_m17_to_ax25 f =
        [0x7E]
          ++ (List.range 6).map (fun i => ((self.d_ax25_destination.getD i 0x20) <<< 1) % 256)
          ++ [0x00]
          ++ (List.range 6).map (fun i => ((self.d_ax25_callsign.getD i 0x20) <<< 1) % 256)
          ++ [0x60, 0x03, 0xF0]
          ++ (f.drop 2).take (f.length - 4)
          ++ [fcs_lo, fcs_hi]
          ++ [0x7E])
    ∧ (self.convert_single_m17_to_ax25 f).length = f.length + 16
    ∧ (∀ other : protocol_converter_impl,
        other.d_ax25_destination.take 6 = self.d_ax25_destination.take 6 →
        other.d_ax25_callsign.take 6 = self.d_ax25_callsign.take 6 →
        other.convert_single_m17_to_ax25 f = self.convert_single_m17_to_ax25 f) := by
  obtain ⟨pre, hpre, heq⟩ := convert_single_m17_to_ax25_eq self f hf
  refine ⟨?_, ?_, ?_⟩
  · refine ⟨protocol_converter_impl.calculate_ax25_fcs pre &&& 0xFF,
      (protocol_converter_impl.calculate_ax25_fcs pre >>> 8) &&& 0xFF, ?_, ?_, ?_⟩
    · exact Nat.and_lt_two_pow _ (by norm_num : 0xFF < 2 ^ 8)
    · exact Nat.and_lt_two_pow _ (by norm_num : 0xFF < 2 ^ 8)
    · rw [heq, hpre, push_shifted_resize6, push_shifted_resize6, payload_slice]
  · rw [heq, hpre]
    simp only [List.length_append, List.length_cons, List.length_nil, List.length_drop,
      List.length_take, protocol_converter_impl.push_shifted, List.length_map,
      List.length_range]
    omega
  · intro other hd hs
    obtain ⟨pre2, hpre2, heq2⟩ := convert_single_m17_to_ax25_eq other f hf
    have hsame : pre2 = pre := by
      rw [hpre2, hpre, ← resize6_take other.d_ax25_destination,
        ← resize6_take other.d_ax25_callsign, hd, hs, resize6_take, resize6_take]
    rw [heq, heq2, hsame]

/-- C4 at the 48-byte "HELLO" M17 frame with the test configuration. -/
theorem C4_m17_to_ax25_frame_layout_witness :
    48 ≤ hello_m17_frame.length
    ∧ ((∃ fcs_lo fcs_hi : Nat, fcs_lo < 256 ∧ fcs_hi < 256 ∧
        test_converter.convert_single_m17_to_ax25 hello_m17_frame =
          [0x7E]
            ++ (List.range 6).map
                (fun i => ((test_converter.d_ax25_destination.getD i 0x20) <<< 1) % 256)
            ++ [0x00]
            ++ (List.range 6).map
                (fun i => ((test_converter.d_ax25_callsign.getD i 0x20) <<< 1) % 256)
            ++ [0x60, 0x03, 0xF0]
            ++ (hello_m17_frame.drop 2).take (hello_m17_frame.length - 4)
            ++ [fcs_lo, fcs_hi]
            ++ [0x7E])
      ∧ (test_converter.convert_single_m17_to_ax25 hello_m17_frame).length
          = hello_m17_frame.length + 16
      ∧ (∀ other : protocol_converter_impl,
          other.d_ax25_destination.take 6 = test_converter.d_ax25_destination.take 6 →
          other.d_ax25_callsign.take 6 = test_converter.d_ax25_callsign.take 6 →
          other.convert_single_m17_to_ax25 hello_m17_frame
            = test_converter.convert_single_m17_to_ax25 hello_m17_frame)) :=
  ⟨by decide, C4_m17_to_ax25_frame_layout test_converter hello_m17_frame (by decide)⟩

/-! ## C5, C6: the FCS range and the source SSID byte -/

/-- C5 (evaluation at the 48-byte "HELLO" M17 frame, test configuration): the emitted
frame has 64 bytes and its FCS bytes `out[61], out[62]` are 0x84, 0xB1, the low and high
byte of `calculate_ax25_fcs` over `out[0 .. 61)`, opening flag included; the FCS over
`out[1 .. 61)`, destination address through payload, is 0x3BF2 and would give 0xF2, 0x3B. -/
theorem C5_fcs_covers_opening_flag :
    (test_converter.convert_single_m17_to_ax25 hello_m17_frame).length = 64
    ∧ (test_converter.convert_single_m17_to_ax25 hello_m17_frame)[61]? = some 0x84
    ∧ (test_converter.convert_single_m17_to_ax25 hello_m17_frame)[62]? = some 0xB1
    ∧ protocol_converter_impl.calculate_ax25_fcs
        ((test_converter.convert_single_m17_to_ax25 hello_m17_frame).take 61) = 0xB184
    ∧ protocol_converter_impl.calculate_ax25_fcs
        (((test_converter.convert_single_m17_to_ax25 hello_m17_frame).take 61).drop 1) = 0x3BF2
    ∧ (test_converter.convert_single_m17_to_ax25 hello_m17_frame)[61]?
        ≠ some (protocol_converter_impl.calculate_ax25_fcs
            (((test_converter.convert_single_m17_to_ax25 hello_m17_frame).take 61).drop 1)
            &&& 0xFF) := by
  decide!

/-- C6 (evaluation at the 48-byte "HELLO" M17 frame, test configuration): the source SSID
byte at offset 14 is 0x60, whose bit 0 is clear, so no address byte of the emitted frame
carries the end-of-address bit; the 13 address bytes before it have bit 0 clear as well. -/
theorem C6_source_ssid_bit0_clear :
    (test_converter.convert_single_m17_to_ax25 hello_m17_frame)[14]? = some 0x60
    ∧ (0x60 : Nat) &&& 0x01 = 0
    ∧ (∀ i ∈ List.range 15,
        ((test_converter.convert_single_m17_to_ax25 hello_m17_frame).getD i 0) &&& 0x01 = 0
        ∨ i = 0) := by
  decide!

/-- For every configuration and every M17 frame of at least 48 bytes the byte at offset 14
of the emitted AX.25 frame is the constant 0x60. -/
theorem source_ssid_byte_is_0x60 (self : protocol_converter_impl) (f : List Nat)
    (hf : 48 ≤ f.length) :
    (self.convert_single_m17_to_ax25 f)[14]? = some 0x60 := by
  obtain ⟨pre, hpre, heq⟩ := convert_single_m17_to_ax25_eq self f hf
  rw [heq, hpre]
  simp [protocol_converter_impl.push_shifted, List.range_succ, List.getElem?_append,
    List.getElem?_cons]

/-! ## C8: the two copies of the M17 CRC -/

/-- C8: on every byte sequence the stream block's and the orchestrator's
`calculate_m17_crc` return the same 16-bit value, the CRC-16/CCITT of the sequence as the
specification words it (init 0xFFFF, byte XORed into the high 8 bits, 8 left shifts with
polynomial 0x1021, no final XOR, modulo 2^16); on the empty sequence it is 0xFFFF and on
"123456789" it is 0x29B1. -/
theorem C8_calculate_m17_crc_is_crc16_ccitt (frame : List Nat)
    (hframe : ∀ b ∈ frame, b < 256) :
    ax25_to_m17_impl.calculate_m17_crc frame = protocol_converter_impl.calculate_m17_crc frame
    ∧ protocol_converter_impl.calculate_m17_crc frame = spec_m17_crc frame
    ∧ protocol_converter_impl.calculate_m17_crc frame < 65536
    ∧ protocol_converter_impl.calculate_m17_crc [] = 0xFFFF
    ∧ ax25_to_m17_impl.calculate_m17_crc [] = 0xFFFF
    ∧ protocol_converter_impl.calculate_m17_crc
        [0x31, 0x32, 0x33, 0x34, 0x35, 0x36, 0x37, 0x38, 0x39] = 0x29B1
    ∧ ax25_to_m17_impl.calculate_m17_crc
        [0x31, 0x32, 0x33, 0x34, 0x35, 0x36, 0x37, 0x38, 0x39] = 0x29B1 := by
  refine ⟨m17_crc_copies_agree frame, ?_, protocol_converter_impl.calculate_m17_crc_lt frame,
    by decide!, by decide!, by decide!, by decide!⟩
  exact protocol_converter_impl.m17_crc_foldl_eq_spec frame hframe 0xFFFF (by norm_num)

/-- C8 at the 48-byte "HELLO" M17 frame. -/
theorem C8_calculate_m17_crc_is_crc16_ccitt_witness :
    (∀ b ∈ hello_m17_frame, b < 256)
    ∧ (ax25_to_m17_impl.calculate_m17_crc hello_m17_frame
        = protocol_converter_impl.calculate_m17_crc hello_m17_frame
      ∧ protocol_converter_impl.calculate_m17_crc hello_m17_frame = spec_m17_crc hello_m17_frame
      ∧ protocol_converter_impl.calculate_m17_crc hello_m17_frame < 65536
      ∧ protocol_converter_impl.calculate_m17_crc [] = 0xFFFF
      ∧ ax25_to_m17_impl.calculate_m17_crc [] = 0xFFFF
      ∧ protocol_converter_impl.calculate_m17_crc
          [0x31, 0x32, 0x33, 0x34, 0x35, 0x36, 0x37, 0x38, 0x39] = 0x29B1
      ∧ ax25_to_m17_impl.calculate_m17_crc
          [0x31, 0x32, 0x33, 0x34, 0x35, 0x36, 0x37, 0x38, 0x39] = 0x29B1) :=
  ⟨by decide, C8_calculate_m17_crc_is_crc16_ccitt hello_m17_frame (by decide)⟩

/-! ## C9, C10: the AX.25 frame extractor -/

/-- `process_ax25_frame` returns without effect on a buffer shorter than 10 bytes. -/
theorem process_ax25_frame_short (self : ax25_to_m17_impl)
    (h : self.d_frame_buffer.length < 10) :
    ax25_to_m17_impl.process_ax25_frame self = self := by
  unfold ax25_to_m17_impl.process_ax25_frame
  simp [h]

/-- The invariant of the extractor loop while fewer than 12 bytes have been seen since an
Idle start: nothing queued, nothing counted, and an open frame holds fewer bytes than
have been consumed. -/
theorem work_byte_foldl_short (input : List Nat) (self : ax25_to_m17_impl) (k c : Nat)
    (hq : self.d_output_buffer = []) (hc : self.d_frame_counter = c)
    (hbuf : self.d_state = ax25_to_m17_impl.state_t.STATE_FRAME_START →
      self.d_frame_buffer.length + 1 ≤ k)
    (hlen : k + input.length < 12) :
    (input.foldl ax25_to_m17_impl.work_byte self).d_output_buffer = []
    ∧ (input.foldl ax25_to_m17_impl.work_byte self).d_frame_counter = c := by
  induction input generalizing self k with
  | nil => exact ⟨hq, hc⟩
  | cons b bs ih =>
    rw [List.foldl_cons]
    rw [List.length_cons] at hlen
    apply ih (ax25_to_m17_impl.work_byte self b) (k + 1)
    · unfold ax25_to_m17_impl.work_byte
      cases hs : self.d_state with
      | STATE_IDLE => simp only []; split <;> exact hq
      | STATE_FRAME_START =>
        simp only []
        split
        · rw [process_ax25_frame_short self (by have := hbuf hs; omega)]
          exact hq
        · exact hq
    · unfold ax25_to_m17_impl.work_byte
      cases hs : self.d_state with
      | STATE_IDLE => simp only []; split <;> exact hc
      | STATE_FRAME_START =>
        simp only []
        split
        · rw [process_ax25_frame_short self (by have := hbuf hs; omega)]
          exact hc
        · exact hc
    · unfold ax25_to_m17_impl.work_byte
      cases hs : self.d_state with
      | STATE_IDLE =>
        simp only []
        split
        · intro _
          simp
        · intro h
          rw [hs] at h
          cases h
      | STATE_FRAME_START =>
        simp only []
        split
        · intro h
          cases h
        · intro _
          have := hbuf hs
          simp
          omega
    · omega

/-- C9 (counterexample): a 12-byte input, a flag, ten bytes and a flag, fed to a freshly
constructed stream block (Idle, empty queue): the input and the 10-byte flag-delimited
buffer are both shorter than 16, yet the buffer is not discarded; one frame is counted, a
50-byte M17 frame is queued and `work` returns its first 12 bytes. -/
theorem C9_short_frame_is_converted :
    short_flagged_input.length < 16
    ∧ test_stream_block.d_state = ax25_to_m17_impl.state_t.STATE_IDLE
    ∧ test_stream_block.d_output_buffer = []
    ∧ test_stream_block.d_frame_counter = 0
    ∧ (ax25_to_m17_impl.work test_stream_block short_flagged_input).1.d_frame_buffer.length < 16
    ∧ (ax25_to_m17_impl.work test_stream_block short_flagged_input).1.d_frame_counter = 1
    ∧ (ax25_to_m17_impl.work test_stream_block short_flagged_input).2
        = [0x5D, 0x00, 0, 0, 0, 0, 0, 0, 0, 0, 0, 0]
    ∧ (ax25_to_m17_impl.work test_stream_block short_flagged_input).1.d_output_buffer.length
        = 38 := by
  decide!

/-- C9 (amended): every flag-delimited buffer shorter than 10 bytes is discarded without
queuing output or counting a frame (`process_ax25_frame` returns at once, and a byte
processed in FrameStart on such a buffer leaves the queue and the counter as they were);
and for every input of total length below 12 given to `work` in state Idle with an empty
output queue, no output is produced, the queue stays empty and no frame is counted. -/
theorem C9_amended_short_frames_discarded (self : ax25_to_m17_impl) (input : List Nat)
    (hidle : self.d_state = ax25_to_m17_impl.state_t.STATE_IDLE)
    (hqueue : self.d_output_buffer = [])
    (hlen : input.length < 12) :
    (∀ st : ax25_to_m17_impl, st.d_frame_buffer.length < 10 →
        ax25_to_m17_impl.process_ax25_frame st = st)
    ∧ (∀ (st : ax25_to_m17_impl) (b : Nat),
        st.d_state = ax25_to_m17_impl.state_t.STATE_FRAME_START →
        st.d_frame_buffer.length < 10 →
        (ax25_to_m17_impl.work_byte st b).d_output_buffer = st.d_output_buffer
        ∧ (ax25_to_m17_impl.work_byte st b).d_frame_counter = st.d_frame_counter)
    ∧ (ax25_to_m17_impl.work self input).2 = []
    ∧ (ax25_to_m17_impl.work self input).1.d_output_buffer = []
    ∧ (ax25_to_m17_impl.work self input).1.d_frame_counter = self.d_frame_counter := by
  have hinv := work_byte_foldl_short input self 0 self.d_frame_counter hqueue rfl
    (by intro h; rw [hidle] at h; cases h) (by omega)
  refine ⟨process_ax25_frame_short, ?_, ?_, ?_, ?_⟩
  · intro st b hs hshort
    unfold ax25_to_m17_impl.work_byte
    rw [hs]
    simp only []
    split
    · rw [process_ax25_frame_short st hshort]
      exact ⟨rfl, rfl⟩
    · exact ⟨rfl, rfl⟩
  all_goals simp [ax25_to_m17_impl.work, hinv.1, hinv.2]

/-- C9 (amended) at an 11-byte input: a flag, nine bytes, a flag. -/
theorem C9_amended_short_frames_discarded_witness :
    test_stream_block.d_state = ax25_to_m17_impl.state_t.STATE_IDLE
    ∧ test_stream_block.d_output_buffer = []
    ∧ [0x7E, 1, 2, 3, 4, 5, 6, 7, 8, 9, 0x7E].length < 12
    ∧ ((∀ st : ax25_to_m17_impl, st.d_frame_buffer.length < 10 →
        ax25_to_m17_impl.process_ax25_frame st = st)
      ∧ (∀ (st : ax25_to_m17_impl) (b : Nat),
          st.d_state = ax25_to_m17_impl.state_t.STATE_FRAME_START →
          st.d_frame_buffer.length < 10 →
          (ax25_to_m17_impl.work_byte st b).d_output_buffer = st.d_output_buffer
          ∧ (ax25_to_m17_impl.work_byte st b).d_frame_counter = st.d_frame_counter)
      ∧ (ax25_to_m17_impl.work test_stream_block [0x7E, 1, 2, 3, 4, 5, 6, 7, 8, 9, 0x7E]).2 = []
      ∧ (ax25_to_m17_impl.work test_stream_block
          [0x7E, 1, 2, 3, 4, 5, 6, 7, 8, 9, 0x7E]).1.d_output_buffer = []
      ∧ (ax25_to_m17_impl.work test_stream_block
          [0x7E, 1, 2, 3, 4, 5, 6, 7, 8, 9, 0x7E]).1.d_frame_counter
        = test_stream_block.d_frame_counter) :=
  ⟨by decide, by decide, by decide,
    C9_amended_short_frames_discarded test_stream_block [0x7E, 1, 2, 3, 4, 5, 6, 7, 8, 9, 0x7E]
      (by decide) (by decide) (by decide)⟩

/-- C10: in state FrameStart, a 0x7E arriving while no byte has been accumulated is
appended to the buffer like any other byte: the state stays FrameStart and the output
queue and the frame counter are untouched (no frame is processed); and a byte leaves
FrameStart for Idle, handing the buffer to `process_ax25_frame`, exactly when it is 0x7E
and at least one byte has been accumulated. -/
theorem C10_flag_on_empty_buffer_does_not_close (self : ax25_to_m17_impl) (b : Nat)
    (hstate : self.d_state = ax25_to_m17_impl.state_t.STATE_FRAME_START) :
    (self.d_frame_length = 0 →
        ax25_to_m17_impl.work_byte self 0x7E
          = { self with d_frame_buffer := self.d_frame_buffer ++ [0x7E], d_frame_length := 1 }
        ∧ (ax25_to_m17_impl.work_byte self 0x7E).d_state
            = ax25_to_m17_impl.state_t.STATE_FRAME_START
        ∧ (ax25_to_m17_impl.work_byte self 0x7E).d_output_buffer = self.d_output_buffer
        ∧ (ax25_to_m17_impl.work_byte self 0x7E).d_frame_counter = self.d_frame_counter)
    ∧ ((ax25_to_m17_impl.work_byte self b).d_state = ax25_to_m17_impl.state_t.STATE_IDLE
        ↔ (b = 0x7E ∧ 0 < self.d_frame_length))
    ∧ ((b = 0x7E ∧ 0 < self.d_frame_length) →
        ax25_to_m17_impl.work_byte self b
          = { ax25_to_m17_impl.process_ax25_frame self with
              d_state := ax25_to_m17_impl.state_t.STATE_IDLE })
    ∧ (¬ (b = 0x7E ∧ 0 < self.d_frame_length) →
        ax25_to_m17_impl.work_byte self b
          = { self with d_frame_buffer := self.d_frame_buffer ++ [b],
                        d_frame_length := self.d_frame_length + 1 }) := by
  have hclose : (b = 0x7E ∧ 0 < self.d_frame_length) →
      ax25_to_m17_impl.work_byte self b
        = { ax25_to_m17_impl.process_ax25_frame self with
            d_state := ax25_to_m17_impl.state_t.STATE_IDLE } := by
    intro h
    unfold ax25_to_m17_impl.work_byte
    rw [hstate]
    simp only []
    rw [if_pos h]
  have hkeep : ∀ x : Nat, ¬ (x = 0x7E ∧ 0 < self.d_frame_length) →
      ax25_to_m17_impl.work_byte self x
        = { self with d_frame_buffer := self.d_frame_buffer ++ [x],
                      d_frame_length := self.d_frame_length + 1 } := by
    intro x h
    unfold ax25_to_m17_impl.work_byte
    rw [hstate]
    simp only []
    rw [if_neg h]
  refine ⟨?_, ?_, hclose, hkeep b⟩
  · intro h0
    have hk := hkeep 0x7E (by omega)
    rw [hk, h0]
    exact ⟨rfl, hstate, rfl, rfl⟩
  · constructor
    · intro hidle
      by_contra hno
      rw [hkeep b hno] at hidle
      simp only [] at hidle
      rw [hstate] at hidle
      cases hidle
    · intro h
      rw [hclose h]

/-- C10 at a block that has just seen an opening flag, for a second flag. -/
theorem C10_flag_on_empty_buffer_does_not_close_witness :
    (ax25_to_m17_impl.work_byte test_stream_block 0x7E).d_state
      = ax25_to_m17_impl.state_t.STATE_FRAME_START
    ∧ (ax25_to_m17_impl.work_byte test_stream_block 0x7E).d_frame_length = 0
    ∧ (ax25_to_m17_impl.work_byte (ax25_to_m17_impl.work_byte test_stream_block 0x7E) 0x7E).d_state
      = ax25_to_m17_impl.state_t.STATE_FRAME_START :=
  ⟨by decide, by decide,
    ((C10_flag_on_empty_buffer_does_not_close
      (ax25_to_m17_impl.work_byte test_stream_block 0x7E) 0x7E (by decide)).1 (by decide)).2.1⟩

/-! ## C11, C12: the orchestrator's M17 stream scan -/

/-- The window `[i, min(i + 48, size))` that the scan hands to the converter. -/
theorem m17_window_length (d : List Nat) (i : Nat) :
    ((d.take (min (i + 48) d.length)).drop i).length = min (i + 48) d.length - i := by
  rw [List.length_drop, List.length_take]
  omega

/-- `convert_single_m17_to_ax25` rejects every frame shorter than 48 bytes. -/
theorem convert_single_m17_to_ax25_short (self : protocol_converter_impl) (f : List Nat)
    (h : f.length < 48) : self.convert_single_m17_to_ax25 f = [] := by
  unfold protocol_converter_impl.convert_single_m17_to_ax25
  simp [h]

/-- From an index with fewer than 48 bytes left the scan appends nothing more. -/
theorem convert_m17_to_ax25_loop_short (self : protocol_converter_impl) (d : List Nat)
    (fuel i : Nat) (result : List Nat) (h : d.length < i + 48) :
    protocol_converter_impl.convert_m17_to_ax25_loop self d fuel i result = result := by
  induction fuel generalizing i result with
  | zero => rfl
  | succ n ih =>
    unfold protocol_converter_impl.convert_m17_to_ax25_loop
    by_cases hi : i < d.length
    · simp only [hi, ite_true]
      by_cases hs : d.getD i 0 = 0x5D
      · simp only [hs, ite_true]
        have hw : ((d.take (min (i + 48) d.length)).drop i).length < 48 := by
          rw [m17_window_length]
          omega
        rw [convert_single_m17_to_ax25_short self _ hw, List.append_nil]
        exact ih _ _ (by omega)
      · simp only [hs, ite_false]
        exact ih _ _ (by omega)
    · simp only [hi, ite_false]

/-- The scan never runs out of passes: any two pass budgets that cover the bytes left
give the same result. -/
theorem convert_m17_to_ax25_loop_fuel (self : protocol_converter_impl) (d : List Nat)
    (fuel1 fuel2 i : Nat) (result : List Nat)
    (h1 : d.length ≤ i + fuel1) (h2 : d.length ≤ i + fuel2) :
    protocol_converter_impl.convert_m17_to_ax25_loop self d fuel1 i result
      = protocol_converter_impl.convert_m17_to_ax25_loop self d fuel2 i result := by
  induction fuel1 generalizing fuel2 i result with
  | zero =>
    cases fuel2 with
    | zero => rfl
    | succ m =>
      unfold protocol_converter_impl.convert_m17_to_ax25_loop
      have hi : ¬ i < d.length := by omega
      simp only [hi, ite_false]
  | succ n ih =>
    cases fuel2 with
    | zero =>
      unfold protocol_converter_impl.convert_m17_to_ax25_loop
      have hi : ¬ i < d.length := by omega
      simp only [hi, ite_false]
    | succ m =>
      rw [protocol_converter_impl.convert_m17_to_ax25_loop,
        protocol_converter_impl.convert_m17_to_ax25_loop]
      by_cases hi : i < d.length
      · simp only [hi, ite_true]
        by_cases hs : d.getD i 0 = 0x5D
        · simp only [hs, ite_true]
          exact ih _ _ _ (by omega) (by omega)
        · simp only [hs, ite_false]
          exact ih _ _ _ (by omega) (by omega)
      · simp only [hi, ite_false]

/-- The output of the scan from index `i` is `result` followed by the conversions of the
windows at some positions, each of which holds the byte 0x5D. -/
theorem convert_m17_to_ax25_loop_positions (self : protocol_converter_impl) (d : List Nat)
    (fuel i : Nat) (result : List Nat) :
    ∃ positions : List Nat,
      (∀ p ∈ positions, d[p]? = some 0x5D)
      ∧ protocol_converter_impl.convert_m17_to_ax25_loop self d fuel i result
        = result ++ (positions.map (fun p =>
            self.convert_single_m17_to_ax25
              ((d.take (min (p + 48) d.length)).drop p))).flatten := by
  induction fuel generalizing i result with
  | zero => exact ⟨[], by simp, by simp [protocol_converter_impl.convert_m17_to_ax25_loop]⟩
  | succ n ih =>
    unfold protocol_converter_impl.convert_m17_to_ax25_loop
    by_cases hi : i < d.length
    · simp only [hi, ite_true]
      by_cases hs : d.getD i 0 = 0x5D
      · simp only [hs, ite_true]
        obtain ⟨ps, hps, heq⟩ := ih (min (i + 48) d.length - 1 + 1)
          (result ++ self.convert_single_m17_to_ax25
            ((d.take (min (i + 48) d.length)).drop i))
        refine ⟨i :: ps, ?_, ?_⟩
        · intro p hp
          rcases List.mem_cons.mp hp with rfl | hp
          · rw [List.getD_eq_getElem?_getD, List.getElem?_eq_getElem hi] at hs
            rw [List.getElem?_eq_getElem hi]
            simpa using hs
          · exact hps p hp
        · rw [heq]
          simp [List.append_assoc]
      · simp only [hs, ite_false]
        exact ih _ _
    · simp only [hi, ite_false]
      exact ⟨[], by simp, by simp⟩

/-- C11: when fewer than 48 bytes are available from position `i` to the end of the input,
the window taken at `i` converts to nothing and the scan, whatever it has collected,
appends nothing from `i` on; in particular `convert_m17_to_ax25` returns the empty
sequence on every input shorter than 48 bytes. -/
theorem C11_incomplete_m17_frame_not_emitted (self : protocol_converter_impl)
    (d : List Nat) (i : Nat) (havail : d.length < i + 48) :
    self.convert_single_m17_to_ax25 ((d.take (min (i + 48) d.length)).drop i) = []
    ∧ (∀ (fuel : Nat) (result : List Nat),
        protocol_converter_impl.convert_m17_to_ax25_loop self d fuel i result = result)
    ∧ (d.length < 48 → self.convert_m17_to_ax25 d = []) := by
  refine ⟨?_, ?_, ?_⟩
  · apply convert_single_m17_to_ax25_short
    rw [m17_window_length]
    omega
  · intro fuel result
    exact convert_m17_to_ax25_loop_short self d fuel i result havail
  · intro hshort
    exact convert_m17_to_ax25_loop_short self d d.length 0 [] (by omega)

/-- C11 at a 51-byte input, the "HELLO" M17 frame followed by a sync byte and two more
bytes, for the position 48 of that second sync byte. -/
theorem C11_incomplete_m17_frame_not_emitted_witness :
    (hello_m17_frame ++ [0x5D, 0x01, 0x02]).length < 48 + 48
    ∧ (test_converter.convert_single_m17_to_ax25
        (((hello_m17_frame ++ [0x5D, 0x01, 0x02]).take
          (min (48 + 48) (hello_m17_frame ++ [0x5D, 0x01, 0x02]).length)).drop 48) = []
      ∧ (∀ (fuel : Nat) (result : List Nat),
          protocol_converter_impl.convert_m17_to_ax25_loop test_converter
            (hello_m17_frame ++ [0x5D, 0x01, 0x02]) fuel 48 result = result)
      ∧ ((hello_m17_frame ++ [0x5D, 0x01, 0x02]).length < 48 →
          test_converter.convert_m17_to_ax25 (hello_m17_frame ++ [0x5D, 0x01, 0x02]) = [])) :=
  ⟨by decide,
    C11_incomplete_m17_frame_not_emitted test_converter
      (hello_m17_frame ++ [0x5D, 0x01, 0x02]) 48 (by decide)⟩

/-- C12 (evaluation at the 48-byte "HELLO" M17 frame, test configuration): the frame starts
`0x5D 0x00` and contains no adjacent pair `0x5D 0x5F`, yet `convert_m17_to_ax25` emits a
64-byte AX.25 frame for it, the conversion of the frame anchored at position 0: the scan
anchors on the single byte 0x5D. -/
theorem C12_frame_emitted_without_two_byte_marker :
    (0x5D, 0x5F) ∉ hello_m17_frame.zip (hello_m17_frame.drop 1)
    ∧ (test_converter.convert_m17_to_ax25 hello_m17_frame).length = 64
    ∧ test_converter.convert_m17_to_ax25 hello_m17_frame
        = test_converter.convert_single_m17_to_ax25 hello_m17_frame := by
  decide!

/-! ## C13, C14: when the single-frame converters reject their input -/

/-- The frame built by the stream block's `convert_ax25_to_m17` is never empty. -/
theorem build_m17_frame_ne_nil (self : ax25_to_m17_impl) (ax25_payload : List Nat) :
    ax25_to_m17_impl.build_m17_frame self ax25_payload ≠ [] := by
  unfold ax25_to_m17_impl.build_m17_frame
  simp

/-- C13: `convert_single_ax25_to_m17` returns the empty sequence exactly for the inputs
shorter than 10 bytes, so every input of 10 or more bytes gives a non-empty frame; the
stream block's `process_ax25_frame` has the same threshold: it leaves the output queue as
it was exactly for the buffers shorter than 10 bytes. -/
theorem C13_ax25_to_m17_rejects_iff_shorter_than_10 (f : List Nat)
    (st : ax25_to_m17_impl) :
    (protocol_converter_impl.convert_single_ax25_to_m17 f = [] ↔ f.length < 10)
    ∧ (protocol_converter_impl.convert_single_ax25_to_m17 f ≠ [] ↔ 10 ≤ f.length)
    ∧ ((ax25_to_m17_impl.process_ax25_frame st).d_output_buffer = st.d_output_buffer
        ↔ st.d_frame_buffer.length < 10) := by
  have h1 : protocol_converter_impl.convert_single_ax25_to_m17 f = [] ↔ f.length < 10 := by
    constructor
    · intro hnil
      by_contra hge
      obtain ⟨body, _, hout⟩ := convert_single_ax25_to_m17_shape f (by omega)
      rw [hout] at hnil
      simp at hnil
    · intro hlt
      unfold protocol_converter_impl.convert_single_ax25_to_m17
      simp [hlt]
  refine ⟨h1, ?_, ?_⟩
  · rw [Ne, h1]
    omega
  · constructor
    · intro hsame
      by_contra hge
      unfold ax25_to_m17_impl.process_ax25_frame at hsame
      simp only [hge, ite_false, ax25_to_m17_impl.convert_ax25_to_m17] at hsame
      exact build_m17_frame_ne_nil _ _ (List.append_right_eq_self.mp hsame)
    · intro hlt
      rw [process_ax25_frame_short st hlt]

/-- C14: `convert_single_m17_to_ax25` returns the empty sequence exactly for the inputs
shorter than 48 bytes; for every input of 48 or more bytes the frame is non-empty, its
first byte is 0x7E and its last byte is 0x7E. -/
theorem C14_m17_to_ax25_rejects_iff_shorter_than_48 (self : protocol_converter_impl)
    (f : List Nat) :
    (self.convert_single_m17_to_ax25 f = [] ↔ f.length < 48)
    ∧ (48 ≤ f.length →
        self.convert_single_m17_to_ax25 f ≠ []
        ∧ (self.convert_single_m17_to_ax25 f).head? = some 0x7E
        ∧ (self.convert_single_m17_to_ax25 f).getLast? = some 0x7E) := by
  have hlong : 48 ≤ f.length →
      self.convert_single_m17_to_ax25 f ≠ []
      ∧ (self.convert_single_m17_to_ax25 f).head? = some 0x7E
      ∧ (self.convert_single_m17_to_ax25 f).getLast? = some 0x7E := by
    intro hf
    obtain ⟨pre, hpre, heq⟩ := convert_single_m17_to_ax25_eq self f hf
    rw [heq, hpre]
    refine ⟨by simp, by simp, ?_⟩
    rw [List.getLast?_append]
    simp
  refine ⟨?_, hlong⟩
  constructor
  · intro hnil
    by_contra hge
    exact (hlong (by omega)).1 hnil
  · exact convert_single_m17_to_ax25_short self f

/-- C14 at the 48-byte "HELLO" M17 frame with the test configuration. -/
theorem C14_m17_to_ax25_rejects_iff_shorter_than_48_witness :
    48 ≤ hello_m17_frame.length
    ∧ (test_converter.convert_single_m17_to_ax25 hello_m17_frame ≠ []
      ∧ (test_converter.convert_single_m17_to_ax25 hello_m17_frame).head? = some 0x7E
      ∧ (test_converter.convert_single_m17_to_ax25 hello_m17_frame).getLast? = some 0x7E) :=
  ⟨by decide,
    (C14_m17_to_ax25_rejects_iff_shorter_than_48 test_converter hello_m17_frame).2
      (by decide)⟩

/-! ## The map operations -/

/-- On entries: after an assignment to `key`, the lookup of `key` gives the value. -/
theorem find_entries_assign_self (l : List (List Nat × List Nat)) (key value : List Nat) :
    string_map.find_entries (string_map.assign_entries l key value) key = some value := by
  induction l with
  | nil => simp [string_map.assign_entries, string_map.find_entries]
  | cons e rest ih =>
    obtain ⟨k, v⟩ := e
    unfold string_map.assign_entries
    by_cases hk : k = key
    · simp [hk, string_map.find_entries]
    · simp [hk, string_map.find_entries, ih]

/-- On entries: an assignment to `key` does not change the lookup of another key. -/
theorem find_entries_assign_other (l : List (List Nat × List Nat))
    (key value other : List Nat) (h : other ≠ key) :
    string_map.find_entries (string_map.assign_entries l key value) other
      = string_map.find_entries l other := by
  induction l with
  | nil =>
    simp [string_map.assign_entries, string_map.find_entries, Ne.symm h]
  | cons e rest ih =>
    obtain ⟨k, v⟩ := e
    unfold string_map.assign_entries
    by_cases hk : k = key
    · subst hk
      simp [string_map.find_entries, Ne.symm h]
    · by_cases hko : k = other
      · subst hko
        simp [hk, string_map.find_entries]
      · simp [hk, hko, string_map.find_entries, ih]

/-- On entries: after erasing `key`, the lookup of `key` finds nothing. -/
theorem find_entries_erase_self (l : List (List Nat × List Nat)) (key : List Nat) :
    string_map.find_entries (l.filter (fun e => decide (e.1 ≠ key))) key = none := by
  induction l with
  | nil => rfl
  | cons e rest ih =>
    obtain ⟨k, v⟩ := e
    rw [List.filter_cons]
    by_cases hk : k = key
    · have hd : decide ((k, v).1 ≠ key) = false := by simp [hk]
      rw [hd]
      simpa using ih
    · have hd : decide ((k, v).1 ≠ key) = true := by simp [hk]
      rw [hd]
      simp only [ite_true]
      unfold string_map.find_entries
      simp only [hk, ite_false]
      exact ih

/-- On entries: assigning a key that the lookup does not find adds exactly one entry. -/
theorem length_assign_entries_absent (l : List (List Nat × List Nat))
    (key value : List Nat) (h : string_map.find_entries l key = none) :
    (string_map.assign_entries l key value).length = l.length + 1 := by
  induction l with
  | nil => simp [string_map.assign_entries]
  | cons e rest ih =>
    obtain ⟨k, v⟩ := e
    unfold string_map.find_entries at h
    by_cases hk : k = key
    · simp [hk] at h
    · simp only [hk, ite_false] at h
      unfold string_map.assign_entries
      simp [hk, ih h]

/-- After `map[key] = value`, `find(key)` gives `value`. -/
theorem find_assign_self (t : string_map) (key value : List Nat) :
    (t.assign key value).find key = some value :=
  find_entries_assign_self t.entries key value

/-- The statement `map[key] = value` does not change what `find` gives for other keys. -/
theorem find_assign_other (t : string_map) (key value other : List Nat)
    (h : other ≠ key) : (t.assign key value).find other = t.find other :=
  find_entries_assign_other t.entries key value other h

/-- After `erase(key)`, `find(key)` gives `end()`. -/
theorem find_erase_self (t : string_map) (key : List Nat) :
    (t.erase key).find key = none :=
  find_entries_erase_self t.entries key

/-- Assigning a key that `find` does not find adds exactly one entry. -/
theorem size_assign_absent (t : string_map) (key value : List Nat)
    (h : t.find key = none) : (t.assign key value).size = t.size + 1 :=
  length_assign_entries_absent t.entries key value h

/-! ## The map model keeps one entry per key -/

/-- On entries: the keys after an assignment are the old keys and the assigned key. -/
theorem mem_keys_assign_entries (l : List (List Nat × List Nat)) (key value k : List Nat)
    (h : k ∈ (string_map.assign_entries l key value).map Prod.fst) :
    k = key ∨ k ∈ l.map Prod.fst := by
  induction l with
  | nil =>
    simp [string_map.assign_entries] at h
    exact Or.inl h
  | cons e rest ih =>
    obtain ⟨k0, v0⟩ := e
    unfold string_map.assign_entries at h
    by_cases hk : k0 = key
    · simp only [hk, ite_true] at h
      right
      simpa [hk] using h
    · simp only [hk, ite_false, List.map_cons, List.mem_cons] at h
      rcases h with h | h
      · right
        simp [h]
      · rcases ih h with h | h
        · exact Or.inl h
        · right
          simp [h]

/-- On entries: an assignment keeps the keys pairwise distinct. -/
theorem nodup_keys_assign_entries (l : List (List Nat × List Nat)) (key value : List Nat)
    (h : (l.map Prod.fst).Nodup) :
    ((string_map.assign_entries l key value).map Prod.fst).Nodup := by
  induction l with
  | nil => simp [string_map.assign_entries]
  | cons e rest ih =>
    obtain ⟨k0, v0⟩ := e
    rw [List.map_cons, List.nodup_cons] at h
    unfold string_map.assign_entries
    by_cases hk : k0 = key
    · simp only [hk, ite_true, List.map_cons, List.nodup_cons]
      exact ⟨by simpa [hk] using h.1, h.2⟩
    · simp only [hk, ite_false, List.map_cons, List.nodup_cons]
      refine ⟨?_, ih h.2⟩
      intro hmem
      rcases mem_keys_assign_entries rest key value k0 hmem with h1 | h1
      · exact hk h1
      · exact h.1 h1

/-- The statement `map[key] = value` keeps the keys of a map pairwise distinct. -/
theorem nodup_keys_assign (t : string_map) (key value : List Nat)
    (h : (t.entries.map Prod.fst).Nodup) :
    ((t.assign key value).entries.map Prod.fst).Nodup :=
  nodup_keys_assign_entries t.entries key value h

/-- The call `erase(key)` keeps the keys of a map pairwise distinct. -/
theorem nodup_keys_erase (t : string_map) (key : List Nat)
    (h : (t.entries.map Prod.fst).Nodup) :
    ((t.erase key).entries.map Prod.fst).Nodup :=
  h.sublist (List.Sublist.map _ (List.filter_sublist t.entries))

/-! ## C16 .. C19: add, remove and look up -/

/-- C16: in every table state and for all strings `m` and `a`, right after
`add_mapping(m, a)` the lookup `get_ax25_callsign(m)` returns `a` and
`get_m17_callsign(a)` returns `m`, each leaving the table as it is (so also when the
second lookup follows the first, as in the test). -/
theorem C16_lookups_round_trip_after_add (self : callsign_mapper_impl) (m a : List Nat) :
    ((self.add_mapping m a).get_ax25_callsign m).2 = a
    ∧ ((self.add_mapping m a).get_m17_callsign a).2 = m
    ∧ ((self.add_mapping m a).get_ax25_callsign m).1 = self.add_mapping m a
    ∧ ((self.add_mapping m a).get_m17_callsign a).1 = self.add_mapping m a
    ∧ (((self.add_mapping m a).get_ax25_callsign m).1.get_m17_callsign a).2 = m := by
  have hf : (self.add_mapping m a).d_mapping_table.find m = some a :=
    find_assign_self self.d_mapping_table m a
  have hr : (self.add_mapping m a).d_reverse_mapping_table.find a = some m :=
    find_assign_self self.d_reverse_mapping_table a m
  have h1 : (self.add_mapping m a).get_ax25_callsign m = (self.add_mapping m a, a) := by
    unfold callsign_mapper_impl.get_ax25_callsign
    rw [hf]
  have h2 : (self.add_mapping m a).get_m17_callsign a = (self.add_mapping m a, m) := by
    unfold callsign_mapper_impl.get_m17_callsign
    rw [hr]
  refine ⟨?_, ?_, ?_, ?_, ?_⟩
  · rw [h1]
  · rw [h2]
  · rw [h1]
  · rw [h2]
  · rw [h1]
    simp only []
    rw [h2]

/-- C17: when `m` is mapped to `a` and auto-learn is disabled, after `remove_mapping(m)` the
lookup `get_ax25_callsign(m)` returns `m` and `get_m17_callsign(a)` returns `a`, neither
changing the table; and `remove_mapping` of an M17 callsign without a mapping leaves the
whole table state unchanged. -/
theorem C17_remove_falls_back_to_passthrough (self : callsign_mapper_impl)
    (m a : List Nat)
    (hmapped : self.d_mapping_table.find m = some a)
    (hauto : self.d_auto_mapping_enabled = false) :
    (self.remove_mapping m).get_ax25_callsign m = (self.remove_mapping m, m)
    ∧ (self.remove_mapping m).get_m17_callsign a = (self.remove_mapping m, a)
    ∧ (∀ other : List Nat, self.d_mapping_table.find other = none →
        self.remove_mapping other = self) := by
  have hrm : self.remove_mapping m =
      { self with d_mapping_table := self.d_mapping_table.erase m,
                  d_reverse_mapping_table := self.d_reverse_mapping_table.erase a } := by
    unfold callsign_mapper_impl.remove_mapping
    rw [hmapped]
  refine ⟨?_, ?_, ?_⟩
  · unfold callsign_mapper_impl.get_ax25_callsign
    rw [hrm]
    simp only [find_erase_self, hauto]
    rfl
  · unfold callsign_mapper_impl.get_m17_callsign
    rw [hrm]
    simp only [find_erase_self, hauto]
    rfl
  · intro other hnone
    unfold callsign_mapper_impl.remove_mapping
    rw [hnone]

/-- C17 at the freshly constructed mapper with auto-learn switched off, for
"N0CALL" -> "N0CALL". -/
theorem C17_remove_falls_back_to_passthrough_witness :
    (callsign_mapper_impl.make.set_auto_mapping_enabled false).d_mapping_table.find
        callsign_mapper_impl.N0CALL = some callsign_mapper_impl.N0CALL
    ∧ (callsign_mapper_impl.make.set_auto_mapping_enabled false).d_auto_mapping_enabled = false
    ∧ (((callsign_mapper_impl.make.set_auto_mapping_enabled false).remove_mapping
          callsign_mapper_impl.N0CALL).get_ax25_callsign callsign_mapper_impl.N0CALL
        = ((callsign_mapper_impl.make.set_auto_mapping_enabled false).remove_mapping
            callsign_mapper_impl.N0CALL, callsign_mapper_impl.N0CALL)
      ∧ ((callsign_mapper_impl.make.set_auto_mapping_enabled false).remove_mapping
          callsign_mapper_impl.N0CALL).get_m17_callsign callsign_mapper_impl.N0CALL
        = ((callsign_mapper_impl.make.set_auto_mapping_enabled false).remove_mapping
            callsign_mapper_impl.N0CALL, callsign_mapper_impl.N0CALL)
      ∧ (∀ other : List Nat,
          (callsign_mapper_impl.make.set_auto_mapping_enabled false).d_mapping_table.find other
            = none →
          (callsign_mapper_impl.make.set_auto_mapping_enabled false).remove_mapping other
            = callsign_mapper_impl.make.set_auto_mapping_enabled false)) :=
  ⟨by decide, by decide,
    C17_remove_falls_back_to_passthrough
      (callsign_mapper_impl.make.set_auto_mapping_enabled false)
      callsign_mapper_impl.N0CALL callsign_mapper_impl.N0CALL (by decide) (by decide)⟩

/-- C18: with auto-learn enabled and no forward mapping for `X`, two consecutive
`get_ax25_callsign(X)` calls both return `X`, the second call leaves the table state
exactly as the first left it, and after the first call the forward table has one entry
more than before, `X -> X`, with every other key mapped as before. -/
theorem C18_auto_learn_is_idempotent (self : callsign_mapper_impl) (X : List Nat)
    (hauto : self.d_auto_mapping_enabled = true)
    (habsent : self.d_mapping_table.find X = none) :
    (self.get_ax25_callsign X).2 = X
    ∧ ((self.get_ax25_callsign X).1.get_ax25_callsign X).2 = X
    ∧ ((self.get_ax25_callsign X).1.get_ax25_callsign X).1 = (self.get_ax25_callsign X).1
    ∧ (self.get_ax25_callsign X).1.d_mapping_table.size = self.d_mapping_table.size + 1
    ∧ (self.get_ax25_callsign X).1.d_mapping_table.find X = some X
    ∧ (∀ other : List Nat, other ≠ X →
        (self.get_ax25_callsign X).1.d_mapping_table.find other
          = self.d_mapping_table.find other) := by
  have h1 : self.get_ax25_callsign X = (self.add_mapping X X, X) := by
    unfold callsign_mapper_impl.get_ax25_callsign
    rw [habsent]
    simp [hauto]
  have hf : (self.add_mapping X X).d_mapping_table.find X = some X :=
    find_assign_self self.d_mapping_table X X
  have h2 : (self.add_mapping X X).get_ax25_callsign X = (self.add_mapping X X, X) := by
    unfold callsign_mapper_impl.get_ax25_callsign
    rw [hf]
  have h3 : (self.get_ax25_callsign X).1 = self.add_mapping X X := by rw [h1]
  refine ⟨by rw [h1], by rw [h3, h2], by rw [h3, h2], ?_, by rw [h3]; exact hf, ?_⟩
  · rw [h3]
    exact size_assign_absent self.d_mapping_table X X habsent
  · intro other hne
    rw [h3]
    exact find_assign_other self.d_mapping_table X X other hne

/-- C18 at the freshly constructed mapper (auto-learn on) for the unmapped callsign "X". -/
theorem C18_auto_learn_is_idempotent_witness :
    callsign_mapper_impl.make.d_auto_mapping_enabled = true
    ∧ callsign_mapper_impl.make.d_mapping_table.find [0x58] = none
    ∧ ((callsign_mapper_impl.make.get_ax25_callsign [0x58]).2 = [0x58]
      ∧ ((callsign_mapper_impl.make.get_ax25_callsign [0x58]).1.get_ax25_callsign [0x58]).2
          = [0x58]
      ∧ ((callsign_mapper_impl.make.get_ax25_callsign [0x58]).1.get_ax25_callsign [0x58]).1
          = (callsign_mapper_impl.make.get_ax25_callsign [0x58]).1
      ∧ (callsign_mapper_impl.make.get_ax25_callsign [0x58]).1.d_mapping_table.size
          = callsign_mapper_impl.make.d_mapping_table.size + 1
      ∧ (callsign_mapper_impl.make.get_ax25_callsign [0x58]).1.d_mapping_table.find [0x58]
          = some [0x58]
      ∧ (∀ other : List Nat, other ≠ [0x58] →
          (callsign_mapper_impl.make.get_ax25_callsign [0x58]).1.d_mapping_table.find other
            = callsign_mapper_impl.make.d_mapping_table.find other)) :=
  ⟨by decide, by decide,
    C18_auto_learn_is_idempotent callsign_mapper_impl.make [0x58] (by decide) (by decide)⟩

/-- C19: with auto-learn disabled, `get_ax25_callsign` on an M17 callsign without a forward
mapping and `get_m17_callsign` on an AX.25 callsign without a reverse mapping return the
input string and leave the whole table state (both maps) unchanged; a lookup of a callsign
that has a mapping returns the mapped value and leaves the state unchanged as well. -/
theorem C19_lookup_without_auto_learn_is_pure (self : callsign_mapper_impl)
    (c : List Nat) (hauto : self.d_auto_mapping_enabled = false) :
    (self.d_mapping_table.find c = none → self.get_ax25_callsign c = (self, c))
    ∧ (self.d_reverse_mapping_table.find c = none → self.get_m17_callsign c = (self, c))
    ∧ (∀ v : List Nat, self.d_mapping_table.find c = some v →
        self.get_ax25_callsign c = (self, v))
    ∧ (∀ v : List Nat, self.d_reverse_mapping_table.find c = some v →
        self.get_m17_callsign c = (self, v)) := by
  refine ⟨?_, ?_, ?_, ?_⟩
  · intro h
    unfold callsign_mapper_impl.get_ax25_callsign
    rw [h]
    simp [hauto]
  · intro h
    unfold callsign_mapper_impl.get_m17_callsign
    rw [h]
    simp [hauto]
  · intro v h
    unfold callsign_mapper_impl.get_ax25_callsign
    rw [h]
  · intro v h
    unfold callsign_mapper_impl.get_m17_callsign
    rw [h]

/-- C19 at the freshly constructed mapper with auto-learn switched off, for the unmapped
callsign "X". -/
theorem C19_lookup_without_auto_learn_is_pure_witness :
    (callsign_mapper_impl.make.set_auto_mapping_enabled false).d_auto_mapping_enabled = false
    ∧ (callsign_mapper_impl.make.set_auto_mapping_enabled false).d_mapping_table.find [0x58]
        = none
    ∧ (callsign_mapper_impl.make.set_auto_mapping_enabled false).get_ax25_callsign [0x58]
        = (callsign_mapper_impl.make.set_auto_mapping_enabled false, [0x58]) :=
  ⟨by decide, by decide,
    (C19_lookup_without_auto_learn_is_pure
      (callsign_mapper_impl.make.set_auto_mapping_enabled false) [0x58] (by decide)).1
      (by decide)⟩

/-! ## C15, C20: the two maps after overwriting, and the size of the table -/

/-- C15 (evaluation): from the freshly constructed mapper, `add_mapping("N0CALL", "W1AW")`
overwrites the forward entry of "N0CALL" and the reverse entry of "W1AW" without removing
their old partners: afterwards `reverse["N0CALL"] = "N0CALL"` while
`forward["N0CALL"] = "W1AW"`, and `forward["W1AW"] = "W1AW"` while
`reverse["W1AW"] = "N0CALL"`.  A lookup does the same: after `add_mapping("A", "B")` the
auto-learning `get_m17_callsign("A")` sets `forward["A"] = "A"` and leaves
`reverse["B"] = "A"` behind. -/
theorem C15_overwrite_leaves_stale_reverse_entry :
    (callsign_mapper_impl.make.add_mapping callsign_mapper_impl.N0CALL
        callsign_mapper_impl.W1AW).d_reverse_mapping_table.find callsign_mapper_impl.N0CALL
      = some callsign_mapper_impl.N0CALL
    ∧ (callsign_mapper_impl.make.add_mapping callsign_mapper_impl.N0CALL
        callsign_mapper_impl.W1AW).d_mapping_table.find callsign_mapper_impl.N0CALL
      = some callsign_mapper_impl.W1AW
    ∧ (callsign_mapper_impl.make.add_mapping callsign_mapper_impl.N0CALL
        callsign_mapper_impl.W1AW).d_mapping_table.find callsign_mapper_impl.W1AW
      = some callsign_mapper_impl.W1AW
    ∧ (callsign_mapper_impl.make.add_mapping callsign_mapper_impl.N0CALL
        callsign_mapper_impl.W1AW).d_reverse_mapping_table.find callsign_mapper_impl.W1AW
      = some callsign_mapper_impl.N0CALL
    ∧ ((callsign_mapper_impl.make.add_mapping [0x41] [0x42]).get_m17_callsign
        [0x41]).1.d_reverse_mapping_table.find [0x42] = some [0x41]
    ∧ ((callsign_mapper_impl.make.add_mapping [0x41] [0x42]).get_m17_callsign
        [0x41]).1.d_mapping_table.find [0x41] = some [0x41] := by
  decide!

/-- C20 (evaluation): the constructor has already entered five default callsigns, so after
`add_mapping("N0CALL", "N0CALL")` and `add_mapping("W1AW", "W1AW")` on a freshly
constructed mapper `get_mapping_table()` has 5 entries, not 2, among them
"VE3KCL" -> "VE3KCL", which was never added by the caller. -/
theorem C20_fresh_table_holds_five_defaults :
    callsign_mapper_impl.make.get_mapping_table.size = 5
    ∧ ((callsign_mapper_impl.make.add_mapping callsign_mapper_impl.N0CALL
          callsign_mapper_impl.N0CALL).add_mapping callsign_mapper_impl.W1AW
          callsign_mapper_impl.W1AW).get_mapping_table.size = 5
    ∧ ((callsign_mapper_impl.make.add_mapping callsign_mapper_impl.N0CALL
          callsign_mapper_impl.N0CALL).add_mapping callsign_mapper_impl.W1AW
          callsign_mapper_impl.W1AW).get_mapping_table.find callsign_mapper_impl.VE3KCL
        = some callsign_mapper_impl.VE3KCL := by
  decide!

/-! ## C21 .. C23: the protocol detector -/

/-- The APRS scan of `detect_protocol` never reads outside the buffer and never uses up its
pass budget: with `bound ≤ size` and at least `bound - i` passes allowed it returns. -/
theorem aprs_scan_returns (data : List Nat) (bound fuel i : Nat)
    (hbound : bound ≤ data.length) (hfuel : bound ≤ i + fuel) :
    ∃ found : Bool, aprs_scan data bound fuel i = some found := by
  induction fuel generalizing i with
  | zero =>
    have hi : ¬ i < bound := by omega
    exact ⟨false, by simp [aprs_scan, hi]⟩
  | succ n ih =>
    unfold aprs_scan
    by_cases hi : i < bound
    · have hlt : i < data.length := by omega
      simp only [hi, ite_true, List.getElem?_eq_getElem hlt]
      by_cases hb : data[i] = 0xF0
      · exact ⟨true, by simp [hb]⟩
      · simp only [hb, ite_false]
        exact ih (i + 1) (by omega)
    · exact ⟨false, by simp [hi]⟩

/-- The result of `detect_protocol` on a buffer of at least 2 bytes, by its first two
bytes `d0`, `d1`. -/
theorem detect_protocol_cons_cons (d0 d1 : Nat) (rest : List Nat) :
    detect_protocol (d0 :: d1 :: rest) =
      if d0 = 0x7E then some protocol_type_t.PROTOCOL_AX25
      else if d0 = 0x5D ∧ d1 = 0x5F then some protocol_type_t.PROTOCOL_M17
      else if rest.length + 2 ≥ 8 ∧ d0 = 0xB7 ∧ d1 = 0x4D then
        some protocol_type_t.PROTOCOL_FX25
      else if rest.length + 2 ≥ 14 ∧ (d0 >>> 6) % 256 ≤ 3 then
        some protocol_type_t.PROTOCOL_IL2P
      else some protocol_type_t.PROTOCOL_UNKNOWN := by
  unfold detect_protocol
  have hsize : ¬ (d0 :: d1 :: rest).length < 2 := by simp
  simp only [hsize, ite_false, List.getElem?_cons_zero, List.getElem?_cons_succ,
    Option.bind_some, List.length_cons]
  by_cases h7e : d0 = 0x7E
  · simp [h7e]
  · simp only [h7e, ite_false]
    by_cases h5d : d0 = 0x5D
    · by_cases h5f : d1 = 0x5F
      · simp [h5d, h5f]
      · have hb7 : ¬ (0x5D : Nat) = 0xB7 := by decide
        subst h5d
        by_cases h14 : rest.length + 1 + 1 ≥ 14 <;> simp [h5f, h14]
    · by_cases hb7 : d0 = 0xB7
      · subst hb7
        by_cases h8 : rest.length + 1 + 1 ≥ 8
        · by_cases h4d : d1 = 0x4D
          · simp [h8, h4d]
          · by_cases h14 : rest.length + 1 + 1 ≥ 14 <;> simp [h8, h4d, h14]
        · have h14 : ¬ rest.length + 1 + 1 ≥ 14 := by omega
          simp [h8, h14]
      · by_cases h14 : rest.length + 1 + 1 ≥ 14
        · by_cases hty : (d0 >>> 6) % 256 ≤ 3 <;> simp [h5d, hb7, h14, hty, h7e]
        · simp [h5d, hb7, h14, h7e]

/-- C21 (counterexample): the one-byte buffer `[0x7E]` is non-empty and its first byte is
0x7E, yet `detect_protocol` returns Unknown, by its guard `if (size < 2)`. -/
theorem C21_single_flag_is_unknown :
    [0x7E] ≠ ([] : List Nat)
    ∧ [0x7E][0]? = some 0x7E
    ∧ detect_protocol [0x7E] = some protocol_type_t.PROTOCOL_UNKNOWN
    ∧ detect_protocol [0x7E] ≠ some protocol_type_t.PROTOCOL_AX25 := by
  decide

/-- C21 (amended): for every buffer of at least 2 bytes whose first byte is 0x7E,
`detect_protocol` returns AX25. -/
theorem C21_amended_flag_first_is_ax25 (data : List Nat)
    (hlen : 2 ≤ data.length) (hfirst : data[0]? = some 0x7E) :
    detect_protocol data = some protocol_type_t.PROTOCOL_AX25 := by
  rcases data with _ | ⟨d0, _ | ⟨d1, rest⟩⟩
  · simp at hlen
  · simp at hlen
  · simp only [List.getElem?_cons_zero, Option.some.injEq] at hfirst
    rw [detect_protocol_cons_cons, if_pos hfirst]

/-- C21 (amended) at the "HELLO" AX.25 frame. -/
theorem C21_amended_flag_first_is_ax25_witness :
    2 ≤ hello_ax25_frame.length ∧ hello_ax25_frame[0]? = some 0x7E
    ∧ detect_protocol hello_ax25_frame = some protocol_type_t.PROTOCOL_AX25 :=
  ⟨by decide, by decide,
    C21_amended_flag_first_is_ax25 hello_ax25_frame (by decide) (by decide)⟩

/-- C22: for every buffer of at least 2 bytes whose first byte is not 0x7E,
`detect_protocol` returns M17 if the first two bytes are 0x5D 0x5F; otherwise FX25 if the
length is at least 8 and the first two bytes are 0xB7 0x4D; otherwise IL2P if the length
is at least 14 and (first byte >> 6) <= 3; otherwise Unknown.  On `[0x01, 0x02]` it
returns Unknown. -/
theorem C22_detect_protocol_priority_order (data : List Nat)
    (hbytes : ∀ b ∈ data, b < 256)
    (hlen : 2 ≤ data.length) (hfirst : data[0]? ≠ some 0x7E) :
    detect_protocol data =
      some (if data[0]? = some 0x5D ∧ data[1]? = some 0x5F then
              protocol_type_t.PROTOCOL_M17
            else if 8 ≤ data.length ∧ data[0]? = some 0xB7 ∧ data[1]? = some 0x4D then
              protocol_type_t.PROTOCOL_FX25
            else if 14 ≤ data.length ∧ (data.getD 0 0) >>> 6 ≤ 3 then
              protocol_type_t.PROTOCOL_IL2P
            else protocol_type_t.PROTOCOL_UNKNOWN)
    ∧ detect_protocol [0x01, 0x02] = some protocol_type_t.PROTOCOL_UNKNOWN := by
  refine ⟨?_, by decide⟩
  rcases data with _ | ⟨d0, _ | ⟨d1, rest⟩⟩
  · simp at hlen
  · simp at hlen
  · have h7e : ¬ d0 = 0x7E := by simpa using hfirst
    have hd0 : d0 < 256 := hbytes d0 (by simp)
    have hshift : d0 >>> 6 < 256 := by
      rw [Nat.shiftRight_eq_div_pow]
      omega
    rw [detect_protocol_cons_cons, if_neg h7e, Nat.mod_eq_of_lt hshift]
    simp only [List.getElem?_cons_zero, List.getElem?_cons_succ, Option.some.injEq,
      List.length_cons, List.getD_cons_zero]
    by_cases hm17 : d0 = 0x5D ∧ d1 = 0x5F
    · simp [hm17]
    · simp only [hm17, ite_false]
      by_cases hfx : rest.length + 2 ≥ 8 ∧ d0 = 0xB7 ∧ d1 = 0x4D
      · have hfx2 : 8 ≤ rest.length + 1 + 1 ∧ d0 = 0xB7 ∧ d1 = 0x4D := hfx
        rw [if_pos hfx, if_pos hfx2]
      · have hfx2 : ¬ (8 ≤ rest.length + 1 + 1 ∧ d0 = 0xB7 ∧ d1 = 0x4D) := hfx
        rw [if_neg hfx, if_neg hfx2]
        by_cases hil : rest.length + 2 ≥ 14 ∧ d0 >>> 6 ≤ 3
        · have hil2 : 14 ≤ rest.length + 1 + 1 ∧ d0 >>> 6 ≤ 3 := hil
          rw [if_pos hil, if_pos hil2]
        · have hil2 : ¬ (14 ≤ rest.length + 1 + 1 ∧ d0 >>> 6 ≤ 3) := hil
          rw [if_neg hil, if_neg hil2]

/-- C22 at a 14-byte buffer that starts with the FX.25 tag only in its first byte. -/
theorem C22_detect_protocol_priority_order_witness :
    (∀ b ∈ [0xB7, 0x00, 1, 2, 3, 4, 5, 6, 7, 8, 9, 10, 11, 12], b < 256)
    ∧ 2 ≤ [0xB7, 0x00, 1, 2, 3, 4, 5, 6, 7, 8, 9, 10, 11, 12].length
    ∧ [0xB7, 0x00, 1, 2, 3, 4, 5, 6, 7, 8, 9, 10, 11, 12][0]? ≠ some 0x7E
    ∧ detect_protocol [0xB7, 0x00, 1, 2, 3, 4, 5, 6, 7, 8, 9, 10, 11, 12]
        = some protocol_type_t.PROTOCOL_IL2P :=
  ⟨by decide, by decide, by decide,
    (C22_detect_protocol_priority_order [0xB7, 0x00, 1, 2, 3, 4, 5, 6, 7, 8, 9, 10, 11, 12]
      (by decide) (by decide) (by decide)).1.trans (by decide)⟩

/-- C23: `detect_protocol` returns a label on every buffer, the empty buffer and the
one-byte buffers included: no read `data[i]` falls outside the buffer and `size - 2` does
not underflow (either would make the checked model return `none`); every buffer shorter
than 2 bytes is classified Unknown; and the APRS scan itself, started anywhere with the
bound `size - 2`, reads inside the buffer only and ends within the passes that separate
its start index from the bound. -/
theorem C23_detect_protocol_total (data : List Nat) :
    (∃ label : protocol_type_t, detect_protocol data = some label)
    ∧ (data.length < 2 → detect_protocol data = some protocol_type_t.PROTOCOL_UNKNOWN)
    ∧ (2 ≤ data.length → size_sub data.length 2 = some (data.length - 2))
    ∧ (∀ fuel i : Nat, data.length - 2 ≤ i + fuel →
        ∃ found : Bool, aprs_scan data (data.length - 2) fuel i = some found) := by
  refine ⟨?_, ?_, ?_, ?_⟩
  · rcases data with _ | ⟨d0, _ | ⟨d1, rest⟩⟩
    · exact ⟨protocol_type_t.PROTOCOL_UNKNOWN, by simp [detect_protocol]⟩
    · exact ⟨protocol_type_t.PROTOCOL_UNKNOWN, by simp [detect_protocol]⟩
    · rw [detect_protocol_cons_cons]
      split
      · exact ⟨_, rfl⟩
      · split
        · exact ⟨_, rfl⟩
        · split
          · exact ⟨_, rfl⟩
          · split <;> exact ⟨_, rfl⟩
  · intro hshort
    unfold detect_protocol
    simp [hshort]
  · intro hlen
    unfold size_sub
    simp [hlen]
  · intro fuel i hfuel
    exact aprs_scan_returns data (data.length - 2) fuel i (by omega) hfuel

/-! ## C24 .. C27: the orchestrator's `work`, its modes, flags and scans -/

/-- `convert_single_m17_to_ax25` reads the configuration only through the two AX.25
callsigns. -/
theorem convert_single_m17_to_ax25_congr (s1 s2 : protocol_converter_impl) (f : List Nat)
    (hd : s1.d_ax25_destination = s2.d_ax25_destination)
    (hc : s1.d_ax25_callsign = s2.d_ax25_callsign) :
    s1.convert_single_m17_to_ax25 f = s2.convert_single_m17_to_ax25 f := by
  unfold protocol_converter_impl.convert_single_m17_to_ax25
  rw [hd, hc]

/-- The M17 scan reads the configuration only through the two AX.25 callsigns. -/
theorem convert_m17_to_ax25_loop_congr (s1 s2 : protocol_converter_impl) (d : List Nat)
    (hd : s1.d_ax25_destination = s2.d_ax25_destination)
    (hc : s1.d_ax25_callsign = s2.d_ax25_callsign)
    (fuel i : Nat) (result : List Nat) :
    protocol_converter_impl.convert_m17_to_ax25_loop s1 d fuel i result
      = protocol_converter_impl.convert_m17_to_ax25_loop s2 d fuel i result := by
  induction fuel generalizing i result with
  | zero => rfl
  | succ n ih =>
    rw [protocol_converter_impl.convert_m17_to_ax25_loop,
      protocol_converter_impl.convert_m17_to_ax25_loop]
    simp only [convert_single_m17_to_ax25_congr s1 s2 _ hd hc, ih]

/-- `convert_m17_to_ax25` reads the configuration only through the two AX.25 callsigns. -/
theorem convert_m17_to_ax25_congr (s1 s2 : protocol_converter_impl) (d : List Nat)
    (hd : s1.d_ax25_destination = s2.d_ax25_destination)
    (hc : s1.d_ax25_callsign = s2.d_ax25_callsign) :
    s1.convert_m17_to_ax25 d = s2.convert_m17_to_ax25 d :=
  convert_m17_to_ax25_loop_congr s1 s2 d hd hc d.length 0 []

/-- C24 (evaluation): one `work` call of 48 items whose M17 input is the 48-byte "HELLO"
frame (mode Auto, no flag on the AX.25 input).  The frame converts to 64 bytes; the call
writes the first 48 of them to the AX.25 output port and returns 48.  The orchestrator has
no output queue, and the following call (no sync byte in its input) writes nothing: the
last 16 bytes of the converted frame, its FCS and closing flag among them, are lost. -/
theorem C24_excess_output_is_dropped :
    test_converter.d_conversion_mode = conversion_mode_t.CONVERSION_AUTO
    ∧ (test_converter.convert_m17_to_ax25 hello_m17_frame).length = 64
    ∧ (test_converter.work 48 hello_m17_frame (List.replicate 48 0)).ax25_out
        = (test_converter.convert_m17_to_ax25 hello_m17_frame).take 48
    ∧ (test_converter.work 48 hello_m17_frame (List.replicate 48 0)).returned = 48
    ∧ (test_converter.work 48 (List.replicate 48 0) (List.replicate 48 0)).ax25_out = []
    ∧ (test_converter.work 48 hello_m17_frame (List.replicate 48 0)).ax25_out
        ++ (test_converter.work 48 (List.replicate 48 0) (List.replicate 48 0)).ax25_out
        ≠ test_converter.convert_m17_to_ax25 hello_m17_frame := by
  decide!

/-- C25: what `work` does in each mode, for every configuration, item count and inputs.
With mode AX25ToM17 it writes nothing to the AX.25 output port, writes to the M17 output
port the first `min(size, noutput_items)` bytes of `convert_ax25_to_m17` of the first
`noutput_items` AX.25-side items, and returns that count; its whole result does not depend
on the M17-side input (the M17 -> AX.25 scan is not run).  Symmetrically with mode
M17ToAX25 for `convert_m17_to_ax25` and the AX.25 output port.  With mode Auto both
conversions are written and the larger count is returned, so each output port receives
exactly what the corresponding single-direction mode writes to it for the same inputs.
On a 64-item M17-side input that starts with the "HELLO" M17 frame, and on a 50-item
AX.25-side input that starts with the "HELLO" AX.25 frame, the enabled direction writes
the converted frame (64 and 50 bytes) and the disabled one nothing. -/
theorem C25_direction_runs_iff_enabled (self : protocol_converter_impl)
    (noutput_items : Nat) (m17_in ax25_in other_m17_in other_ax25_in : List Nat) :
    ((self.set_conversion_mode conversion_mode_t.CONVERSION_AX25_TO_M17).work
        noutput_items m17_in ax25_in).ax25_out = []
    ∧ (self.set_conversion_mode conversion_mode_t.CONVERSION_AX25_TO_M17).work
        noutput_items m17_in ax25_in
      = (self.set_conversion_mode conversion_mode_t.CONVERSION_AX25_TO_M17).work
        noutput_items other_m17_in ax25_in
    ∧ ((self.set_conversion_mode conversion_mode_t.CONVERSION_M17_TO_AX25).work
        noutput_items m17_in ax25_in).m17_out = []
    ∧ (self.set_conversion_mode conversion_mode_t.CONVERSION_M17_TO_AX25).work
        noutput_items m17_in ax25_in
      = (self.set_conversion_mode conversion_mode_t.CONVERSION_M17_TO_AX25).work
        noutput_items m17_in other_ax25_in
    ∧ ((self.set_conversion_mode conversion_mode_t.CONVERSION_AUTO).work
        noutput_items m17_in ax25_in).ax25_out
      = ((self.set_conversion_mode conversion_mode_t.CONVERSION_M17_TO_AX25).work
        noutput_items m17_in ax25_in).ax25_out
    ∧ ((self.set_conversion_mode conversion_mode_t.CONVERSION_AUTO).work
        noutput_items m17_in ax25_in).m17_out
      = ((self.set_conversion_mode conversion_mode_t.CONVERSION_AX25_TO_M17).work
        noutput_items m17_in ax25_in).m17_out
    ∧ (self.set_conversion_mode conversion_mode_t.CONVERSION_AX25_TO_M17).work
        noutput_items m17_in ax25_in
      = { m17_out :=
            (protocol_converter_impl.convert_ax25_to_m17 (ax25_in.take noutput_items)).take
              (min (protocol_converter_impl.convert_ax25_to_m17
                    (ax25_in.take noutput_items)).length noutput_items),
          ax25_out := [],
          returned :=
            min (protocol_converter_impl.convert_ax25_to_m17
                  (ax25_in.take noutput_items)).length noutput_items }
    ∧ (self.set_conversion_mode conversion_mode_t.CONVERSION_M17_TO_AX25).work
        noutput_items m17_in ax25_in
      = { m17_out := [],
          ax25_out :=
            (self.convert_m17_to_ax25 (m17_in.take noutput_items)).take
              (min (self.convert_m17_to_ax25 (m17_in.take noutput_items)).length
                noutput_items),
          returned :=
            min (self.convert_m17_to_ax25 (m17_in.take noutput_items)).length
              noutput_items }
    ∧ (self.set_conversion_mode conversion_mode_t.CONVERSION_AUTO).work
        noutput_items m17_in ax25_in
      = { m17_out :=
            (protocol_converter_impl.convert_ax25_to_m17 (ax25_in.take noutput_items)).take
              (min (protocol_converter_impl.convert_ax25_to_m17
                    (ax25_in.take noutput_items)).length noutput_items),
          ax25_out :=
            (self.convert_m17_to_ax25 (m17_in.take noutput_items)).take
              (min (self.convert_m17_to_ax25 (m17_in.take noutput_items)).length
                noutput_items),
          returned :=
            max (min (protocol_converter_impl.convert_ax25_to_m17
                    (ax25_in.take noutput_items)).length noutput_items)
                (min (self.convert_m17_to_ax25 (m17_in.take noutput_items)).length
                  noutput_items) }
    ∧ ((test_converter.set_conversion_mode conversion_mode_t.CONVERSION_M17_TO_AX25).work 64
          (hello_m17_frame ++ List.replicate 16 0x00) (List.replicate 64 0x00)).ax25_out
        = test_converter.convert_single_m17_to_ax25 hello_m17_frame
    ∧ ((test_converter.set_conversion_mode conversion_mode_t.CONVERSION_M17_TO_AX25).work 64
          (hello_m17_frame ++ List.replicate 16 0x00) (List.replicate 64 0x00)).returned = 64
    ∧ ((test_converter.set_conversion_mode conversion_mode_t.CONVERSION_AUTO).work 64
          (hello_m17_frame ++ List.replicate 16 0x00) (List.replicate 64 0x00)).ax25_out
        = test_converter.convert_single_m17_to_ax25 hello_m17_frame
    ∧ ((test_converter.set_conversion_mode conversion_mode_t.CONVERSION_AX25_TO_M17).work 64
          (hello_m17_frame ++ List.replicate 16 0x00) (List.replicate 64 0x00)).returned = 0
    ∧ ((test_converter.set_conversion_mode conversion_mode_t.CONVERSION_AX25_TO_M17).work 50
          (List.replicate 50 0x00) (hello_ax25_frame ++ List.replicate 25 0x00)).m17_out
        = protocol_converter_impl.convert_single_ax25_to_m17 hello_ax25_frame
    ∧ ((test_converter.set_conversion_mode conversion_mode_t.CONVERSION_AX25_TO_M17).work 50
          (List.replicate 50 0x00) (hello_ax25_frame ++ List.replicate 25 0x00)).returned
        = 50
    ∧ ((test_converter.set_conversion_mode conversion_mode_t.CONVERSION_AUTO).work 50
          (List.replicate 50 0x00) (hello_ax25_frame ++ List.replicate 25 0x00)).m17_out
        = protocol_converter_impl.convert_single_ax25_to_m17 hello_ax25_frame
    ∧ ((test_converter.set_conversion_mode conversion_mode_t.CONVERSION_M17_TO_AX25).work 50
          (List.replicate 50 0x00) (hello_ax25_frame ++ List.replicate 25 0x00)).returned
        = 0 := by
  have hauto := convert_m17_to_ax25_congr
    (self.set_conversion_mode conversion_mode_t.CONVERSION_AUTO) self
    (m17_in.take noutput_items) rfl rfl
  have hm17 := convert_m17_to_ax25_congr
    (self.set_conversion_mode conversion_mode_t.CONVERSION_M17_TO_AX25) self
    (m17_in.take noutput_items) rfl rfl
  have hax : (self.set_conversion_mode conversion_mode_t.CONVERSION_AX25_TO_M17).work
        noutput_items m17_in ax25_in
      = { m17_out :=
            (protocol_converter_impl.convert_ax25_to_m17 (ax25_in.take noutput_items)).take
              (min (protocol_converter_impl.convert_ax25_to_m17
                    (ax25_in.take noutput_items)).length noutput_items),
          ax25_out := [],
          returned :=
            min (protocol_converter_impl.convert_ax25_to_m17
                  (ax25_in.take noutput_items)).length noutput_items } := by
    simp [protocol_converter_impl.work, protocol_converter_impl.set_conversion_mode]
  have hmx : (self.set_conversion_mode conversion_mode_t.CONVERSION_M17_TO_AX25).work
        noutput_items m17_in ax25_in
      = { m17_out := [],
          ax25_out :=
            (self.convert_m17_to_ax25 (m17_in.take noutput_items)).take
              (min (self.convert_m17_to_ax25 (m17_in.take noutput_items)).length
                noutput_items),
          returned :=
            min (self.convert_m17_to_ax25 (m17_in.take noutput_items)).length
              noutput_items } := by
    rw [← hm17]
    simp [protocol_converter_impl.work, protocol_converter_impl.set_conversion_mode]
  have hau : (self.set_conversion_mode conversion_mode_t.CONVERSION_AUTO).work
        noutput_items m17_in ax25_in
      = { m17_out :=
            (protocol_converter_impl.convert_ax25_to_m17 (ax25_in.take noutput_items)).take
              (min (protocol_converter_impl.convert_ax25_to_m17
                    (ax25_in.take noutput_items)).length noutput_items),
          ax25_out :=
            (self.convert_m17_to_ax25 (m17_in.take noutput_items)).take
              (min (self.convert_m17_to_ax25 (m17_in.take noutput_items)).length
                noutput_items),
          returned :=
            max (min (protocol_converter_impl.convert_ax25_to_m17
                    (ax25_in.take noutput_items)).length noutput_items)
                (min (self.convert_m17_to_ax25 (m17_in.take noutput_items)).length
                  noutput_items) } := by
    rw [← hauto]
    simp [protocol_converter_impl.work, protocol_converter_impl.set_conversion_mode]
  refine ⟨?_, ?_, ?_, ?_, ?_, ?_, hax, hmx, hau, by decide!, by decide!, by decide!,
    by decide!, by decide!, by decide!, by decide!, by decide!⟩
  · simp [protocol_converter_impl.work, protocol_converter_impl.set_conversion_mode]
  · simp [protocol_converter_impl.work, protocol_converter_impl.set_conversion_mode]
  · simp [protocol_converter_impl.work, protocol_converter_impl.set_conversion_mode]
  · simp [protocol_converter_impl.work, protocol_converter_impl.set_conversion_mode]
  · rw [hau, hmx]
  · rw [hau, hax]

/-- The stream block builds its M17 frame without reading the FEC flag. -/
theorem work_byte_set_fec_enabled (st : ax25_to_m17_impl) (fec : Bool) (b : Nat) :
    ax25_to_m17_impl.work_byte (st.set_fec_enabled fec) b
      = (ax25_to_m17_impl.work_byte st b).set_fec_enabled fec := by
  rcases st with ⟨c, d, e, fb, fl, s, fc, bs, bc, mf, ob⟩
  cases s
  · simp only [ax25_to_m17_impl.work_byte, ax25_to_m17_impl.set_fec_enabled]
    split <;> rfl
  · simp only [ax25_to_m17_impl.work_byte, ax25_to_m17_impl.set_fec_enabled]
    split
    · simp only [ax25_to_m17_impl.process_ax25_frame]
      split <;> rfl
    · rfl

/-- A run of the extractor loop commutes with setting the FEC flag. -/
theorem foldl_work_byte_set_fec_enabled (input : List Nat) (st : ax25_to_m17_impl)
    (fec : Bool) :
    input.foldl ax25_to_m17_impl.work_byte (st.set_fec_enabled fec)
      = (input.foldl ax25_to_m17_impl.work_byte st).set_fec_enabled fec := by
  induction input generalizing st with
  | nil => rfl
  | cons b bs ih =>
    rw [List.foldl_cons, List.foldl_cons, work_byte_set_fec_enabled, ih]

/-- C26: the FEC flags are configuration state only.  For every configuration of the
orchestrator and every value of the FX.25 and IL2P flags, `convert_single_m17_to_ax25`,
the scan `convert_m17_to_ax25` and `work` give the same output as with the flags left as
they are (`convert_single_ax25_to_m17` and `convert_ax25_to_m17` take no configuration at
all); the stream block's `work` returns the same bytes and reaches the same state up to
the flag; and `set_fx25_enabled`, `set_il2p_enabled` and `set_fec_enabled` write their flag
and leave every other field as it was. -/
theorem C26_fec_flags_do_not_change_output (self : protocol_converter_impl)
    (st : ax25_to_m17_impl) (fx25 il2p fec : Bool) (noutput_items : Nat)
    (f m17_in ax25_in input : List Nat) :
    ((self.set_fx25_enabled fx25).set_il2p_enabled il2p).convert_single_m17_to_ax25 f
      = self.convert_single_m17_to_ax25 f
    ∧ ((self.set_fx25_enabled fx25).set_il2p_enabled il2p).convert_m17_to_ax25 f
      = self.convert_m17_to_ax25 f
    ∧ ((self.set_fx25_enabled fx25).set_il2p_enabled il2p).work noutput_items m17_in ax25_in
      = self.work noutput_items m17_in ax25_in
    ∧ (ax25_to_m17_impl.work (st.set_fec_enabled fec) input).2
      = (ax25_to_m17_impl.work st input).2
    ∧ (ax25_to_m17_impl.work (st.set_fec_enabled fec) input).1
      = (ax25_to_m17_impl.work st input).1.set_fec_enabled fec
    ∧ self.set_fx25_enabled fx25 = { self with d_enable_fx25 := fx25 }
    ∧ self.set_il2p_enabled il2p = { self with d_enable_il2p := il2p }
    ∧ st.set_fec_enabled fec = { st with d_enable_fec := fec }
    ∧ ((self.set_fx25_enabled fx25).d_enable_fx25 = fx25
      ∧ (self.set_fx25_enabled fx25).d_enable_il2p = self.d_enable_il2p
      ∧ (self.set_fx25_enabled fx25).d_m17_callsign = self.d_m17_callsign
      ∧ (self.set_fx25_enabled fx25).d_m17_destination = self.d_m17_destination
      ∧ (self.set_fx25_enabled fx25).d_ax25_callsign = self.d_ax25_callsign
      ∧ (self.set_fx25_enabled fx25).d_ax25_destination = self.d_ax25_destination
      ∧ (self.set_fx25_enabled fx25).d_conversion_mode = self.d_conversion_mode
      ∧ (self.set_fx25_enabled fx25).d_frame_counter = self.d_frame_counter
      ∧ (self.set_fx25_enabled fx25).d_error_count = self.d_error_count)
    ∧ ((self.set_il2p_enabled il2p).d_enable_il2p = il2p
      ∧ (self.set_il2p_enabled il2p).d_enable_fx25 = self.d_enable_fx25
      ∧ (self.set_il2p_enabled il2p).d_m17_callsign = self.d_m17_callsign
      ∧ (self.set_il2p_enabled il2p).d_m17_destination = self.d_m17_destination
      ∧ (self.set_il2p_enabled il2p).d_ax25_callsign = self.d_ax25_callsign
      ∧ (self.set_il2p_enabled il2p).d_ax25_destination = self.d_ax25_destination
      ∧ (self.set_il2p_enabled il2p).d_conversion_mode = self.d_conversion_mode
      ∧ (self.set_il2p_enabled il2p).d_frame_counter = self.d_frame_counter
      ∧ (self.set_il2p_enabled il2p).d_error_count = self.d_error_count)
    ∧ ((st.set_fec_enabled fec).d_enable_fec = fec
      ∧ (st.set_fec_enabled fec).d_callsign = st.d_callsign
      ∧ (st.set_fec_enabled fec).d_destination = st.d_destination
      ∧ (st.set_fec_enabled fec).d_frame_buffer = st.d_frame_buffer
      ∧ (st.set_fec_enabled fec).d_frame_length = st.d_frame_length
      ∧ (st.set_fec_enabled fec).d_state = st.d_state
      ∧ (st.set_fec_enabled fec).d_frame_counter = st.d_frame_counter
      ∧ (st.set_fec_enabled fec).d_bit_stuffer = st.d_bit_stuffer
      ∧ (st.set_fec_enabled fec).d_bit_count = st.d_bit_count
      ∧ (st.set_fec_enabled fec).d_m17_frame = st.d_m17_frame
      ∧ (st.set_fec_enabled fec).d_output_buffer = st.d_output_buffer) := by
  have hscan : ∀ d : List Nat,
      ((self.set_fx25_enabled fx25).set_il2p_enabled il2p).convert_m17_to_ax25 d
        = self.convert_m17_to_ax25 d :=
    fun d => convert_m17_to_ax25_congr _ _ d rfl rfl
  have hstream : ax25_to_m17_impl.work (st.set_fec_enabled fec) input
      = ((ax25_to_m17_impl.work st input).1.set_fec_enabled fec,
          (ax25_to_m17_impl.work st input).2) := by
    unfold ax25_to_m17_impl.work
    simp only [foldl_work_byte_set_fec_enabled]
    by_cases hq : (input.foldl ax25_to_m17_impl.work_byte st).d_output_buffer = []
    · simp [hq, ax25_to_m17_impl.set_fec_enabled]
    · simp [hq, ax25_to_m17_impl.set_fec_enabled]
  refine ⟨convert_single_m17_to_ax25_congr _ _ f rfl rfl, hscan f, ?_, ?_, ?_, rfl, rfl, rfl,
    ⟨rfl, rfl, rfl, rfl, rfl, rfl, rfl, rfl, rfl⟩, ⟨rfl, rfl, rfl, rfl, rfl, rfl, rfl, rfl, rfl⟩,
    ⟨rfl, rfl, rfl, rfl, rfl, rfl, rfl, rfl, rfl, rfl, rfl⟩⟩
  · unfold protocol_converter_impl.work
    simp only [hscan]
    rfl
  · rw [hstream]
  · rw [hstream]

/-- The inner loop of the AX.25 scan leaves `frame_end` at its start value or sets it to
one past an index it visited. -/
theorem ax25_frame_end_from_bounds (l : List Nat) (j frame_end : Nat) :
    protocol_converter_impl.ax25_frame_end_from l j frame_end = frame_end
    ∨ (j + 1 ≤ protocol_converter_impl.ax25_frame_end_from l j frame_end
      ∧ protocol_converter_impl.ax25_frame_end_from l j frame_end ≤ j + l.length) := by
  induction l generalizing j with
  | nil => exact Or.inl rfl
  | cons b rest ih =>
    unfold protocol_converter_impl.ax25_frame_end_from
    by_cases hb : b = 0x7E
    · simp only [hb, ite_true, List.length_cons]
      right
      omega
    · simp only [hb, ite_false, List.length_cons]
      rcases ih (j + 1) with h | h
      · exact Or.inl h
      · right
        omega

/-- One pass of the AX.25 scan at an index inside the input ends at a `frame_end` that is
beyond the index and within the input. -/
theorem ax25_frame_end_advances (d : List Nat) (i : Nat) (hi : i < d.length) :
    i + 1 ≤ protocol_converter_impl.ax25_frame_end_from (d.drop (i + 1)) (i + 1) (i + 1)
    ∧ protocol_converter_impl.ax25_frame_end_from (d.drop (i + 1)) (i + 1) (i + 1)
        ≤ d.length := by
  have hlen : (d.drop (i + 1)).length = d.length - (i + 1) := List.length_drop _ _
  rcases ax25_frame_end_from_bounds (d.drop (i + 1)) (i + 1) (i + 1) with h | h
  · omega
  · omega

/-- With a pass budget that covers the bytes left, the counted M17 scan ends by its loop
condition and gives the result of the scan. -/
theorem convert_m17_to_ax25_passes_eq (self : protocol_converter_impl) (d : List Nat)
    (fuel i : Nat) (result : List Nat) (h : d.length ≤ i + fuel) :
    protocol_converter_impl.convert_m17_to_ax25_passes self d fuel i result
      = some (protocol_converter_impl.convert_m17_to_ax25_loop self d fuel i result) := by
  induction fuel generalizing i result with
  | zero =>
    have hi : ¬ i < d.length := by omega
    simp [protocol_converter_impl.convert_m17_to_ax25_passes,
      protocol_converter_impl.convert_m17_to_ax25_loop, hi]
  | succ n ih =>
    rw [protocol_converter_impl.convert_m17_to_ax25_passes,
      protocol_converter_impl.convert_m17_to_ax25_loop]
    by_cases hi : i < d.length
    · simp only [hi, ite_true]
      by_cases hs : d.getD i 0 = 0x5D
      · simp only [hs, ite_true]
        exact ih _ _ (by omega)
      · simp only [hs, ite_false]
        exact ih _ _ (by omega)
    · simp only [hi, ite_false]

/-- With a pass budget that covers the bytes left, the counted AX.25 scan ends by its loop
condition and gives the result of the scan. -/
theorem convert_ax25_to_m17_passes_eq (d : List Nat)
    (fuel i : Nat) (result : List Nat) (h : d.length ≤ i + fuel) :
    protocol_converter_impl.convert_ax25_to_m17_passes d fuel i result
      = some (protocol_converter_impl.convert_ax25_to_m17_loop d fuel i result) := by
  induction fuel generalizing i result with
  | zero =>
    have hi : ¬ i < d.length := by omega
    simp [protocol_converter_impl.convert_ax25_to_m17_passes,
      protocol_converter_impl.convert_ax25_to_m17_loop, hi]
  | succ n ih =>
    rw [protocol_converter_impl.convert_ax25_to_m17_passes,
      protocol_converter_impl.convert_ax25_to_m17_loop]
    by_cases hi : i < d.length
    · simp only [hi, ite_true]
      by_cases hs : d.getD i 0 = 0x7E
      · simp only [hs, ite_true]
        have hadv := ax25_frame_end_advances d i hi
        exact ih _ _ (by omega)
      · simp only [hs, ite_false]
        exact ih _ _ (by omega)
    · simp only [hi, ite_false]

/-- C27: both stream scans of the orchestrator terminate on every input.  In a pass at an
index `i` inside the input, `frame_end` is at least `i + 1` and at most the input length,
so the index after the pass, `frame_end - 1 + 1`, is beyond `i`; and with a budget of as
many passes as the input has bytes, both scans end by their loop condition, with the
result of `convert_m17_to_ax25` and of `convert_ax25_to_m17`. -/
theorem C27_stream_scans_terminate (self : protocol_converter_impl) (d : List Nat) :
    (∀ i : Nat, i < d.length →
        i + 1 ≤ min (i + 48) d.length ∧ min (i + 48) d.length ≤ d.length
        ∧ i < min (i + 48) d.length - 1 + 1)
    ∧ (∀ i : Nat, i < d.length →
        i + 1 ≤ protocol_converter_impl.ax25_frame_end_from (d.drop (i + 1)) (i + 1) (i + 1)
        ∧ protocol_converter_impl.ax25_frame_end_from (d.drop (i + 1)) (i + 1) (i + 1)
            ≤ d.length
        ∧ i < protocol_converter_impl.ax25_frame_end_from (d.drop (i + 1)) (i + 1) (i + 1)
            - 1 + 1)
    ∧ protocol_converter_impl.convert_m17_to_ax25_passes self d d.length 0 []
        = some (self.convert_m17_to_ax25 d)
    ∧ protocol_converter_impl.convert_ax25_to_m17_passes d d.length 0 []
        = some (protocol_converter_impl.convert_ax25_to_m17 d) := by
  refine ⟨?_, ?_, ?_, ?_⟩
  · intro i hi
    omega
  · intro i hi
    have hadv := ax25_frame_end_advances d i hi
    omega
  · exact convert_m17_to_ax25_passes_eq self d d.length 0 [] (by omega)
  · exact convert_ax25_to_m17_passes_eq d d.length 0 [] (by omega)

/-! ## C28 .. C30: the stream block's frames and output queue -/

/-- The extractor loop never writes `d_m17_frame`. -/
theorem work_byte_m17_frame (st : ax25_to_m17_impl) (b : Nat) :
    (ax25_to_m17_impl.work_byte st b).d_m17_frame = st.d_m17_frame := by
  rcases st with ⟨c, d, e, fb, fl, s, fc, bs, bc, mf, ob⟩
  cases s
  · simp only [ax25_to_m17_impl.work_byte]
    split <;> rfl
  · simp only [ax25_to_m17_impl.work_byte]
    split
    · simp only [ax25_to_m17_impl.process_ax25_frame]
      split <;> rfl
    · rfl

/-- In every state reached from the constructor by `work` calls, `d_m17_frame` is the
header `0x5D 0x00` written by `initialize_m17_frame`. -/
theorem work_calls_m17_frame (callsign destination : List Nat) (enable_fec : Bool)
    (calls : List (List Nat)) :
    (ax25_to_m17_impl.work_calls (ax25_to_m17_impl.make callsign destination enable_fec)
      calls).1.d_m17_frame = [0x5D, 0x00] := by
  have hfold : ∀ (input : List Nat) (st : ax25_to_m17_impl),
      (input.foldl ax25_to_m17_impl.work_byte st).d_m17_frame = st.d_m17_frame := by
    intro input
    induction input with
    | nil => intro st; rfl
    | cons b bs ih =>
      intro st
      rw [List.foldl_cons, ih, work_byte_m17_frame]
  have hwork : ∀ (input : List Nat) (st : ax25_to_m17_impl),
      (ax25_to_m17_impl.work st input).1.d_m17_frame = st.d_m17_frame := by
    intro input st
    unfold ax25_to_m17_impl.work
    simp only []
    split
    · exact hfold input st
    · exact hfold input st
  have hcalls : ∀ (cs : List (List Nat)) (st : ax25_to_m17_impl),
      (ax25_to_m17_impl.work_calls st cs).1.d_m17_frame = st.d_m17_frame := by
    intro cs
    induction cs with
    | nil => intro st; rfl
    | cons input rest ih =>
      intro st
      unfold ax25_to_m17_impl.work_calls
      simp only []
      rw [ih, hwork]
  rw [hcalls]
  rfl

/-- The frame the stream block builds for a payload, with the header `0x5D 0x00` in
`d_m17_frame`. -/
theorem build_m17_frame_eq (st : ax25_to_m17_impl) (payload : List Nat)
    (hheader : st.d_m17_frame = [0x5D, 0x00]) :
    ax25_to_m17_impl.build_m17_frame st payload
      = ([0x5D, 0x00] ++ payload ++ List.replicate (48 - (2 + payload.length)) 0x00)
        ++ [ax25_to_m17_impl.calculate_m17_crc
              ([0x5D, 0x00] ++ payload ++ List.replicate (48 - (2 + payload.length)) 0x00)
              &&& 0xFF,
            (ax25_to_m17_impl.calculate_m17_crc
              ([0x5D, 0x00] ++ payload ++ List.replicate (48 - (2 + payload.length)) 0x00)
              >>> 8) &&& 0xFF] := by
  have hl : ([0x5D, 0x00] ++ payload).length = 2 + payload.length := by
    simp
    omega
  unfold ax25_to_m17_impl.build_m17_frame ax25_to_m17_impl.pad_to_m17_frame_size
  simp only [hheader, hl]

/-- C28: when the stream block closes a frame (state FrameStart, a 0x7E arrives, at least
one byte accumulated) whose flag-stripped body `b` has at least 10 bytes, the bytes
appended to the output queue are 0x5D, 0x00, the information field `info` (`b[14 .. |b|-2)`
when `|b| > 16`, empty otherwise, never cut), zero bytes up to a length of 48 (none when
`2 + |info| >= 48`), then the low and the high byte of `calculate_m17_crc` over all the
preceding bytes; `max(48, 2 + |info|) + 2` bytes in all, and one frame is counted. -/
theorem C28_stream_block_frame_layout (st : ax25_to_m17_impl)
    (hstate : st.d_state = ax25_to_m17_impl.state_t.STATE_FRAME_START)
    (hacc : 0 < st.d_frame_length)
    (hheader : st.d_m17_frame = [0x5D, 0x00])
    (hbody : 10 ≤ st.d_frame_buffer.length) :
    ∃ info body : List Nat, ∃ crc : Nat,
      info = (if st.d_frame_buffer.length > 16 then
                (st.d_frame_buffer.drop 14).take (st.d_frame_buffer.length - 16)
              else [])
      ∧ body = [0x5D, 0x00] ++ info ++ List.replicate (48 - (2 + info.length)) 0x00
      ∧ crc = ax25_to_m17_impl.calculate_m17_crc body
      ∧ (ax25_to_m17_impl.work_byte st 0x7E).d_output_buffer
          = st.d_output_buffer ++ (body ++ [crc &&& 0xFF, (crc >>> 8) &&& 0xFF])
      ∧ (body ++ [crc &&& 0xFF, (crc >>> 8) &&& 0xFF]).length = max 48 (2 + info.length) + 2
      ∧ (ax25_to_m17_impl.work_byte st 0x7E).d_frame_counter = st.d_frame_counter + 1
      ∧ (ax25_to_m17_impl.work_byte st 0x7E).d_state = ax25_to_m17_impl.state_t.STATE_IDLE := by
  have hstep : ax25_to_m17_impl.work_byte st 0x7E
      = { ax25_to_m17_impl.process_ax25_frame st with
          d_state := ax25_to_m17_impl.state_t.STATE_IDLE } := by
    unfold ax25_to_m17_impl.work_byte
    rw [hstate]
    simp [hacc]
  have hn : ¬ st.d_frame_buffer.length < 10 := by omega
  have hslice : (st.d_frame_buffer.take (st.d_frame_buffer.length - 2)).drop 14
      = (st.d_frame_buffer.drop 14).take (st.d_frame_buffer.length - 16) := by
    rw [List.drop_take, show st.d_frame_buffer.length - 2 - 14 = st.d_frame_buffer.length - 16
      from by omega]
  have hproc : ax25_to_m17_impl.process_ax25_frame st
      = ax25_to_m17_impl.convert_ax25_to_m17 st
          (if st.d_frame_buffer.length > 16 then
            (st.d_frame_buffer.drop 14).take (st.d_frame_buffer.length - 16)
           else []) := by
    unfold ax25_to_m17_impl.process_ax25_frame
    simp only [hn, ite_false, hslice]
  refine ⟨(if st.d_frame_buffer.length > 16 then
            (st.d_frame_buffer.drop 14).take (st.d_frame_buffer.length - 16)
           else []), _, _, rfl, rfl, rfl, ?_, ?_, ?_, ?_⟩
  · rw [hstep, hproc]
    simp only [ax25_to_m17_impl.convert_ax25_to_m17]
    rw [build_m17_frame_eq st _ hheader]
  · simp only [List.length_append, List.length_replicate, List.length_cons, List.length_nil]
    omega
  · rw [hstep, hproc]
    simp only [ax25_to_m17_impl.convert_ax25_to_m17]
  · rw [hstep]

/-- C28 at the "HELLO" frame body (23 bytes) accumulated in a freshly constructed block. -/
theorem C28_stream_block_frame_layout_witness :
    hello_open_state.d_state = ax25_to_m17_impl.state_t.STATE_FRAME_START
    ∧ 0 < hello_open_state.d_frame_length
    ∧ hello_open_state.d_m17_frame = [0x5D, 0x00]
    ∧ 10 ≤ hello_open_state.d_frame_buffer.length
    ∧ ∃ info body : List Nat, ∃ crc : Nat,
      info = (if hello_open_state.d_frame_buffer.length > 16 then
                (hello_open_state.d_frame_buffer.drop 14).take
                  (hello_open_state.d_frame_buffer.length - 16)
              else [])
      ∧ body = [0x5D, 0x00] ++ info ++ List.replicate (48 - (2 + info.length)) 0x00
      ∧ crc = ax25_to_m17_impl.calculate_m17_crc body
      ∧ (ax25_to_m17_impl.work_byte hello_open_state 0x7E).d_output_buffer
          = hello_open_state.d_output_buffer
            ++ (body ++ [crc &&& 0xFF, (crc >>> 8) &&& 0xFF])
      ∧ (body ++ [crc &&& 0xFF, (crc >>> 8) &&& 0xFF]).length = max 48 (2 + info.length) + 2
      ∧ (ax25_to_m17_impl.work_byte hello_open_state 0x7E).d_frame_counter
          = hello_open_state.d_frame_counter + 1
      ∧ (ax25_to_m17_impl.work_byte hello_open_state 0x7E).d_state
          = ax25_to_m17_impl.state_t.STATE_IDLE :=
  ⟨by decide, by decide, by decide, by decide,
    C28_stream_block_frame_layout hello_open_state (by decide) (by decide) (by decide)
      (by decide)⟩

/-- C29 (evaluation): a freshly constructed stream block is fed an idle flag and then the
"HELLO" frame.  The second flag arrives in FrameStart with nothing accumulated and is
appended to the buffer, so when the closing flag arrives the buffer handed to
`process_ax25_frame` is 0x7E followed by the frame body: it contains a flag byte.  The
frame is converted from that shifted buffer (the source SSID byte 0x61 lands in the
payload) and the extractor is Idle afterwards. -/
theorem C29_buffer_starts_with_flag :
    (flag_then_hello_frame.dropLast.foldl ax25_to_m17_impl.work_byte
        test_stream_block).d_state = ax25_to_m17_impl.state_t.STATE_FRAME_START
    ∧ 0 < (flag_then_hello_frame.dropLast.foldl ax25_to_m17_impl.work_byte
        test_stream_block).d_frame_length
    ∧ flag_then_hello_frame.getLast? = some 0x7E
    ∧ (flag_then_hello_frame.dropLast.foldl ax25_to_m17_impl.work_byte
        test_stream_block).d_frame_buffer
        = 0x7E :: (hello_ax25_frame.drop 1).dropLast
    ∧ 0x7E ∈ (flag_then_hello_frame.dropLast.foldl ax25_to_m17_impl.work_byte
        test_stream_block).d_frame_buffer
    ∧ (flag_then_hello_frame.foldl ax25_to_m17_impl.work_byte test_stream_block)
        = { ax25_to_m17_impl.process_ax25_frame
              (flag_then_hello_frame.dropLast.foldl ax25_to_m17_impl.work_byte
                test_stream_block) with
            d_state := ax25_to_m17_impl.state_t.STATE_IDLE }
    ∧ (flag_then_hello_frame.foldl ax25_to_m17_impl.work_byte test_stream_block).d_frame_counter
        = 1
    ∧ (flag_then_hello_frame.foldl ax25_to_m17_impl.work_byte
        test_stream_block).d_output_buffer.take 10
        = [0x5D, 0x00, 0x61, 0x03, 0xF0, 0x48, 0x45, 0x4C, 0x4C, 0x4F]
    ∧ (ax25_to_m17_impl.work test_stream_block flag_then_hello_frame).1.d_state
        = ax25_to_m17_impl.state_t.STATE_IDLE := by
  decide!

/-- Bytes standing at the front of the output queue do not influence a step of the
extractor: the step appends behind them. -/
theorem work_byte_queue_prefix (st : ax25_to_m17_impl) (p : List Nat) (b : Nat) :
    ax25_to_m17_impl.work_byte { st with d_output_buffer := p ++ st.d_output_buffer } b
      = { ax25_to_m17_impl.work_byte st b with
          d_output_buffer := p ++ (ax25_to_m17_impl.work_byte st b).d_output_buffer } := by
  rcases st with ⟨c, d, e, fb, fl, s, fc, bs, bc, mf, ob⟩
  cases s
  · simp only [ax25_to_m17_impl.work_byte]
    split <;> rfl
  · simp only [ax25_to_m17_impl.work_byte]
    split
    · simp only [ax25_to_m17_impl.process_ax25_frame]
      split
      · rfl
      · simp only [ax25_to_m17_impl.convert_ax25_to_m17, ax25_to_m17_impl.build_m17_frame,
          List.append_assoc]
    · rfl

/-- A run of the extractor loop appends behind the bytes already at the front of the
queue. -/
theorem foldl_work_byte_queue_prefix (input : List Nat) (st : ax25_to_m17_impl)
    (p : List Nat) :
    input.foldl ax25_to_m17_impl.work_byte { st with d_output_buffer := p ++ st.d_output_buffer }
      = { input.foldl ax25_to_m17_impl.work_byte st with
          d_output_buffer :=
            p ++ (input.foldl ax25_to_m17_impl.work_byte st).d_output_buffer } := by
  induction input generalizing st with
  | nil => rfl
  | cons b bs ih =>
    rw [List.foldl_cons, List.foldl_cons, work_byte_queue_prefix, ih]

/-- One `work` call: the returned bytes are a prefix of the queue left by the extractor
loop, the new queue is the rest, and nothing else of the state differs. -/
theorem work_eq_take_drop (st : ax25_to_m17_impl) (input : List Nat) :
    ax25_to_m17_impl.work st input
      = ({ input.foldl ax25_to_m17_impl.work_byte st with
            d_output_buffer :=
              (input.foldl ax25_to_m17_impl.work_byte st).d_output_buffer.drop
                (min (input.foldl ax25_to_m17_impl.work_byte st).d_output_buffer.length
                  input.length) },
          (input.foldl ax25_to_m17_impl.work_byte st).d_output_buffer.take
            (min (input.foldl ax25_to_m17_impl.work_byte st).d_output_buffer.length
              input.length)) := by
  unfold ax25_to_m17_impl.work
  simp only []
  by_cases hq : (input.foldl ax25_to_m17_impl.work_byte st).d_output_buffer = []
  · simp [hq]
    rcases hst : input.foldl ax25_to_m17_impl.work_byte st with
      ⟨c, d, e, fb, fl, s, fc, bs, bc, mf, ob⟩
    rw [hst] at hq
    simp only [] at hq
    simp [hq]
  · simp [hq]

/-- A sequence of `work` calls reaches, up to the bytes already returned, the state that
the extractor loop reaches on the concatenated input without any draining. -/
theorem work_calls_undrained (calls : List (List Nat)) (st : ax25_to_m17_impl) :
    { (ax25_to_m17_impl.work_calls st calls).1 with
      d_output_buffer := (ax25_to_m17_impl.work_calls st calls).2
        ++ (ax25_to_m17_impl.work_calls st calls).1.d_output_buffer }
      = calls.flatten.foldl ax25_to_m17_impl.work_byte st := by
  induction calls generalizing st with
  | nil => rfl
  | cons input rest ih =>
    have hfirst := work_eq_take_drop st input
    have hrest := ih (ax25_to_m17_impl.work st input).1
    have hs : input.foldl ax25_to_m17_impl.work_byte st
        = { (ax25_to_m17_impl.work st input).1 with
            d_output_buffer := (ax25_to_m17_impl.work st input).2
              ++ (ax25_to_m17_impl.work st input).1.d_output_buffer } := by
      rw [hfirst]
      simp only [List.take_append_drop]
    rw [List.flatten_cons, List.foldl_append, hs, foldl_work_byte_queue_prefix, ← hrest]
    simp only [ax25_to_m17_impl.work_calls, List.append_assoc]

/-- The call `process_ax25_frame` appends at most one built frame to the queue and counts
it. -/
theorem process_ax25_frame_appends_frames (st : ax25_to_m17_impl) :
    ∃ frames : List (List Nat),
      (ax25_to_m17_impl.process_ax25_frame st).d_output_buffer
        = st.d_output_buffer ++ frames.flatten
      ∧ (ax25_to_m17_impl.process_ax25_frame st).d_frame_counter
        = st.d_frame_counter + frames.length
      ∧ (∀ f ∈ frames, ∃ (s : ax25_to_m17_impl) (payload : List Nat),
          f = ax25_to_m17_impl.build_m17_frame s payload) := by
  by_cases hshort : st.d_frame_buffer.length < 10
  · rw [process_ax25_frame_short st hshort]
    exact ⟨[], by simp, by simp, by simp⟩
  · refine ⟨[ax25_to_m17_impl.build_m17_frame st
        (if st.d_frame_buffer.length > 14 + 2 then
          (st.d_frame_buffer.take (st.d_frame_buffer.length - 2)).drop 14
         else [])], ?_, ?_, ?_⟩
    · simp only [ax25_to_m17_impl.process_ax25_frame, hshort, ite_false,
        ax25_to_m17_impl.convert_ax25_to_m17, List.flatten_cons, List.flatten_nil,
        List.append_nil]
    · simp only [ax25_to_m17_impl.process_ax25_frame, hshort, ite_false,
        ax25_to_m17_impl.convert_ax25_to_m17, List.length_singleton]
    · intro f hf
      rw [List.mem_singleton] at hf
      exact ⟨_, _, hf⟩

/-- A step of the extractor appends at most one built frame to the queue and counts it. -/
theorem work_byte_appends_frames (st : ax25_to_m17_impl) (b : Nat) :
    ∃ frames : List (List Nat),
      (ax25_to_m17_impl.work_byte st b).d_output_buffer = st.d_output_buffer ++ frames.flatten
      ∧ (ax25_to_m17_impl.work_byte st b).d_frame_counter = st.d_frame_counter + frames.length
      ∧ (∀ f ∈ frames, ∃ (s : ax25_to_m17_impl) (payload : List Nat),
          f = ax25_to_m17_impl.build_m17_frame s payload) := by
  unfold ax25_to_m17_impl.work_byte
  split
  · split <;> exact ⟨[], by simp, by simp, by simp⟩
  · split
    · exact process_ax25_frame_appends_frames st
    · exact ⟨[], by simp, by simp, by simp⟩

/-- A run of the extractor loop appends the frames it builds to the queue, in order, and
counts them. -/
theorem foldl_work_byte_appends_frames (input : List Nat) (st : ax25_to_m17_impl) :
    ∃ frames : List (List Nat),
      (input.foldl ax25_to_m17_impl.work_byte st).d_output_buffer
        = st.d_output_buffer ++ frames.flatten
      ∧ (input.foldl ax25_to_m17_impl.work_byte st).d_frame_counter
        = st.d_frame_counter + frames.length
      ∧ (∀ f ∈ frames, ∃ (s : ax25_to_m17_impl) (payload : List Nat),
          f = ax25_to_m17_impl.build_m17_frame s payload) := by
  induction input generalizing st with
  | nil => exact ⟨[], by simp, by simp, by simp⟩
  | cons b bs ih =>
    obtain ⟨f1, hq1, hc1, hf1⟩ := work_byte_appends_frames st b
    obtain ⟨f2, hq2, hc2, hf2⟩ := ih (ax25_to_m17_impl.work_byte st b)
    refine ⟨f1 ++ f2, ?_, ?_, ?_⟩
    · rw [List.foldl_cons, hq2, hq1, List.flatten_append, List.append_assoc]
    · rw [List.foldl_cons, hc2, hc1, List.length_append, Nat.add_assoc]
    · intro f hf
      rcases List.mem_append.mp hf with h | h
      · exact hf1 f h
      · exact hf2 f h

/-- C30: the stream block's output queue is a lossless FIFO.  One `work` call returns the
first `min(queue length after conversion, noutput_items)` bytes of the queue, never more
than `noutput_items`, and keeps the rest.  Over any sequence of calls, the bytes returned
by all calls followed by the queue that remains are the queue the extractor builds from
the concatenated input without draining: the initial queue followed by the M17 frames
built and counted so far, in the order in which they were appended; so any two ways of
cutting the same input stream into calls give the same bytes. -/
theorem C30_output_queue_is_lossless_fifo (st : ax25_to_m17_impl) (input : List Nat)
    (calls other_calls : List (List Nat)) :
    (ax25_to_m17_impl.work st input).2
      = (input.foldl ax25_to_m17_impl.work_byte st).d_output_buffer.take
          (min (input.foldl ax25_to_m17_impl.work_byte st).d_output_buffer.length input.length)
    ∧ (ax25_to_m17_impl.work st input).2.length
      = min (input.foldl ax25_to_m17_impl.work_byte st).d_output_buffer.length input.length
    ∧ (ax25_to_m17_impl.work st input).2.length ≤ input.length
    ∧ (ax25_to_m17_impl.work st input).1.d_output_buffer
      = (input.foldl ax25_to_m17_impl.work_byte st).d_output_buffer.drop
          (min (input.foldl ax25_to_m17_impl.work_byte st).d_output_buffer.length input.length)
    ∧ (ax25_to_m17_impl.work_calls st calls).2
        ++ (ax25_to_m17_impl.work_calls st calls).1.d_output_buffer
      = (calls.flatten.foldl ax25_to_m17_impl.work_byte st).d_output_buffer
    ∧ (∃ frames : List (List Nat),
        (ax25_to_m17_impl.work_calls st calls).2
          ++ (ax25_to_m17_impl.work_calls st calls).1.d_output_buffer
          = st.d_output_buffer ++ frames.flatten
        ∧ (ax25_to_m17_impl.work_calls st calls).1.d_frame_counter
          = st.d_frame_counter + frames.length
        ∧ (∀ f ∈ frames, ∃ (s : ax25_to_m17_impl) (payload : List Nat),
            f = ax25_to_m17_impl.build_m17_frame s payload))
    ∧ (other_calls.flatten = calls.flatten →
        (ax25_to_m17_impl.work_calls st other_calls).2
          ++ (ax25_to_m17_impl.work_calls st other_calls).1.d_output_buffer
        = (ax25_to_m17_impl.work_calls st calls).2
          ++ (ax25_to_m17_impl.work_calls st calls).1.d_output_buffer) := by
  have hone := work_eq_take_drop st input
  have hall : ∀ cs : List (List Nat),
      (ax25_to_m17_impl.work_calls st cs).2
        ++ (ax25_to_m17_impl.work_calls st cs).1.d_output_buffer
      = (cs.flatten.foldl ax25_to_m17_impl.work_byte st).d_output_buffer := by
    intro cs
    rw [← work_calls_undrained cs st]
  have hcount : (ax25_to_m17_impl.work_calls st calls).1.d_frame_counter
      = (calls.flatten.foldl ax25_to_m17_impl.work_byte st).d_frame_counter := by
    rw [← work_calls_undrained calls st]
  refine ⟨?_, ?_, ?_, ?_, hall calls, ?_, ?_⟩
  · rw [hone]
  · rw [hone]
    simp only [List.length_take]
    omega
  · rw [hone]
    simp only [List.length_take]
    omega
  · rw [hone]
  · obtain ⟨frames, hq, hc, hf⟩ := foldl_work_byte_appends_frames calls.flatten st
    exact ⟨frames, by rw [hall calls, hq], by rw [hcount, hc], hf⟩
  · intro hsame
    rw [hall other_calls, hall calls, hsame]

/-! ## C31: the emitted AX.25 frame fed back to the AX.25 extractor -/

/-- In FrameStart, bytes other than 0x7E are appended to the buffer one by one. -/
theorem foldl_work_byte_accumulates (body : List Nat) (hb : ∀ b ∈ body, b ≠ 0x7E)
    (st : ax25_to_m17_impl)
    (hs : st.d_state = ax25_to_m17_impl.state_t.STATE_FRAME_START) :
    body.foldl ax25_to_m17_impl.work_byte st
      = { st with d_frame_buffer := st.d_frame_buffer ++ body,
                  d_frame_length := st.d_frame_length + body.length } := by
  induction body generalizing st with
  | nil =>
    rcases st with ⟨c, d, e, fb, fl, s, fc, bs, bc, mf, ob⟩
    simp
  | cons b rest ih =>
    rcases st with ⟨c, d, e, fb, fl, s, fc, bs, bc, mf, ob⟩
    simp only at hs
    subst hs
    have hne : b ≠ 0x7E := hb b (List.mem_cons_self _ _)
    have hstep : ax25_to_m17_impl.work_byte
        ⟨c, d, e, fb, fl, ax25_to_m17_impl.state_t.STATE_FRAME_START, fc, bs, bc, mf, ob⟩ b
        = ⟨c, d, e, fb ++ [b], fl + 1, ax25_to_m17_impl.state_t.STATE_FRAME_START, fc, bs, bc,
            mf, ob⟩ := by
      unfold ax25_to_m17_impl.work_byte
      simp [hne]
    rw [List.foldl_cons, hstep, ih (fun x hx => hb x (List.mem_cons_of_mem _ hx)) _ rfl]
    simp only [List.append_assoc, List.singleton_append, List.length_cons,
      ax25_to_m17_impl.mk.injEq, true_and, and_true]
    omega

/-- A flag, a non-empty flag-free body and a flag, fed to an idle extractor: the body is
accumulated, and the closing flag hands it to `process_ax25_frame`. -/
theorem foldl_work_byte_flagged (body : List Nat) (hb : ∀ b ∈ body, b ≠ 0x7E)
    (hne : body ≠ []) (st : ax25_to_m17_impl)
    (hs : st.d_state = ax25_to_m17_impl.state_t.STATE_IDLE) :
    (0x7E :: body).foldl ax25_to_m17_impl.work_byte st
        = { st with d_state := ax25_to_m17_impl.state_t.STATE_FRAME_START,
                    d_frame_length := body.length, d_frame_buffer := body,
                    d_bit_stuffer := 0, d_bit_count := 0 }
    ∧ (0x7E :: (body ++ [0x7E])).foldl ax25_to_m17_impl.work_byte st
        = { ax25_to_m17_impl.process_ax25_frame
              { st with d_state := ax25_to_m17_impl.state_t.STATE_FRAME_START,
                        d_frame_length := body.length, d_frame_buffer := body,
                        d_bit_stuffer := 0, d_bit_count := 0 } with
            d_state := ax25_to_m17_impl.state_t.STATE_IDLE } := by
  rcases st with ⟨c, d, e, fb, fl, s, fc, bs, bc, mf, ob⟩
  simp only at hs
  subst hs
  have hopen : ax25_to_m17_impl.work_byte
      ⟨c, d, e, fb, fl, ax25_to_m17_impl.state_t.STATE_IDLE, fc, bs, bc, mf, ob⟩ 0x7E
      = ⟨c, d, e, [], 0, ax25_to_m17_impl.state_t.STATE_FRAME_START, fc, 0, 0, mf, ob⟩ := by
    unfold ax25_to_m17_impl.work_byte
    simp
  have hacc : (0x7E :: body).foldl ax25_to_m17_impl.work_byte
      ⟨c, d, e, fb, fl, ax25_to_m17_impl.state_t.STATE_IDLE, fc, bs, bc, mf, ob⟩
      = ⟨c, d, e, body, body.length, ax25_to_m17_impl.state_t.STATE_FRAME_START, fc, 0, 0,
          mf, ob⟩ := by
    rw [List.foldl_cons, hopen, foldl_work_byte_accumulates body hb _ rfl]
    simp
  have hpos : 0 < body.length := List.length_pos.mpr hne
  refine ⟨hacc, ?_⟩
  rw [← List.cons_append, List.foldl_append, hacc]
  simp only [List.foldl_cons, List.foldl_nil]
  unfold ax25_to_m17_impl.work_byte
  simp [hpos]

theorem process_ax25_frame_fields (st : ax25_to_m17_impl) :
    st.process_ax25_frame.d_frame_buffer = st.d_frame_buffer
    ∧ (10 ≤ st.d_frame_buffer.length →
        st.process_ax25_frame.d_frame_counter = st.d_frame_counter + 1) := by
  unfold ax25_to_m17_impl.process_ax25_frame
  by_cases h : st.d_frame_buffer.length < 10
  · simp only [h, ite_true, true_and]
    intro h10
    omega
  · simp only [h, ite_false]
    exact ⟨rfl, fun _ => rfl⟩

theorem work_state_fields (st : ax25_to_m17_impl) (input : List Nat) :
    (st.work input).1.d_state = (input.foldl ax25_to_m17_impl.work_byte st).d_state
    ∧ (st.work input).1.d_frame_buffer
        = (input.foldl ax25_to_m17_impl.work_byte st).d_frame_buffer
    ∧ (st.work input).1.d_frame_counter
        = (input.foldl ax25_to_m17_impl.work_byte st).d_frame_counter := by
  unfold ax25_to_m17_impl.work
  simp only []
  split <;> exact ⟨rfl, rfl, rfl⟩

/-- C31 (counterexample): a 48-byte M17 frame whose payload starts with 0x7E, test
configuration.  The emitted AX.25 frame carries that byte unescaped, so the extractor
closes the frame there: after the first 18 bytes it is Idle again and has finalized a
16-byte buffer (the address, control and PID bytes), not the 62 bytes between the emitted
flags; the emitted closing flag then opens a new frame and the block ends in FrameStart. -/
theorem C31_flag_byte_in_payload_ends_frame_early :
    tilde_m17_frame.length = 48
    ∧ (test_converter.convert_single_m17_to_ax25 tilde_m17_frame).length = 64
    ∧ 0x7E ∈ ((test_converter.convert_single_m17_to_ax25 tilde_m17_frame).drop 1).dropLast
    ∧ (((test_converter.convert_single_m17_to_ax25 tilde_m17_frame).take 17).foldl
        ax25_to_m17_impl.work_byte test_stream_block).d_state
        = ax25_to_m17_impl.state_t.STATE_FRAME_START
    ∧ (((test_converter.convert_single_m17_to_ax25 tilde_m17_frame).take 17).foldl
        ax25_to_m17_impl.work_byte test_stream_block).d_frame_counter = 0
    ∧ (((test_converter.convert_single_m17_to_ax25 tilde_m17_frame).take 18).foldl
        ax25_to_m17_impl.work_byte test_stream_block).d_state
        = ax25_to_m17_impl.state_t.STATE_IDLE
    ∧ (((test_converter.convert_single_m17_to_ax25 tilde_m17_frame).take 18).foldl
        ax25_to_m17_impl.work_byte test_stream_block).d_frame_counter = 1
    ∧ (((test_converter.convert_single_m17_to_ax25 tilde_m17_frame).take 18).foldl
        ax25_to_m17_impl.work_byte test_stream_block).d_frame_buffer
        = [0x82, 0xA0, 0xA4, 0xA6, 0x40, 0x40, 0x00, 0x9C, 0x60, 0x86, 0x82, 0x98, 0x98, 0x60,
           0x03, 0xF0]
    ∧ (((test_converter.convert_single_m17_to_ax25 tilde_m17_frame).take 18).foldl
        ax25_to_m17_impl.work_byte test_stream_block).d_frame_buffer
        ≠ ((test_converter.convert_single_m17_to_ax25 tilde_m17_frame).drop 1).dropLast
    ∧ (test_stream_block.work
        (test_converter.convert_single_m17_to_ax25 tilde_m17_frame)).1.d_state
        = ax25_to_m17_impl.state_t.STATE_FRAME_START
    ∧ (test_stream_block.work
        (test_converter.convert_single_m17_to_ax25 tilde_m17_frame)).1.d_frame_counter = 1
    ∧ (test_stream_block.work
        (test_converter.convert_single_m17_to_ax25 tilde_m17_frame)).1.d_frame_buffer
        ≠ ((test_converter.convert_single_m17_to_ax25 tilde_m17_frame).drop 1).dropLast := by
  decide!

/-- C31 (amended): let `out` be the AX.25 frame emitted for an M17 frame `f` of at least 48
bytes and `interior` the bytes between its opening and closing flag.  If no byte of
`interior` is 0x7E, then feeding `out` to an idle extractor finalizes exactly one frame:
before the closing flag the extractor is in FrameStart with buffer `interior`, the closing
flag hands that buffer to `process_ax25_frame`, and `work` leaves the extractor Idle with
buffer `interior` and the frame counter advanced by one. -/
theorem C31_amended_flag_free_frame_survives (self : protocol_converter_impl)
    (st : ax25_to_m17_impl) (f out interior : List Nat) (hf : 48 ≤ f.length)
    (hst : st.d_state = ax25_to_m17_impl.state_t.STATE_IDLE)
    (hout : out = self.convert_single_m17_to_ax25 f)
    (hint : interior = (out.drop 1).dropLast)
    (hflag : ∀ b ∈ interior, b ≠ 0x7E) :
    out = 0x7E :: (interior ++ [0x7E])
    ∧ out.dropLast.foldl ax25_to_m17_impl.work_byte st
        = { st with d_state := ax25_to_m17_impl.state_t.STATE_FRAME_START,
                    d_frame_length := interior.length, d_frame_buffer := interior,
                    d_bit_stuffer := 0, d_bit_count := 0 }
    ∧ out.foldl ax25_to_m17_impl.work_byte st
        = { ax25_to_m17_impl.process_ax25_frame
              { st with d_state := ax25_to_m17_impl.state_t.STATE_FRAME_START,
                        d_frame_length := interior.length, d_frame_buffer := interior,
                        d_bit_stuffer := 0, d_bit_count := 0 } with
            d_state := ax25_to_m17_impl.state_t.STATE_IDLE }
    ∧ (st.work out).1.d_state = ax25_to_m17_impl.state_t.STATE_IDLE
    ∧ (st.work out).1.d_frame_buffer = interior
    ∧ (st.work out).1.d_frame_counter = st.d_frame_counter + 1 := by
  obtain ⟨pre, hpre, hconv⟩ := convert_single_m17_to_ax25_eq self f hf
  have hshape : out = 0x7E :: ((pre.drop 1
      ++ [protocol_converter_impl.calculate_ax25_fcs pre &&& 0xFF,
          (protocol_converter_impl.calculate_ax25_fcs pre >>> 8) &&& 0xFF]) ++ [0x7E]) := by
    rw [hout, hconv, hpre]
    simp
  have hinterior : interior = pre.drop 1
      ++ [protocol_converter_impl.calculate_ax25_fcs pre &&& 0xFF,
          (protocol_converter_impl.calculate_ax25_fcs pre >>> 8) &&& 0xFF] := by
    rw [hint, hshape, List.drop_one, List.tail_cons, List.dropLast_concat]
  have hfull : out = 0x7E :: (interior ++ [0x7E]) := by
    rw [hinterior]
    exact hshape
  have hpl : 17 ≤ pre.length := by
    rw [hpre]
    simp [protocol_converter_impl.push_shifted]
    omega
  have hlen : 10 ≤ interior.length := by
    rw [hinterior, List.length_append, List.length_drop]
    omega
  have hne : interior ≠ [] := by
    intro h
    rw [h] at hlen
    simp at hlen
  obtain ⟨hopen, hclosed⟩ := foldl_work_byte_flagged interior hflag hne st hst
  have hdl : out.dropLast = 0x7E :: interior := by
    rw [hfull, ← List.cons_append, List.dropLast_concat]
  obtain ⟨hws, hwb, hwc⟩ := work_state_fields st out
  have hpf := process_ax25_frame_fields
    { st with d_state := ax25_to_m17_impl.state_t.STATE_FRAME_START,
              d_frame_length := interior.length, d_frame_buffer := interior,
              d_bit_stuffer := 0, d_bit_count := 0 }
  refine ⟨hfull, ?_, ?_, ?_, ?_, ?_⟩
  · rw [hdl]
    exact hopen
  · rw [hfull]
    exact hclosed
  · rw [hws, hfull, hclosed]
  · rw [hwb, hfull, hclosed]
    exact hpf.1
  · rw [hwc, hfull, hclosed]
    exact hpf.2 hlen

/-- C31 (amended) at the 48-byte "HELLO" M17 frame, test configuration, fresh block. -/
theorem C31_amended_flag_free_frame_survives_witness :
    48 ≤ hello_m17_frame.length
    ∧ test_stream_block.d_state = ax25_to_m17_impl.state_t.STATE_IDLE
    ∧ (∀ b ∈ ((test_converter.convert_single_m17_to_ax25 hello_m17_frame).drop 1).dropLast,
        b ≠ 0x7E)
    ∧ (test_stream_block.work
        (test_converter.convert_single_m17_to_ax25 hello_m17_frame)).1.d_frame_buffer
        = ((test_converter.convert_single_m17_to_ax25 hello_m17_frame).drop 1).dropLast
    ∧ (test_stream_block.work
        (test_converter.convert_single_m17_to_ax25 hello_m17_frame)).1.d_frame_counter
        = test_stream_block.d_frame_counter + 1 :=
  ⟨by decide, rfl, by decide!,
    (C31_amended_flag_free_frame_survives test_converter test_stream_block hello_m17_frame
      (test_converter.convert_single_m17_to_ax25 hello_m17_frame)
      (((test_converter.convert_single_m17_to_ax25 hello_m17_frame).drop 1).dropLast)
      (by decide) rfl rfl rfl (by decide!)).2.2.2.2.1,
    (C31_amended_flag_free_frame_survives test_converter test_stream_block hello_m17_frame
      (test_converter.convert_single_m17_to_ax25 hello_m17_frame)
      (((test_converter.convert_single_m17_to_ax25 hello_m17_frame).drop 1).dropLast)
      (by decide) rfl rfl rfl (by decide!)).2.2.2.2.2⟩

/-! ## C32 .. C35: round trips between the converters, and lookups -/

/-- C32 (what the round trip returns): for every M17 frame `f` of at least 48 bytes and
every configuration, `convert_single_ax25_to_m17 (convert_single_m17_to_ax25 f)` is
`0x5D 0x00`, then the three bytes `0x60 0x03 0xF0` (source SSID, control, PID), then the
payload `f[2 .. size-2)`, then two CRC bytes: the payload starts at offset 5, not at
offset 2, and the frame has `size + 3` bytes. -/
theorem C32_round_trip_shifts_payload_by_three (self : protocol_converter_impl)
    (f : List Nat) (hf : 48 ≤ f.length) :
    ∃ lo hi : Nat,
      protocol_converter_impl.convert_single_ax25_to_m17 (self.convert_single_m17_to_ax25 f)
        = [0x5D, 0x00] ++ [0x60, 0x03, 0xF0] ++ (f.take (f.length - 2)).drop 2 ++ [lo, hi]
      ∧ ((protocol_converter_impl.convert_single_ax25_to_m17
            (self.convert_single_m17_to_ax25 f)).drop 2).take 3 = [0x60, 0x03, 0xF0]
      ∧ (protocol_converter_impl.convert_single_ax25_to_m17
            (self.convert_single_m17_to_ax25 f)).length = f.length + 3 := by
  obtain ⟨pre, hpre, hconv⟩ := convert_single_m17_to_ax25_eq self f hf
  have hps : ∀ s : List Nat, (protocol_converter_impl.push_shifted s).length = 6 := by
    intro s
    simp [protocol_converter_impl.push_shifted]
  have hplen : ((f.take (f.length - 2)).drop 2).length = f.length - 4 := by
    rw [List.length_drop, List.length_take]
    omega
  have hprelen : pre.length = 17 + (f.length - 4) := by
    rw [hpre]
    simp only [List.length_append, hps, hplen, List.length_cons, List.length_nil]
  have hdrop : pre.drop 14 = [0x60, 0x03, 0xF0] ++ (f.take (f.length - 2)).drop 2 := by
    rw [hpre]
    have h14 : ([0x7E] ++ protocol_converter_impl.push_shifted
                  (protocol_converter_impl.resize6 self.d_ax25_destination)
        ++ [0x00]
        ++ protocol_converter_impl.push_shifted
                  (protocol_converter_impl.resize6 self.d_ax25_callsign)).length = 14 := by
      simp only [List.length_append, hps, List.length_cons, List.length_nil]
    rw [List.append_assoc _ [0x60, 0x03, 0xF0], List.drop_append_of_le_length (le_of_eq h14.symm),
      List.drop_of_length_le (le_of_eq h14), List.nil_append]
  have hout :
      protocol_converter_impl.convert_single_ax25_to_m17 (self.convert_single_m17_to_ax25 f)
        = [0x5D, 0x00] ++ [0x60, 0x03, 0xF0] ++ (f.take (f.length - 2)).drop 2
          ++ [protocol_converter_impl.calculate_m17_crc
                ([0x5D, 0x00] ++ [0x60, 0x03, 0xF0] ++ (f.take (f.length - 2)).drop 2) &&& 0xFF,
              (protocol_converter_impl.calculate_m17_crc
                ([0x5D, 0x00] ++ [0x60, 0x03, 0xF0] ++ (f.take (f.length - 2)).drop 2) >>> 8)
                &&& 0xFF] := by
    have hlen : (self.convert_single_m17_to_ax25 f).length = pre.length + 3 := by
      rw [hconv]
      simp
    have htake : (self.convert_single_m17_to_ax25 f).take
        ((self.convert_single_m17_to_ax25 f).length - 3) = pre := by
      rw [hlen, hconv, List.append_assoc, Nat.add_sub_cancel, List.take_left]
    unfold protocol_converter_impl.convert_single_ax25_to_m17
    have h10 : ¬ (self.convert_single_m17_to_ax25 f).length < 10 := by omega
    have h16 : (self.convert_single_m17_to_ax25 f).length > 14 + 2 := by omega
    simp only [h10, ite_false, h16, ite_true, htake, hdrop]
    have hpad : protocol_converter_impl.pad_to_m17_frame_size
        ([0x5D, 0x00] ++ ([0x60, 0x03, 0xF0] ++ (f.take (f.length - 2)).drop 2))
        = [0x5D, 0x00] ++ [0x60, 0x03, 0xF0] ++ (f.take (f.length - 2)).drop 2 := by
      unfold protocol_converter_impl.pad_to_m17_frame_size
      have : 48 - ([0x5D, 0x00] ++ ([0x60, 0x03, 0xF0]
          ++ (f.take (f.length - 2)).drop 2)).length = 0 := by
        simp only [List.length_append, hplen, List.length_cons, List.length_nil]
        omega
      rw [this]
      simp
    rw [hpad]
  refine ⟨_, _, hout, ?_, ?_⟩
  · rw [hout]
    rfl
  · rw [hout]
    simp only [List.length_append, hplen, List.length_cons, List.length_nil]
    omega

/-- C32 at the 48-byte "HELLO" M17 frame, test configuration: the round trip returns 51
bytes whose offsets 2..45 hold 0x60 0x03 0xF0 "HELLO" and zeros, which is not the payload
`f[2 .. 46)` ("HELLO" and zeros). -/
theorem C32_round_trip_shifts_payload_by_three_witness :
    48 ≤ hello_m17_frame.length
    ∧ (∃ lo hi : Nat,
      protocol_converter_impl.convert_single_ax25_to_m17
          (test_converter.convert_single_m17_to_ax25 hello_m17_frame)
        = [0x5D, 0x00] ++ [0x60, 0x03, 0xF0]
          ++ (hello_m17_frame.take (hello_m17_frame.length - 2)).drop 2 ++ [lo, hi]
      ∧ ((protocol_converter_impl.convert_single_ax25_to_m17
            (test_converter.convert_single_m17_to_ax25 hello_m17_frame)).drop 2).take 3
          = [0x60, 0x03, 0xF0]
      ∧ (protocol_converter_impl.convert_single_ax25_to_m17
            (test_converter.convert_single_m17_to_ax25 hello_m17_frame)).length
          = hello_m17_frame.length + 3)
    ∧ ((protocol_converter_impl.convert_single_ax25_to_m17
          (test_converter.convert_single_m17_to_ax25 hello_m17_frame)).drop 2).take 44
        = [0x60, 0x03, 0xF0] ++ hello_info ++ List.replicate 36 0x00
    ∧ (hello_m17_frame.drop 2).take 44 = hello_info ++ List.replicate 39 0x00
    ∧ ((protocol_converter_impl.convert_single_ax25_to_m17
          (test_converter.convert_single_m17_to_ax25 hello_m17_frame)).drop 2).take 44
        ≠ (hello_m17_frame.drop 2).take 44 :=
  ⟨by decide,
    C32_round_trip_shifts_payload_by_three test_converter hello_m17_frame (by decide),
    by decide!, by decide!, by decide!⟩

/-- C33 (what the classifier returns): for every AX.25 input of at least 10 bytes the frame
emitted by `convert_single_ax25_to_m17` starts with `0x5D 0x00` and has at least 50 bytes;
`detect_protocol`, which asks for `0x5D 0x5F`, classifies it IL2P, never M17. -/
theorem C33_emitted_m17_frame_classified_il2p (input : List Nat) (h : 10 ≤ input.length) :
    (∃ rest : List Nat, 48 ≤ rest.length
      ∧ protocol_converter_impl.convert_single_ax25_to_m17 input = 0x5D :: 0x00 :: rest)
    ∧ detect_protocol (protocol_converter_impl.convert_single_ax25_to_m17 input)
        = some protocol_type_t.PROTOCOL_IL2P
    ∧ detect_protocol (protocol_converter_impl.convert_single_ax25_to_m17 input)
        ≠ some protocol_type_t.PROTOCOL_M17 := by
  have hn : ¬ input.length < 10 := by omega
  have hshape : ∃ rest : List Nat, 48 ≤ rest.length
      ∧ protocol_converter_impl.convert_single_ax25_to_m17 input = 0x5D :: 0x00 :: rest := by
    unfold protocol_converter_impl.convert_single_ax25_to_m17
    simp only [hn, ite_false]
    generalize (if input.length > 14 + 2 then
      (input.take (input.length - 3)).drop 14 else []) = payload
    unfold protocol_converter_impl.pad_to_m17_frame_size
    refine ⟨payload ++ List.replicate (48 - ([0x5D, 0x00] ++ payload).length) 0x00
      ++ [protocol_converter_impl.calculate_m17_crc
            ([0x5D, 0x00] ++ payload
              ++ List.replicate (48 - ([0x5D, 0x00] ++ payload).length) 0x00) &&& 0xFF,
          (protocol_converter_impl.calculate_m17_crc
            ([0x5D, 0x00] ++ payload
              ++ List.replicate (48 - ([0x5D, 0x00] ++ payload).length) 0x00) >>> 8)
            &&& 0xFF], ?_, ?_⟩
    · simp only [List.length_append, List.length_replicate, List.length_cons,
        List.length_nil]
      omega
    · simp only [List.append_assoc, List.cons_append, List.nil_append]
  obtain ⟨rest, hlen, hout⟩ := hshape
  have hdet : detect_protocol (0x5D :: 0x00 :: rest) = some protocol_type_t.PROTOCOL_IL2P := by
    rw [detect_protocol_cons_cons]
    have h14 : rest.length + 2 ≥ 14 := by omega
    simp [h14]
  refine ⟨⟨rest, hlen, hout⟩, ?_, ?_⟩
  · rw [hout]
    exact hdet
  · rw [hout, hdet]
    decide

/-- C33 at the "HELLO" AX.25 frame. -/
theorem C33_emitted_m17_frame_classified_il2p_witness :
    10 ≤ hello_ax25_frame.length
    ∧ detect_protocol (protocol_converter_impl.convert_single_ax25_to_m17 hello_ax25_frame)
        = some protocol_type_t.PROTOCOL_IL2P
    ∧ detect_protocol (protocol_converter_impl.convert_single_ax25_to_m17 hello_ax25_frame)
        ≠ some protocol_type_t.PROTOCOL_M17 :=
  ⟨by decide,
    (C33_emitted_m17_frame_classified_il2p hello_ax25_frame (by decide)).2⟩

/-- C34 (evaluation at the body of the "HELLO" frame, 23 flag-free bytes): the stream
block, holding the body in its buffer when the closing flag arrives, queues
`5D 00 03 F0 "HELLO" 00.. 86 F5`; the orchestrator, given the same body between two flags,
returns `5D 00 61 03 F0 "HELLO" 00.. 80 7F`, from its single-frame converter and from its
scan alike.  The two frames differ. -/
theorem C34_stream_and_orchestrator_frames_differ :
    (∀ b ∈ hello_ax25_body, b ≠ 0x7E)
    ∧ 10 ≤ hello_ax25_body.length
    ∧ [0x7E] ++ hello_ax25_body ++ [0x7E] = hello_ax25_frame
    ∧ hello_open_state.d_frame_buffer = hello_ax25_body
    ∧ hello_open_state.d_output_buffer = []
    ∧ (ax25_to_m17_impl.process_ax25_frame hello_open_state).d_output_buffer
        = [0x5D, 0x00, 0x03, 0xF0] ++ hello_info ++ List.replicate 39 0x00 ++ [0x86, 0xF5]
    ∧ (test_stream_block.work ([0x7E] ++ hello_ax25_body ++ [0x7E])).2
        ++ (test_stream_block.work ([0x7E] ++ hello_ax25_body ++ [0x7E])).1.d_output_buffer
        = [0x5D, 0x00, 0x03, 0xF0] ++ hello_info ++ List.replicate 39 0x00 ++ [0x86, 0xF5]
    ∧ protocol_converter_impl.convert_single_ax25_to_m17
          ([0x7E] ++ hello_ax25_body ++ [0x7E])
        = [0x5D, 0x00, 0x61, 0x03, 0xF0] ++ hello_info ++ List.replicate 38 0x00
          ++ [0x80, 0x7F]
    ∧ protocol_converter_impl.convert_ax25_to_m17 ([0x7E] ++ hello_ax25_body ++ [0x7E])
        = protocol_converter_impl.convert_single_ax25_to_m17
            ([0x7E] ++ hello_ax25_body ++ [0x7E])
    ∧ (ax25_to_m17_impl.process_ax25_frame hello_open_state).d_output_buffer
        ≠ protocol_converter_impl.convert_single_ax25_to_m17
            ([0x7E] ++ hello_ax25_body ++ [0x7E]) := by
  decide!

/-- C35 (evaluation): after `make()` and `add_mapping("A", "B")` the lookup
`get_ax25_callsign("A")` returns "B".  With auto-learning on (the constructor's default),
`get_m17_callsign("A")` finds no reverse entry for "A", calls `add_mapping("A", "A")` and
overwrites the forward entry: `get_ax25_callsign("A")` then returns "A".  In the same way
`get_ax25_callsign("B")` overwrites the reverse entry of "B", whose value goes from "A" to
"B". -/
theorem C35_lookup_overwrites_existing_mapping :
    (callsign_mapper_impl.make.add_mapping [0x41] [0x42]).d_auto_mapping_enabled = true
    ∧ (callsign_mapper_impl.make.add_mapping [0x41] [0x42]).d_mapping_table.find [0x41]
        = some [0x42]
    ∧ ((callsign_mapper_impl.make.add_mapping [0x41] [0x42]).get_ax25_callsign [0x41]).2
        = [0x42]
    ∧ ((((callsign_mapper_impl.make.add_mapping [0x41] [0x42]).get_m17_callsign
          [0x41]).1).get_ax25_callsign [0x41]).2 = [0x41]
    ∧ (callsign_mapper_impl.make.add_mapping [0x41] [0x42]).d_reverse_mapping_table.find
        [0x42] = some [0x41]
    ∧ ((callsign_mapper_impl.make.add_mapping [0x41] [0x42]).get_m17_callsign [0x42]).2
        = [0x41]
    ∧ ((((callsign_mapper_impl.make.add_mapping [0x41] [0x42]).get_ax25_callsign
          [0x42]).1).get_m17_callsign [0x42]).2 = [0x42]
    ∧ ((((callsign_mapper_impl.make.add_mapping [0x41] [0x42]).get_ax25_callsign
          [0x42]).1).d_reverse_mapping_table.find [0x42]) = some [0x42] := by
  decide!

/-! ## C36, C37: what a receiver computes over body plus checksum -/

/-- The AX.25 accumulator stays within 16 bits over a run of the byte loop. -/
theorem ax25_fcs_foldl_lt (frame : List Nat) (fcs : Nat) (h : fcs < 65536) :
    frame.foldl protocol_converter_impl.ax25_fcs_byte fcs < 65536 := by
  induction frame generalizing fcs with
  | nil => simpa using h
  | cons b bs ih =>
    simp only [List.foldl_cons]
    exact ih _ (protocol_converter_impl.ax25_fcs_byte_lt fcs b)

/-- The high byte of a complemented 16-bit value is the complemented high byte. -/
theorem xor_ffff_shiftRight (s : Nat) : (s ^^^ 0xFFFF) >>> 8 = (s >>> 8) ^^^ 0xFF := by
  apply Nat.eq_of_testBit_eq
  intro j
  rw [Nat.testBit_shiftRight, Nat.testBit_xor, Nat.testBit_xor, Nat.testBit_shiftRight,
    show (0xFFFF : Nat) = 2 ^ 16 - 1 from rfl, show (0xFF : Nat) = 2 ^ 8 - 1 from rfl,
    Nat.testBit_two_pow_sub_one, Nat.testBit_two_pow_sub_one]
  congr 1
  simp only [decide_eq_decide]
  omega

/-- The last two steps of an AX.25 FCS run over body plus FCS end in 0x0F47 whatever the
high byte `h` of the accumulator was. -/
theorem ax25_residue_by_high_byte :
    ∀ h < 256,
      ((protocol_converter_impl.ax25_fcs_byte
          (protocol_converter_impl.ax25_fcs_shift^[8] (256 * h + 255)) (h ^^^ 255))
        ^^^ 0xFFFF) % 65536 = 0x0F47 := by
  decide!

/-- Two M17 CRC steps that feed a low byte `l` and then `l` again end in 0. -/
theorem m17_residue_by_low_byte :
    ∀ l < 256,
      protocol_converter_impl.m17_crc_byte
        (protocol_converter_impl.m17_crc_shift^[8] l) l = 0 := by
  decide!

/-- C37: for every byte sequence `d` with `c = calculate_ax25_fcs(d)`, the FCS of `d`
followed by the low byte `c & 0xFF` and the high byte `c >> 8` is the constant 0x0F47 (the
complement of 0xF0B8). -/
theorem C37_ax25_fcs_constant_residue (d : List Nat) :
    protocol_converter_impl.calculate_ax25_fcs
        (d ++ [protocol_converter_impl.calculate_ax25_fcs d &&& 0xFF,
               protocol_converter_impl.calculate_ax25_fcs d >>> 8]) = 0x0F47
    ∧ (0x0F47 : Nat) = 0xF0B8 ^^^ 0xFFFF := by
  refine ⟨?_, by decide⟩
  have hs : d.foldl protocol_converter_impl.ax25_fcs_byte 0xFFFF < 65536 :=
    ax25_fcs_foldl_lt d 0xFFFF (by norm_num)
  generalize hsdef : d.foldl protocol_converter_impl.ax25_fcs_byte 0xFFFF = s at hs
  have hc : protocol_converter_impl.calculate_ax25_fcs d = s ^^^ 0xFFFF := by
    unfold protocol_converter_impl.calculate_ax25_fcs
    rw [hsdef]
    exact Nat.mod_eq_of_lt (@Nat.xor_lt_two_pow s 0xFFFF 16 hs (by norm_num))
  have hlo : (s ^^^ 0xFFFF) &&& 0xFF = (s % 256) ^^^ 0xFF := by
    rw [Nat.and_xor_distrib_right, show (0xFFFF : Nat) &&& 0xFF = 0xFF from by decide,
      show (0xFF : Nat) = 2 ^ 8 - 1 from rfl, Nat.and_pow_two_sub_one_eq_mod]
  have hhi : (s ^^^ 0xFFFF) >>> 8 = (s / 256) ^^^ 0xFF := by
    rw [xor_ffff_shiftRight, Nat.shiftRight_eq_div_pow]
  have hh : s / 256 < 256 := by omega
  have hlo_lt : (s % 256) ^^^ 0xFF < 256 :=
    @Nat.xor_lt_two_pow (s % 256) 0xFF 8 (Nat.mod_lt _ (by norm_num)) (by norm_num)
  have hstep1 : protocol_converter_impl.ax25_fcs_byte s ((s % 256) ^^^ 0xFF)
      = protocol_converter_impl.ax25_fcs_shift^[8] (256 * (s / 256) + 255) := by
    unfold protocol_converter_impl.ax25_fcs_byte
    rw [protocol_converter_impl.xor_low8_eq_spec s _ hs hlo_lt]
    unfold spec_xor_low8
    rw [Nat.xor_cancel_left]
  unfold protocol_converter_impl.calculate_ax25_fcs at hc ⊢
  rw [List.foldl_append, hsdef]
  rw [hsdef] at hc
  rw [hc, hlo, hhi]
  simp only [List.foldl_cons, List.foldl_nil]
  rw [hstep1]
  exact ax25_residue_by_high_byte (s / 256) hh

/-- C36 (counterexample): for the "HELLO" AX.25 frame (25 bytes), `calculate_m17_crc` over
the complete output of `convert_single_ax25_to_m17`, its two trailing CRC bytes included,
is 0x1D0F, not 0x0000; the stream block's frame gives a non-zero value too. -/
theorem C36_crc_over_whole_frame_is_not_zero :
    10 ≤ hello_ax25_frame.length
    ∧ protocol_converter_impl.calculate_m17_crc
        (protocol_converter_impl.convert_single_ax25_to_m17 hello_ax25_frame) = 0x1D0F
    ∧ protocol_converter_impl.calculate_m17_crc
        (protocol_converter_impl.convert_single_ax25_to_m17 hello_ax25_frame) ≠ 0x0000
    ∧ ax25_to_m17_impl.calculate_m17_crc
        (ax25_to_m17_impl.process_ax25_frame hello_open_state).d_output_buffer ≠ 0x0000 := by
  decide!

/-- The M17 CRC of a body followed by the CRC of the body, high byte first, is 0. -/
theorem m17_crc_residue_high_byte_first (body : List Nat) :
    protocol_converter_impl.calculate_m17_crc
      (body ++ [(protocol_converter_impl.calculate_m17_crc body >>> 8) &&& 0xFF,
                protocol_converter_impl.calculate_m17_crc body &&& 0xFF]) = 0 := by
  have hc := protocol_converter_impl.calculate_m17_crc_lt body
  generalize hcdef : protocol_converter_impl.calculate_m17_crc body = c at hc
  have hlo : c &&& 0xFF = c % 256 := Nat.and_pow_two_sub_one_eq_mod c 8
  have hhi : (c >>> 8) &&& 0xFF = c / 256 := by
    have e := Nat.and_pow_two_sub_one_eq_mod (c >>> 8) 8
    rw [show (2 : Nat) ^ 8 - 1 = 0xFF from rfl] at e
    rw [e, Nat.shiftRight_eq_div_pow]
    have : c / 2 ^ 8 < 256 := by
      norm_num
      omega
    exact Nat.mod_eq_of_lt this
  have hstep1 : protocol_converter_impl.m17_crc_byte c (c / 256)
      = protocol_converter_impl.m17_crc_shift^[8] (c % 256) := by
    unfold protocol_converter_impl.m17_crc_byte
    rw [protocol_converter_impl.xor_high8_eq_spec c _ hc (by omega)]
    unfold spec_xor_high8
    rw [Nat.xor_self]
    simp
  unfold protocol_converter_impl.calculate_m17_crc at hcdef ⊢
  rw [List.foldl_append, hcdef, hlo, hhi]
  simp only [List.foldl_cons, List.foldl_nil]
  rw [hstep1]
  exact m17_residue_by_low_byte (c % 256) (Nat.mod_lt _ (by norm_num))

/-- C36 (amended): for every AX.25 input of at least 10 bytes the output of
`convert_single_ax25_to_m17` is a body followed by the two bytes `lo`, `hi` of the M17 CRC
of the body, low byte first: the CRC recomputed over the body is `lo + 256 * hi`, and the
CRC-16/CCITT residue is 0x0000 when the two trailing bytes are taken high byte first. -/
theorem C36_amended_crc_check_needs_byte_swap (f : List Nat) (hf : 10 ≤ f.length) :
    ∃ (body : List Nat) (lo hi : Nat),
      protocol_converter_impl.convert_single_ax25_to_m17 f = body ++ [lo, hi]
      ∧ lo < 256 ∧ hi < 256
      ∧ protocol_converter_impl.calculate_m17_crc body = lo + 256 * hi
      ∧ protocol_converter_impl.calculate_m17_crc (body ++ [hi, lo]) = 0x0000 := by
  obtain ⟨body, _, hout⟩ := convert_single_ax25_to_m17_shape f hf
  obtain ⟨hsum, hlo, hhi⟩ :=
    crc_bytes_recombine _ (protocol_converter_impl.calculate_m17_crc_lt body)
  exact ⟨body, protocol_converter_impl.calculate_m17_crc body &&& 0xFF,
    (protocol_converter_impl.calculate_m17_crc body >>> 8) &&& 0xFF,
    hout, hlo, hhi, hsum.symm, m17_crc_residue_high_byte_first body⟩

/-- C36 (amended) at the "HELLO" AX.25 frame. -/
theorem C36_amended_crc_check_needs_byte_swap_witness :
    10 ≤ hello_ax25_frame.length
    ∧ ∃ (body : List Nat) (lo hi : Nat),
      protocol_converter_impl.convert_single_ax25_to_m17 hello_ax25_frame = body ++ [lo, hi]
      ∧ lo < 256 ∧ hi < 256
      ∧ protocol_converter_impl.calculate_m17_crc body = lo + 256 * hi
      ∧ protocol_converter_impl.calculate_m17_crc (body ++ [hi, lo]) = 0x0000 :=
  ⟨by decide, C36_amended_crc_check_needs_byte_swap hello_ax25_frame (by decide)⟩

/-! ## C38: the checksum steps are injective -/

theorem xor_mod_65536 (a c : Nat) : (a ^^^ c) % 65536 = (a % 65536) ^^^ (c % 65536) := by
  rw [show (65536 : Nat) = 2 ^ 16 from rfl]
  apply Nat.eq_of_testBit_eq
  intro j
  simp only [Nat.testBit_mod_two_pow, Nat.testBit_xor]
  by_cases h : j < 16 <;> simp [h]

theorem ax25_fcs_shift_left_inverse (s : Nat) (h : s < 65536) :
    2 * ((protocol_converter_impl.ax25_fcs_shift s)
          ^^^ (if (protocol_converter_impl.ax25_fcs_shift s).testBit 15 then 0x8408 else 0))
      + (if (protocol_converter_impl.ax25_fcs_shift s).testBit 15 then 1 else 0) = s := by
  rw [protocol_converter_impl.ax25_fcs_shift_eq_spec s h]
  unfold spec_x25_shift
  have h2 : s / 2 < 2 ^ 15 := by omega
  have hb15 : (s / 2).testBit 15 = false := Nat.testBit_lt_two_pow h2
  have h0 := Nat.testBit_zero s
  cases hb : s.testBit 0
  · rw [hb] at h0
    have hs : ¬ s % 2 = 1 := by simpa using h0.symm
    simp only [Bool.false_eq_true, ite_false, hb15, Nat.xor_zero]
    omega
  · rw [hb] at h0
    have hs : s % 2 = 1 := by simpa using h0.symm
    have ht : ((s / 2) ^^^ 0x8408).testBit 15 = true := by
      rw [Nat.testBit_xor, hb15]
      decide
    simp only [ite_true, ht, Nat.xor_cancel_right]
    omega

theorem ax25_fcs_shift_injective (s t : Nat) (hs : s < 65536) (ht : t < 65536)
    (h : protocol_converter_impl.ax25_fcs_shift s = protocol_converter_impl.ax25_fcs_shift t) :
    s = t := by
  rw [← ax25_fcs_shift_left_inverse s hs, ← ax25_fcs_shift_left_inverse t ht, h]

theorem m17_crc_shift_left_inverse (s : Nat) (h : s < 65536) :
    ((protocol_converter_impl.m17_crc_shift s)
          ^^^ (if (protocol_converter_impl.m17_crc_shift s).testBit 0 then 0x1021 else 0)) / 2
      + (if (protocol_converter_impl.m17_crc_shift s).testBit 0 then 32768 else 0) = s := by
  rw [protocol_converter_impl.m17_crc_shift_eq_spec s]
  unfold spec_ccitt_shift
  have hdm : s.testBit 15 = decide (s / 2 ^ 15 % 2 = 1) := Nat.testBit_to_div_mod
  have hev : ∀ k : Nat, (2 * k).testBit 0 = false := by
    intro k
    rw [Nat.testBit_zero]
    simp
  cases hb : s.testBit 15
  · rw [hb] at hdm
    have hlt : s < 32768 := by
      have : ¬ s / 2 ^ 15 % 2 = 1 := by simpa using hdm.symm
      omega
    have hm : (2 * s) % 65536 = 2 * s := Nat.mod_eq_of_lt (by omega)
    simp only [Bool.false_eq_true, ite_false, hm, hev, Nat.xor_zero]
    omega
  · rw [hb] at hdm
    have hge : 32768 ≤ s := by
      have : s / 2 ^ 15 % 2 = 1 := by simpa using hdm.symm
      omega
    have hm : (2 * s) % 65536 = 2 * (s - 32768) := by omega
    have hr : ((2 * s) ^^^ 0x1021) % 65536 = (2 * (s - 32768)) ^^^ 0x1021 := by
      rw [xor_mod_65536, hm]
    have ht : ((2 * (s - 32768)) ^^^ 0x1021).testBit 0 = true := by
      rw [Nat.testBit_xor, hev]
      decide
    simp only [ite_true, hr, ht, Nat.xor_cancel_right]
    omega

theorem m17_crc_shift_injective (s t : Nat) (hs : s < 65536) (ht : t < 65536)
    (h : protocol_converter_impl.m17_crc_shift s = protocol_converter_impl.m17_crc_shift t) :
    s = t := by
  rw [← m17_crc_shift_left_inverse s hs, ← m17_crc_shift_left_inverse t ht, h]

theorem ax25_fcs_iterate_injective (n : Nat) (s t : Nat) (hs : s < 65536) (ht : t < 65536)
    (h : protocol_converter_impl.ax25_fcs_shift^[n] s
      = protocol_converter_impl.ax25_fcs_shift^[n] t) : s = t := by
  induction n generalizing s t with
  | zero => simpa using h
  | succ k ih =>
    rw [Function.iterate_succ_apply, Function.iterate_succ_apply] at h
    exact ax25_fcs_shift_injective s t hs ht
      (ih _ _ (protocol_converter_impl.ax25_fcs_shift_lt s)
        (protocol_converter_impl.ax25_fcs_shift_lt t) h)

theorem m17_crc_iterate_injective (n : Nat) (s t : Nat) (hs : s < 65536) (ht : t < 65536)
    (h : protocol_converter_impl.m17_crc_shift^[n] s
      = protocol_converter_impl.m17_crc_shift^[n] t) : s = t := by
  induction n generalizing s t with
  | zero => simpa using h
  | succ k ih =>
    rw [Function.iterate_succ_apply, Function.iterate_succ_apply] at h
    exact m17_crc_shift_injective s t hs ht
      (ih _ _ (protocol_converter_impl.m17_crc_shift_lt s)
        (protocol_converter_impl.m17_crc_shift_lt t) h)

/-- Two different accumulators stay different after the same byte is folded in. -/
theorem ax25_fcs_byte_injective_state (s t c : Nat) (hs : s < 65536) (ht : t < 65536)
    (h : protocol_converter_impl.ax25_fcs_byte s c = protocol_converter_impl.ax25_fcs_byte t c) :
    s = t := by
  unfold protocol_converter_impl.ax25_fcs_byte at h
  have e := ax25_fcs_iterate_injective 8 _ _ (Nat.mod_lt _ (by norm_num))
    (Nat.mod_lt _ (by norm_num)) h
  rw [xor_mod_65536, xor_mod_65536, Nat.xor_left_inj, Nat.mod_eq_of_lt hs,
    Nat.mod_eq_of_lt ht] at e
  exact e

/-- Two different bytes folded into the same accumulator give different accumulators. -/
theorem ax25_fcs_byte_injective_byte (s a b : Nat) (ha : a < 256) (hb : b < 256)
    (h : protocol_converter_impl.ax25_fcs_byte s a = protocol_converter_impl.ax25_fcs_byte s b) :
    a = b := by
  unfold protocol_converter_impl.ax25_fcs_byte at h
  have e := ax25_fcs_iterate_injective 8 _ _ (Nat.mod_lt _ (by norm_num))
    (Nat.mod_lt _ (by norm_num)) h
  rw [xor_mod_65536, xor_mod_65536 s b, Nat.xor_right_inj,
    Nat.mod_eq_of_lt (show a < 65536 by omega), Nat.mod_eq_of_lt (show b < 65536 by omega)] at e
  exact e

theorem m17_crc_byte_injective_state (s t c : Nat) (hs : s < 65536) (ht : t < 65536)
    (h : protocol_converter_impl.m17_crc_byte s c = protocol_converter_impl.m17_crc_byte t c) :
    s = t := by
  unfold protocol_converter_impl.m17_crc_byte at h
  have e := m17_crc_iterate_injective 8 _ _ (Nat.mod_lt _ (by norm_num))
    (Nat.mod_lt _ (by norm_num)) h
  rw [xor_mod_65536, xor_mod_65536, Nat.xor_left_inj, Nat.mod_eq_of_lt hs,
    Nat.mod_eq_of_lt ht] at e
  exact e

theorem m17_crc_byte_injective_byte (s a b : Nat) (ha : a < 256) (hb : b < 256)
    (h : protocol_converter_impl.m17_crc_byte s a = protocol_converter_impl.m17_crc_byte s b) :
    a = b := by
  unfold protocol_converter_impl.m17_crc_byte at h
  have e := m17_crc_iterate_injective 8 _ _ (Nat.mod_lt _ (by norm_num))
    (Nat.mod_lt _ (by norm_num)) h
  rw [xor_mod_65536, xor_mod_65536 s (b <<< 8), Nat.xor_right_inj, Nat.shiftLeft_eq,
    Nat.shiftLeft_eq] at e
  omega

theorem ax25_fcs_foldl_injective (w : List Nat) (s t : Nat) (hs : s < 65536) (ht : t < 65536)
    (h : w.foldl protocol_converter_impl.ax25_fcs_byte s
      = w.foldl protocol_converter_impl.ax25_fcs_byte t) : s = t := by
  induction w generalizing s t with
  | nil => simpa using h
  | cons c cs ih =>
    simp only [List.foldl_cons] at h
    exact ax25_fcs_byte_injective_state s t c hs ht
      (ih _ _ (protocol_converter_impl.ax25_fcs_byte_lt s c)
        (protocol_converter_impl.ax25_fcs_byte_lt t c) h)

theorem m17_crc_foldl_injective (w : List Nat) (s t : Nat) (hs : s < 65536) (ht : t < 65536)
    (h : w.foldl protocol_converter_impl.m17_crc_byte s
      = w.foldl protocol_converter_impl.m17_crc_byte t) : s = t := by
  induction w generalizing s t with
  | nil => simpa using h
  | cons c cs ih =>
    simp only [List.foldl_cons] at h
    exact m17_crc_byte_injective_state s t c hs ht
      (ih _ _ (protocol_converter_impl.m17_crc_byte_lt s c)
        (protocol_converter_impl.m17_crc_byte_lt t c) h)

/-- The AX.25 FCS of `u ++ a :: w` determines the byte `a`. -/
theorem calculate_ax25_fcs_one_byte (u w : List Nat) (a b : Nat) (ha : a < 256) (hb : b < 256)
    (h : protocol_converter_impl.calculate_ax25_fcs (u ++ a :: w)
      = protocol_converter_impl.calculate_ax25_fcs (u ++ b :: w)) : a = b := by
  unfold protocol_converter_impl.calculate_ax25_fcs at h
  simp only [List.foldl_append, List.foldl_cons] at h
  have hu := ax25_fcs_foldl_lt u 0xFFFF (by norm_num)
  have h1 := ax25_fcs_foldl_lt w _ (protocol_converter_impl.ax25_fcs_byte_lt
    (u.foldl protocol_converter_impl.ax25_fcs_byte 0xFFFF) a)
  have h2 := ax25_fcs_foldl_lt w _ (protocol_converter_impl.ax25_fcs_byte_lt
    (u.foldl protocol_converter_impl.ax25_fcs_byte 0xFFFF) b)
  rw [xor_mod_65536, xor_mod_65536 (List.foldl _ _ w), Nat.xor_left_inj,
    Nat.mod_eq_of_lt h1, Nat.mod_eq_of_lt h2] at h
  exact ax25_fcs_byte_injective_byte _ a b ha hb
    (ax25_fcs_foldl_injective w _ _ (protocol_converter_impl.ax25_fcs_byte_lt _ a)
      (protocol_converter_impl.ax25_fcs_byte_lt _ b) h)

/-- The M17 CRC of `u ++ a :: w` determines the byte `a`. -/
theorem calculate_m17_crc_one_byte (u w : List Nat) (a b : Nat) (ha : a < 256) (hb : b < 256)
    (h : protocol_converter_impl.calculate_m17_crc (u ++ a :: w)
      = protocol_converter_impl.calculate_m17_crc (u ++ b :: w)) : a = b := by
  unfold protocol_converter_impl.calculate_m17_crc at h
  simp only [List.foldl_append, List.foldl_cons] at h
  exact m17_crc_byte_injective_byte _ a b ha hb
    (m17_crc_foldl_injective w _ _ (protocol_converter_impl.m17_crc_byte_lt _ a)
      (protocol_converter_impl.m17_crc_byte_lt _ b) h)

theorem split_at_index (x y : List Nat) (hlen : x.length = y.length) (i : Nat)
    (hi : i < x.length) (hsame : ∀ j, j ≠ i → x[j]? = y[j]?) :
    ∃ (u w : List Nat) (a b : Nat),
      x = u ++ a :: w ∧ y = u ++ b :: w ∧ x[i]? = some a ∧ y[i]? = some b := by
  have hiy : i < y.length := hlen ▸ hi
  refine ⟨x.take i, x.drop (i + 1), x[i], y[i], ?_, ?_, ?_, ?_⟩
  · rw [← List.drop_eq_getElem_cons hi, List.take_append_drop]
  · have ht : x.take i = y.take i := by
      apply List.ext_getElem?
      intro n
      by_cases hn : n < i
      · rw [List.getElem?_take_of_lt hn, List.getElem?_take_of_lt hn]
        exact hsame n (by omega)
      · rw [List.getElem?_eq_none (by simp; omega), List.getElem?_eq_none (by simp; omega)]
    have hd : x.drop (i + 1) = y.drop (i + 1) := by
      apply List.ext_getElem?
      intro n
      rw [List.getElem?_drop, List.getElem?_drop]
      exact hsame _ (by omega)
    rw [ht, hd, ← List.drop_eq_getElem_cons hiy, List.take_append_drop]
  · exact List.getElem?_eq_getElem hi
  · exact List.getElem?_eq_getElem hiy

/-- C38: for `calculate_ax25_fcs` and for `calculate_m17_crc`, two byte sequences `x`, `y`
of equal length that differ at exactly one index `i` (different bytes at `i`, the same byte
at every other index) have different checksum values. -/
theorem C38_single_byte_corruption_detected (x y : List Nat)
    (hx : ∀ b ∈ x, b < 256) (hy : ∀ b ∈ y, b < 256) (hlen : x.length = y.length)
    (i : Nat) (hi : i < x.length) (hdiff : x[i]? ≠ y[i]?)
    (hsame : ∀ j, j ≠ i → x[j]? = y[j]?) :
    protocol_converter_impl.calculate_ax25_fcs x ≠ protocol_converter_impl.calculate_ax25_fcs y
    ∧ protocol_converter_impl.calculate_m17_crc x
        ≠ protocol_converter_impl.calculate_m17_crc y := by
  obtain ⟨u, w, a, b, hxe, hye, hxa, hyb⟩ := split_at_index x y hlen i hi hsame
  have ha : a < 256 := hx a (by rw [hxe]; simp)
  have hb : b < 256 := hy b (by rw [hye]; simp)
  have hab : a ≠ b := by
    intro e
    apply hdiff
    rw [hxa, hyb, e]
  rw [hxe, hye]
  exact ⟨fun h => hab (calculate_ax25_fcs_one_byte u w a b ha hb h),
    fun h => hab (calculate_m17_crc_one_byte u w a b ha hb h)⟩

/-- C38 at "HELLO" against "HELPO": the two differ at index 3 only. -/
theorem C38_single_byte_corruption_detected_witness :
    (∀ b ∈ hello_info, b < 256)
    ∧ hello_info.length = [0x48, 0x45, 0x4C, 0x50, 0x4F].length
    ∧ hello_info[3]? ≠ [0x48, 0x45, 0x4C, 0x50, 0x4F][3]?
    ∧ protocol_converter_impl.calculate_ax25_fcs hello_info
        ≠ protocol_converter_impl.calculate_ax25_fcs [0x48, 0x45, 0x4C, 0x50, 0x4F]
    ∧ protocol_converter_impl.calculate_m17_crc hello_info
        ≠ protocol_converter_impl.calculate_m17_crc [0x48, 0x45, 0x4C, 0x50, 0x4F] :=
  ⟨by decide, by decide, by decide,
    C38_single_byte_corruption_detected hello_info [0x48, 0x45, 0x4C, 0x50, 0x4F]
      (by decide) (by decide) (by decide) 3 (by decide) (by decide)
      (fun j hj => match j, hj with
        | 0, _ => rfl
        | 1, _ => rfl
        | 2, _ => rfl
        | 3, h => absurd rfl h
        | _ + 4, _ => rfl)⟩

/-- C39: on every buffer `detect_protocol` returns one of AX25, M17, FX25, IL2P, Unknown and
never APRS; every buffer of at least 2 bytes whose first byte is 0x7E, the condition of the
APRS branch, is classified AX25. -/
theorem C39_detect_protocol_never_aprs (data : List Nat) :
    detect_protocol data ≠ some protocol_type_t.PROTOCOL_APRS
    ∧ (detect_protocol data = some protocol_type_t.PROTOCOL_AX25
      ∨ detect_protocol data = some protocol_type_t.PROTOCOL_M17
      ∨ detect_protocol data = some protocol_type_t.PROTOCOL_FX25
      ∨ detect_protocol data = some protocol_type_t.PROTOCOL_IL2P
      ∨ detect_protocol data = some protocol_type_t.PROTOCOL_UNKNOWN)
    ∧ (∀ (d1 : Nat) (rest : List Nat),
        detect_protocol (0x7E :: d1 :: rest) = some protocol_type_t.PROTOCOL_AX25) := by
  have hcases : detect_protocol data = some protocol_type_t.PROTOCOL_AX25
      ∨ detect_protocol data = some protocol_type_t.PROTOCOL_M17
      ∨ detect_protocol data = some protocol_type_t.PROTOCOL_FX25
      ∨ detect_protocol data = some protocol_type_t.PROTOCOL_IL2P
      ∨ detect_protocol data = some protocol_type_t.PROTOCOL_UNKNOWN := by
    match data with
    | [] => exact Or.inr (Or.inr (Or.inr (Or.inr rfl)))
    | [_] => exact Or.inr (Or.inr (Or.inr (Or.inr rfl)))
    | d0 :: d1 :: rest =>
      rw [detect_protocol_cons_cons]
      split
      · exact Or.inl rfl
      · split
        · exact Or.inr (Or.inl rfl)
        · split
          · exact Or.inr (Or.inr (Or.inl rfl))
          · split
            · exact Or.inr (Or.inr (Or.inr (Or.inl rfl)))
            · exact Or.inr (Or.inr (Or.inr (Or.inr rfl)))
  refine ⟨?_, hcases, ?_⟩
  · rcases hcases with h | h | h | h | h <;> rw [h] <;> decide
  · intro d1 rest
    rw [detect_protocol_cons_cons]
    simp

/-! ## C40: every range and index of the converters is in bounds -/

theorem resize6_length (s : List Nat) : (protocol_converter_impl.resize6 s).length = 6 := by
  unfold protocol_converter_impl.resize6
  rw [List.length_append, List.length_take, List.length_replicate]
  omega

theorem push_shifted_checked_of_length (t : List Nat) (h : t.length = 6) :
    push_shifted_checked t = some (protocol_converter_impl.push_shifted t) := by
  match t, h with
  | [a, b, c, d, e, f], _ => rfl

theorem checked_range_eq (v : List Nat) (first back : Nat) (hb : back ≤ v.length)
    (hf : first ≤ v.length - back) :
    checked_range v first back = some ((v.take (v.length - back)).drop first) := by
  unfold checked_range
  rw [if_pos ⟨hb, hf⟩]

theorem checked_slice_eq (v : List Nat) (frame_start frame_end : Nat)
    (hs : frame_start ≤ frame_end) (he : frame_end ≤ v.length) :
    checked_slice v frame_start frame_end = some ((v.take frame_end).drop frame_start) := by
  unfold checked_slice
  rw [if_pos ⟨hs, he⟩]

theorem convert_single_ax25_to_m17_checked_eq (f : List Nat) :
    protocol_converter_impl.convert_single_ax25_to_m17_checked f
      = some (protocol_converter_impl.convert_single_ax25_to_m17 f) := by
  unfold protocol_converter_impl.convert_single_ax25_to_m17_checked
    protocol_converter_impl.convert_single_ax25_to_m17
  by_cases h10 : f.length < 10
  · simp only [h10, ite_true]
  · simp only [h10, ite_false]
    by_cases h16 : f.length > 14 + 2
    · simp only [h16, ite_true]
      rw [checked_range_eq f 14 3 (by omega) (by omega)]
      rfl
    · simp only [h16, ite_false]
      rfl

theorem convert_single_m17_to_ax25_checked_eq (self : protocol_converter_impl)
    (f : List Nat) :
    self.convert_single_m17_to_ax25_checked f = some (self.convert_single_m17_to_ax25 f) := by
  unfold protocol_converter_impl.convert_single_m17_to_ax25_checked
    protocol_converter_impl.convert_single_m17_to_ax25
  by_cases h48 : f.length < 48
  · simp only [h48, ite_true]
  · simp only [h48, ite_false]
    rw [checked_range_eq f 2 2 (by omega) (by omega),
      push_shifted_checked_of_length _ (resize6_length _),
      push_shifted_checked_of_length _ (resize6_length _)]
    rfl

theorem process_ax25_frame_checked_eq (st : ax25_to_m17_impl) :
    st.process_ax25_frame_checked = some st.process_ax25_frame := by
  unfold ax25_to_m17_impl.process_ax25_frame_checked ax25_to_m17_impl.process_ax25_frame
  by_cases h10 : st.d_frame_buffer.length < 10
  · simp only [h10, ite_true]
  · simp only [h10, ite_false]
    by_cases h16 : st.d_frame_buffer.length > 14 + 2
    · simp only [h16, ite_true]
      rw [checked_range_eq st.d_frame_buffer 14 2 (by omega) (by omega)]
      rfl
    · simp only [h16, ite_false]
      rfl

theorem convert_m17_to_ax25_loop_checked_eq (self : protocol_converter_impl) (d : List Nat)
    (fuel i : Nat) (result : List Nat) :
    protocol_converter_impl.convert_m17_to_ax25_loop_checked self d fuel i result
      = some (protocol_converter_impl.convert_m17_to_ax25_loop self d fuel i result) := by
  induction fuel generalizing i result with
  | zero => rfl
  | succ k ih =>
    unfold protocol_converter_impl.convert_m17_to_ax25_loop_checked
      protocol_converter_impl.convert_m17_to_ax25_loop
    by_cases hi : i < d.length
    · simp only [hi, ite_true]
      rw [List.getElem?_eq_getElem hi, Option.some_bind,
        show d.getD i 0 = d[i] from by simp [List.getD, List.getElem?_eq_getElem hi]]
      by_cases hb : d[i] = 0x5D
      · simp only [hb, ite_true]
        rw [checked_slice_eq d i (min (i + 48) d.length) (by omega) (by omega),
          Option.some_bind, convert_single_m17_to_ax25_checked_eq, Option.some_bind]
        exact ih _ _
      · simp only [hb, ite_false]
        exact ih _ _
    · simp only [hi, ite_false]

theorem convert_ax25_to_m17_loop_checked_eq (d : List Nat) (fuel i : Nat)
    (result : List Nat) :
    protocol_converter_impl.convert_ax25_to_m17_loop_checked d fuel i result
      = some (protocol_converter_impl.convert_ax25_to_m17_loop d fuel i result) := by
  induction fuel generalizing i result with
  | zero => rfl
  | succ k ih =>
    unfold protocol_converter_impl.convert_ax25_to_m17_loop_checked
      protocol_converter_impl.convert_ax25_to_m17_loop
    by_cases hi : i < d.length
    · simp only [hi, ite_true]
      rw [List.getElem?_eq_getElem hi, Option.some_bind,
        show d.getD i 0 = d[i] from by simp [List.getD, List.getElem?_eq_getElem hi]]
      by_cases hb : d[i] = 0x7E
      · simp only [hb, ite_true]
        have hadv := ax25_frame_end_advances d i hi
        rw [checked_slice_eq d i _ (by omega) hadv.2,
          Option.some_bind, convert_single_ax25_to_m17_checked_eq, Option.some_bind]
        exact ih _ _
      · simp only [hb, ite_false]
        exact ih _ _
    · simp only [hi, ite_false]

/-- C40: with every slice and index checked, the converters fail on no input: the checked
`convert_single_ax25_to_m17` (range [14, size-3)), `process_ax25_frame` (range
[14, size-2)), `convert_single_m17_to_ax25` (range [2, size-2), callsign characters 0..5
after `resize(6)`) and the two orchestrator scans return exactly what the unchecked code
returns; a resized callsign has 6 characters; and at every index `i` inside the input the
scans' frame bounds satisfy `frame_start = i < frame_end <= input length`. -/
theorem C40_converter_slices_in_bounds (self : protocol_converter_impl)
    (st : ax25_to_m17_impl) (f s d : List Nat) (i : Nat) (hi : i < d.length) :
    protocol_converter_impl.convert_single_ax25_to_m17_checked f
        = some (protocol_converter_impl.convert_single_ax25_to_m17 f)
    ∧ st.process_ax25_frame_checked = some st.process_ax25_frame
    ∧ self.convert_single_m17_to_ax25_checked f = some (self.convert_single_m17_to_ax25 f)
    ∧ (protocol_converter_impl.resize6 s).length = 6
    ∧ push_shifted_checked (protocol_converter_impl.resize6 s) = some (protocol_converter_impl.push_shifted (protocol_converter_impl.resize6 s))
    ∧ protocol_converter_impl.convert_m17_to_ax25_loop_checked self d d.length 0 []
        = some (self.convert_m17_to_ax25 d)
    ∧ protocol_converter_impl.convert_ax25_to_m17_loop_checked d d.length 0 []
        = some (protocol_converter_impl.convert_ax25_to_m17 d)
    ∧ (i < min (i + 48) d.length ∧ min (i + 48) d.length ≤ d.length)
    ∧ (i < protocol_converter_impl.ax25_frame_end_from (d.drop (i + 1)) (i + 1) (i + 1)
      ∧ protocol_converter_impl.ax25_frame_end_from (d.drop (i + 1)) (i + 1) (i + 1)
          ≤ d.length) := by
  have hadv := ax25_frame_end_advances d i hi
  exact ⟨convert_single_ax25_to_m17_checked_eq f, process_ax25_frame_checked_eq st,
    convert_single_m17_to_ax25_checked_eq self f, resize6_length s,
    push_shifted_checked_of_length _ (resize6_length s),
    convert_m17_to_ax25_loop_checked_eq self d d.length 0 [],
    convert_ax25_to_m17_loop_checked_eq d d.length 0 [],
    ⟨by omega, by omega⟩, ⟨by omega, hadv.2⟩⟩

/-- C40 at the "HELLO" AX.25 frame, index 0, test configuration. -/
theorem C40_converter_slices_in_bounds_witness :
    0 < hello_ax25_frame.length
    ∧ protocol_converter_impl.convert_single_ax25_to_m17_checked hello_m17_frame
        = some (protocol_converter_impl.convert_single_ax25_to_m17 hello_m17_frame)
    ∧ hello_open_state.process_ax25_frame_checked = some hello_open_state.process_ax25_frame
    ∧ test_converter.convert_single_m17_to_ax25_checked hello_m17_frame
        = some (test_converter.convert_single_m17_to_ax25 hello_m17_frame)
    ∧ (protocol_converter_impl.resize6 callsign_mapper_impl.W1AW).length = 6
    ∧ push_shifted_checked (protocol_converter_impl.resize6 callsign_mapper_impl.W1AW)
        = some (protocol_converter_impl.push_shifted
            (protocol_converter_impl.resize6 callsign_mapper_impl.W1AW))
    ∧ protocol_converter_impl.convert_m17_to_ax25_loop_checked test_converter
          hello_ax25_frame hello_ax25_frame.length 0 []
        = some (test_converter.convert_m17_to_ax25 hello_ax25_frame)
    ∧ protocol_converter_impl.convert_ax25_to_m17_loop_checked hello_ax25_frame
          hello_ax25_frame.length 0 []
        = some (protocol_converter_impl.convert_ax25_to_m17 hello_ax25_frame)
    ∧ (0 < min (0 + 48) hello_ax25_frame.length
      ∧ min (0 + 48) hello_ax25_frame.length ≤ hello_ax25_frame.length)
    ∧ (0 < protocol_converter_impl.ax25_frame_end_from (hello_ax25_frame.drop (0 + 1))
            (0 + 1) (0 + 1)
      ∧ protocol_converter_impl.ax25_frame_end_from (hello_ax25_frame.drop (0 + 1))
            (0 + 1) (0 + 1) ≤ hello_ax25_frame.length) :=
  ⟨by decide,
    C40_converter_slices_in_bounds test_converter hello_open_state hello_m17_frame
      callsign_mapper_impl.W1AW hello_ax25_frame 0 (by decide)⟩
